import Mathlib

/-!
# PixelTree firmware: BLE provisioning session, credential cipher, connection classifier

A shallow embedding of `Firmware/BLEProvisioning.h`, `Firmware/WiFiManager.h`,
`Firmware/NVSManager.h` and the credential endpoint of `Firmware/HTTPProvisioning.h`,
followed by theorems about the provisioning session.

Conventions of the embedding:

* the static members of a C++ class become the fields of a structure of the same name,
  and a static member function becomes a function on that structure;
* a `uint8_t` / `char` is a `Byte` (`Fin 256`), an Arduino `String` is a list of bytes
  (`AString`), `size_t` and `unsigned long` are 32 bits wide (ESP32), written as `Nat`
  with an explicit `% 2 ^ 32` where the source can wrap;
* heap buffers are lists together with their allocated length, and an access outside
  the allocation ends the call with `Exec.oob`;
* the libraries the firmware links against (mbedTLS, the radio driver, the Arduino
  `Preferences` store) are not part of the repository: mbedTLS is a parameter
  (`Mbedtls`), the radio driver is the event schedule of an attempt (`Radio`), and
  `Preferences` is modelled after its documented behaviour.
-/

set_option autoImplicit false
set_option maxRecDepth 100000

namespace PixelTree

/-! ## Bytes and Arduino strings -/

/-- One `uint8_t` / `char`. -/
abbrev Byte := Fin 256

/-- An Arduino `String`: a length-counted sequence of chars. -/
abbrev AString := List Byte

/-- Conversion of an integer to `uint8_t`: reduction modulo 256. -/
def byteOfNat (n : Nat) : Byte := ⟨n % 256, Nat.mod_lt n (by decide)⟩

/-- A string literal of the source as an Arduino `String`. -/
def lit (s : String) : AString := s.toList.map (fun c => byteOfNat c.toNat)

/-- The C string seen through `String::c_str()`: the chars before the first NUL. -/
def cstr (s : AString) : AString := s.takeWhile (fun c => c.val != 0)

/-- Arduino `String::substring(left, right)` for `left ≤ right`: the chars at
positions `left .. right - 1`, cut at the end of the string. -/
def substring (s : AString) (left right : Nat) : AString := (s.drop left).take (right - left)

/-- The result of running a piece of the firmware: it returns a value, or it reads or
writes outside an allocated buffer, which the C++ standard leaves undefined. -/
inductive Exec (α : Type) where
  | ret (v : α)
  | oob
deriving DecidableEq, Repr

/-! ## `strtoul` (C library, 32-bit `unsigned long`) -/

def ULONG_MAX : Nat := 2 ^ 32 - 1

/-- C `isspace` in the "C" locale: space, `\t`, `\n`, `\v`, `\f`, `\r`. -/
def isspace (c : Byte) : Bool := c.val == 32 || (9 ≤ c.val && c.val ≤ 13)

/-- The value of a char as a digit in a base up to 36, if it is alphanumeric. -/
def digitVal (c : Byte) : Option Nat :=
  if 48 ≤ c.val ∧ c.val ≤ 57 then some (c.val - 48)
  else if 65 ≤ c.val ∧ c.val ≤ 90 then some (c.val - 65 + 10)
  else if 97 ≤ c.val ∧ c.val ≤ 122 then some (c.val - 97 + 10)
  else none

/-- The digit loop of `strtoul`: consumes digits below `base`, stops at the first other
char (or NUL, or the end), and remembers whether the value left the `unsigned long`
range. Returns the accumulated value and the overflow mark. -/
def strtoulDigits (base : Nat) : List Byte → Nat → Bool → Nat × Bool
  | [], acc, ovf => (acc, ovf)
  | c :: cs, acc, ovf =>
    match digitVal c with
    | none => (acc, ovf)
    | some d =>
      if base ≤ d then (acc, ovf)
      else if ovf then strtoulDigits base cs acc true
      else if ULONG_MAX < acc * base + d then strtoulDigits base cs acc true
      else strtoulDigits base cs (acc * base + d) false

/-- Leading white space is skipped. -/
def skipSpace : List Byte → List Byte
  | [] => []
  | c :: cs => if isspace c then skipSpace cs else c :: cs

/-- An optional sign: the rest of the input and whether the sign was `-`. -/
def takeSign : List Byte → List Byte × Bool
  | c :: cs => if c.val = 45 then (cs, true) else if c.val = 43 then (cs, false) else (c :: cs, false)
  | [] => ([], false)

/-- An optional `0x` / `0X` before a base 16 number. -/
def takeHexMark : List Byte → List Byte
  | a :: b :: cs => if a.val = 48 ∧ (b.val = 120 ∨ b.val = 88) then cs else a :: b :: cs
  | s => s

/-- C `strtoul(s, NULL, 16)`: white space, sign, `0x`, hex digits; the value is
`ULONG_MAX` on overflow and is negated modulo `2 ^ 32` after a `-`. -/
def strtoul16 (s : AString) : Nat :=
  let (rest, neg) := takeSign (skipSpace s)
  let (acc, ovf) := strtoulDigits 16 (takeHexMark rest) 0 false
  if ovf then ULONG_MAX
  else if neg then (2 ^ 32 - acc) % 2 ^ 32
  else acc

/-- The byte `strtoul(hex.substring(i * 2, i * 2 + 2).c_str(), NULL, 16)` stored into a
`uint8_t`, which truncates. -/
def hexByteAt (hex : AString) (i : Nat) : Byte :=
  byteOfNat (strtoul16 (substring hex (i * 2) (i * 2 + 2)))

/-- The loop `for (i = 0; i < n; i++) buf[i] = strtoul(...)` shared by
`processAppPublicKey` and `decryptPassword`. -/
def hexToBytes (hex : AString) (n : Nat) : List Byte :=
  (List.range n).map (hexByteAt hex)

/-! ## mbedTLS, as far as the firmware calls it -/

/-- The ECDH context: our private scalar and the peer point loaded by
`mbedtls_ecdh_get_params`. -/
structure EcdhContext where
  d : List Byte
  Qp : List Byte
deriving DecidableEq, Repr

/-- The mbedTLS entry points used by `BLEProvisioning`, each returning its status code
(0 is success) and what it writes. The library is a parameter of the embedding. -/
structure Mbedtls where
  /-- Status of `mbedtls_ecp_group_load(grp, MBEDTLS_ECP_DP_SECP256R1)`. -/
  mbedtls_ecp_group_load : Int
  /-- Status of `mbedtls_ecp_point_read_binary(grp, Q, buf, 65)` on the 65 bytes. -/
  mbedtls_ecp_point_read_binary : List Byte → Int
  /-- Call `mbedtls_ecdh_get_params(ctx, peer, MBEDTLS_ECDH_THEIRS)`: status, new context. -/
  mbedtls_ecdh_get_params : EcdhContext → List Byte → Int × EcdhContext
  /-- Call `mbedtls_ecdh_calc_secret(ctx, &len, buf, 32, rng)`, given the current contents
  of `buf`: status, new context, new contents of `buf`. -/
  mbedtls_ecdh_calc_secret : EcdhContext → List Byte → Int × EcdhContext × List Byte
  /-- Status of `mbedtls_aes_setkey_dec(aes, key, keybits)`. -/
  mbedtls_aes_setkey_dec : List Byte → Nat → Int
  /-- Call `mbedtls_aes_crypt_ecb(aes, MBEDTLS_AES_DECRYPT, in, out)` under the key set
  before, on one 16-byte block: status and the 16 bytes written to `out`. -/
  mbedtls_aes_crypt_ecb : List Byte → List Byte → Int × List Byte

/-! ## `BLEProvisioning`: state and cryptography -/

/-- The `BLEProvisioning::ProvisioningState` enumeration. -/
inductive ProvisioningState where
  | STATE_IDLE
  | STATE_ADVERTISING
  | STATE_CONNECTED
  | STATE_KEY_EXCHANGED
  | STATE_CREDENTIALS_RECEIVED
  | STATE_CONNECTING
  | STATE_SUCCESS
  | STATE_FAILED
deriving DecidableEq, Repr

open ProvisioningState

/-- The static members of `BLEProvisioning`, the values held by its characteristics, and
what the BLE stack was asked to do (notifications sent, advertising on or off). -/
structure BLEProvisioning where
  currentState : ProvisioningState
  deviceConnected : Bool
  provisioningCompleted : Bool
  ecdhContext : EcdhContext
  sharedSecret : List Byte
  ourPublicKey : List Byte
  ourPublicKeyLen : Nat
  keyExchangeComplete : Bool
  receivedSSID : AString
  receivedPassword : AString
  /-- The value held by `pCredentialStatus`. -/
  credentialStatus : AString
  /-- The value held by `pWiFiScanResults`. -/
  wifiScanResults : AString
  /-- The values sent by `pCredentialStatus->notify()`, oldest first. -/
  notifications : List AString
  /-- Whether BLE advertising is running. -/
  advertising : Bool
deriving DecidableEq, Repr

namespace BLEProvisioning

/-- The offsets visited by `for (size_t i = 0; i < encLen; i += 16)`. -/
def blockOffsets (encLen : Nat) : List Nat := (List.range ((encLen + 15) / 16)).map (fun k => k * 16)

/-- The 16 bytes `mbedtls_aes_crypt_ecb` writes to its output block. -/
def block16 (out : List Byte) : List Byte := (out ++ List.replicate 16 0).take 16

/-- The decryption loop of `decryptPassword` over the block offsets. Every call reads 16
bytes at `encrypted + i` and writes 16 bytes at `decrypted + i`, both buffers being
`encLen` bytes long. Returns the decrypted buffer, or `none` when the cipher reported an
error (the source then returns the empty string). -/
def ecbLoop (M : Mbedtls) (key encrypted : List Byte) (encLen : Nat) :
    List Nat → List Byte → Exec (Option (List Byte))
  | [], decrypted => .ret (some decrypted)
  | i :: rest, decrypted =>
    if encLen < i + 16 then .oob
    else
      match M.mbedtls_aes_crypt_ecb key ((encrypted.drop i).take 16) with
      | (r, out) =>
        if r ≠ 0 then .ret none
        else ecbLoop M key encrypted encLen rest (decrypted ++ block16 out)

/-- The loop `for (i = 0; i < decryptedLen; i++) password += (char)decrypted[i]`: it
reads `decrypted[i]` for every `i < decryptedLen`, whatever the size of the buffer. -/
def copyOut : List Byte → Nat → Exec AString
  | _, 0 => .ret []
  | [], _ + 1 => .oob
  | b :: bs, n + 1 =>
    match copyOut bs n with
    | .ret rest => .ret (b :: rest)
    | .oob => .oob

/-- The function `BLEProvisioning::decryptPassword`. The empty string is its failure
value. The two buffers `encrypted` and `decrypted` are `new uint8_t[encLen]`; the result
is `Exec.oob` when the cipher is handed a block that ends after `encLen`, when the
padding byte is read at an index that is not below `encLen`, or when the copy loop runs
past the end of `decrypted`. -/
def decryptPassword (M : Mbedtls) (s : BLEProvisioning) (encryptedHex : AString) : Exec AString :=
  if !s.keyExchangeComplete then .ret []
  else
    let encLen := encryptedHex.length / 2
    let encrypted := hexToBytes encryptedHex encLen
    let key := s.sharedSecret.take 16
    if M.mbedtls_aes_setkey_dec key 128 ≠ 0 then .ret []
    else
      match ecbLoop M key encrypted encLen (blockOffsets encLen) [] with
      | .oob => .oob
      | .ret none => .ret []
      | .ret (some decrypted) =>
        -- uint8_t padding = decrypted[encLen - 1];
        let last := (encLen + 2 ^ 32 - 1) % 2 ^ 32
        if encLen ≤ last then .oob
        else
          let padding := (decrypted.getD last 0).val
          -- size_t decryptedLen = encLen - padding;
          let decryptedLen := (encLen + 2 ^ 32 - padding) % 2 ^ 32
          copyOut decrypted decryptedLen

/-- The function `BLEProvisioning::processAppPublicKey`: the returned flag and the statics
after the call. -/
def processAppPublicKey (M : Mbedtls) (s : BLEProvisioning) (hexKey : AString) :
    Bool × BLEProvisioning :=
  if hexKey.length ≠ 130 then (false, s)
  else
    let peerPublicKey := hexToBytes hexKey 65
    if (peerPublicKey.getD 0 0).val ≠ 4 then (false, s)
    else if M.mbedtls_ecp_group_load ≠ 0 then (false, s)
    else if M.mbedtls_ecp_point_read_binary peerPublicKey ≠ 0 then (false, s)
    else
      match M.mbedtls_ecdh_get_params s.ecdhContext peerPublicKey with
      | (r, ctx) =>
        if r ≠ 0 then (false, { s with ecdhContext := ctx })
        else
          match M.mbedtls_ecdh_calc_secret ctx s.sharedSecret with
          | (r2, ctx2, secret) =>
            if r2 ≠ 0 then (false, { s with ecdhContext := ctx2, sharedSecret := secret })
            else
              (true, { s with ecdhContext := ctx2, sharedSecret := secret,
                              keyExchangeComplete := true,
                              currentState := STATE_KEY_EXCHANGED })

end BLEProvisioning

/-! ## `WiFiManager`: connection attempts -/

inductive WiFiMode where
  | MODE_NONE
  | MODE_AP
  | MODE_STATION
  | MODE_AP_STATION
deriving DecidableEq, Repr

/-- The `WiFiManager::ConnectionResult` enumeration. -/
inductive ConnectionResult where
  | CONN_SUCCESS
  | CONN_WRONG_PASSWORD
  | CONN_SSID_NOT_FOUND
  | CONN_AUTH_FAILED
  | CONN_TIMEOUT
deriving DecidableEq, Repr

/-- The driver events the handler of `registerWiFiEventHandler` receives; a disconnect
carries its reason code, read into a `uint8_t`. -/
inductive WiFiEvent where
  | ARDUINO_EVENT_WIFI_STA_CONNECTED
  | ARDUINO_EVENT_WIFI_STA_GOT_IP
  | ARDUINO_EVENT_WIFI_STA_DISCONNECTED (reason : Byte)
  | otherEvent
deriving DecidableEq, Repr

def WIFI_CONNECT_TIMEOUT_MS : Nat := 30000

/-- The static members of `WiFiManager`, and what the radio driver and the mDNS
responder were asked to do. -/
structure WiFiManager where
  currentMode : WiFiMode
  connectionResult : ConnectionResult
  handshakeFailCount : Nat
  connectionDone : Bool
  eventHandlerRegistered : Bool
  /-- The calls `WiFi.begin(ssid, password)` made so far, oldest first. -/
  beginCalls : List (AString × AString)
  /-- The number of calls of `MDNS.begin`. -/
  mdnsBeginCalls : Nat
  /-- The number of calls of `MDNS.addService`. -/
  mdnsServices : Nat
deriving DecidableEq, Repr

/-- What the environment does during one call of `connectStation`. Driver events are
handled while the calling task sleeps in `delay`. -/
structure Radio where
  /-- Events delivered between `resetConnectionState` and the first test of the wait
  loop (`WiFi.mode`, `delay(100)`, `WiFi.begin`). -/
  early : List WiFiEvent
  /-- Events delivered during the successive `delay(100)` of the wait loop. -/
  slots : List (List WiFiEvent)
  /-- Events delivered during the `delay(100)` of the cleanup of a failed attempt. -/
  late : List WiFiEvent
  /-- Whether `MDNS.begin` succeeds. -/
  mdnsOk : Bool
deriving DecidableEq, Repr

namespace WiFiManager

open ConnectionResult WiFiMode WiFiEvent

/-- The function `WiFiManager::resetConnectionState`. -/
def resetConnectionState (w : WiFiManager) : WiFiManager :=
  { w with connectionResult := CONN_TIMEOUT, handshakeFailCount := 0, connectionDone := false }

/-- The lambda registered by `registerWiFiEventHandler`, on one event. -/
def onEvent (event : WiFiEvent) (w : WiFiManager) : WiFiManager :=
  match event with
  | ARDUINO_EVENT_WIFI_STA_CONNECTED => w
  | ARDUINO_EVENT_WIFI_STA_GOT_IP => { w with connectionResult := CONN_SUCCESS, connectionDone := true }
  | ARDUINO_EVENT_WIFI_STA_DISCONNECTED reason =>
    if reason.val = 15 ∨ reason.val = 204 then
      let w1 := { w with handshakeFailCount := w.handshakeFailCount + 1 }
      if 2 ≤ w1.handshakeFailCount then
        { w1 with connectionResult := CONN_WRONG_PASSWORD, connectionDone := true }
      else w1
    else if reason.val = 201 then
      { w with connectionResult := CONN_SSID_NOT_FOUND, connectionDone := true }
    else if reason.val = 202 ∨ reason.val = 2 then
      { w with connectionResult := CONN_AUTH_FAILED, connectionDone := true }
    else w
  | otherEvent => w

/-- Delivery of a batch of driver events, in order; nothing handles them unless the
handler was registered (`WiFiManager::begin`). -/
def deliver (events : List WiFiEvent) (w : WiFiManager) : WiFiManager :=
  if w.eventHandlerRegistered then events.foldl (fun acc e => onEvent e acc) w else w

/-- The wait loop of `connectStation`. The k-th test of the loop happens `100 * k` ms
after `startTime`, so `millis() - startTime > WIFI_CONNECT_TIMEOUT_MS` first holds at
`k = 301`; the first argument counts the tests still to come before that one. -/
def waitLoop : Nat → List (List WiFiEvent) → WiFiManager → WiFiManager
  | 0, _, w =>
    if w.connectionDone then w else { w with connectionResult := CONN_TIMEOUT }
  | n + 1, slots, w =>
    if w.connectionDone then w else waitLoop n slots.tail (deliver (slots.headD []) w)

/-- The function `WiFiManager::connectStation`: the returned result and the statics
after the call. -/
def connectStation (R : Radio) (ssid password : AString) (w : WiFiManager) :
    ConnectionResult × WiFiManager :=
  let w1 := resetConnectionState w
  let w2 := { w1 with beginCalls := w1.beginCalls ++ [(cstr ssid, cstr password)] }
  let w3 := waitLoop (WIFI_CONNECT_TIMEOUT_MS / 100 + 1) R.slots (deliver R.early w2)
  if w3.connectionResult = CONN_SUCCESS then
    let w4 := { w3 with currentMode := MODE_STATION, mdnsBeginCalls := w3.mdnsBeginCalls + 1,
                        mdnsServices := w3.mdnsServices + (if R.mdnsOk then 1 else 0) }
    (w4.connectionResult, w4)
  else
    let w4 := deliver R.late w3
    let w5 := { w4 with currentMode := MODE_NONE }
    (w5.connectionResult, w5)

/-- The function `WiFiManager::startAP`, given whether `WiFi.softAP` succeeds. -/
def startAP (softAPok : Bool) (w : WiFiManager) : Bool × WiFiManager :=
  if !softAPok then (false, w) else (true, { w with currentMode := MODE_AP })

end WiFiManager

/-! ## `NVSManager`: the credential store -/

/-- A value stored under a key of the `Preferences` namespace. -/
inductive NvsValue where
  | str (s : AString)
  | bool (b : Bool)
deriving DecidableEq, Repr

/-- The Arduino `Preferences` object `NVSManager::prefs`: whether the store accepts
writes (opened read-write by `prefs.begin`, flash writes succeeding), and its entries. -/
structure Preferences where
  writable : Bool
  entries : List (AString × NvsValue)
deriving DecidableEq, Repr

namespace Preferences

/-- The entry stored under a key, if any. -/
def get (p : Preferences) (key : AString) : Option NvsValue := p.entries.lookup key

/-- Replace the entry under a key. -/
def set (p : Preferences) (key : AString) (v : NvsValue) : Preferences :=
  { p with entries := (key, v) :: p.entries.filter (fun e => e.1 != key) }

/-- Arduino `Preferences::putString(key, String value)`: it stores `value.c_str()` and
returns `strlen` of it, or returns 0 when the store does not accept the write. -/
def putString (p : Preferences) (key value : AString) : Nat × Preferences :=
  if !p.writable then (0, p) else ((cstr value).length, p.set key (.str (cstr value)))

/-- Arduino `Preferences::putBool(key, value)`: returns 1, or 0 when the store does not
accept the write. -/
def putBool (p : Preferences) (key : AString) (value : Bool) : Nat × Preferences :=
  if !p.writable then (0, p) else (1, p.set key (.bool value))

end Preferences

def NVS_KEY_SSID : AString := lit "wifi_ssid"
def NVS_KEY_PASSWORD : AString := lit "wifi_pass"
def NVS_KEY_PROVISIONED : AString := lit "provisioned"

namespace NVSManager

/-- The function `NVSManager::saveCredentials`: the returned flag and the store after
the call. -/
def saveCredentials (ssid password : AString) (prefs : Preferences) : Bool × Preferences :=
  if ssid.isEmpty then (false, prefs)
  else
    match prefs.putString NVS_KEY_SSID ssid with
    | (n1, p1) =>
      if n1 = 0 then (false, p1)
      else
        match p1.putString NVS_KEY_PASSWORD password with
        | (n2, p2) =>
          if n2 = 0 then (false, p2)
          else
            match p2.putBool NVS_KEY_PROVISIONED true with
            | (n3, p3) => if n3 = 0 then (false, p3) else (true, p3)

end NVSManager

/-! ## The device and the BLE callbacks

A write callback starts with `String value = pCharacteristic->getValue().c_str();`. The
argument `value` of the functions below is that `String`. The BLE stack runs one
callback at a time, to completion. -/

/-- The firmware state the provisioning session touches. -/
structure Device where
  ble : BLEProvisioning
  wifi : WiFiManager
  prefs : Preferences
deriving DecidableEq, Repr

namespace BLEProvisioning

open ConnectionResult

/-- The call `pCredentialStatus->setValue(v)`. -/
def setStatus (v : AString) (b : BLEProvisioning) : BLEProvisioning :=
  { b with credentialStatus := v }

/-- The call `pCredentialStatus->notify()`: the current value is sent. -/
def notifyStatus (b : BLEProvisioning) : BLEProvisioning :=
  { b with notifications := b.notifications ++ [b.credentialStatus] }

/-- The function `BLEProvisioning::startAdvertising`. -/
def startAdvertising (b : BLEProvisioning) : BLEProvisioning := { b with advertising := true }

/-- The function `BLEProvisioning::stopAdvertising`. -/
def stopAdvertising (b : BLEProvisioning) : BLEProvisioning := { b with advertising := false }

/-- The callback `ServerCallbacks::onConnect`. -/
def ServerCallbacks.onConnect (d : Device) : Device :=
  { d with ble := { d.ble with deviceConnected := true, currentState := STATE_CONNECTED } }

/-- The callback `ServerCallbacks::onDisconnect`, given whether `WiFi.softAP` succeeds. -/
def ServerCallbacks.onDisconnect (softAPok : Bool) (d : Device) : Device :=
  let b := { d.ble with deviceConnected := false }
  if !b.provisioningCompleted then
    { d with ble := startAdvertising { b with currentState := STATE_ADVERTISING },
             wifi := (WiFiManager.startAP softAPok d.wifi).2 }
  else { d with ble := b }

/-- The callback `PublicKeyCallbacks::onWrite`. -/
def PublicKeyCallbacks.onWrite (M : Mbedtls) (value : AString) (d : Device) : Device :=
  { d with ble := (processAppPublicKey M d.ble value).2 }

/-- The callback `SSIDCallbacks::onWrite`. -/
def SSIDCallbacks.onWrite (value : AString) (d : Device) : Device :=
  { d with ble := { d.ble with receivedSSID := value } }

/-- The callback `PasswordCallbacks::onWrite`. -/
def PasswordCallbacks.onWrite (M : Mbedtls) (encryptedPassword : AString) (d : Device) :
    Exec Device :=
  match decryptPassword M d.ble encryptedPassword with
  | .oob => .oob
  | .ret password =>
    let b := { d.ble with receivedPassword := password }
    if b.receivedPassword.isEmpty then
      .ret { d with ble := { b with currentState := STATE_FAILED } }
    else
      .ret { d with ble := { b with currentState := STATE_CREDENTIALS_RECEIVED } }

/-- The failure branches of `ConnectCallbacks::onWrite`: back to
`STATE_CREDENTIALS_RECEIVED`, the status is set, notified and cleared. -/
def retryReady (status : AString) (b : BLEProvisioning) : BLEProvisioning :=
  setStatus (lit "") (notifyStatus (setStatus status
    { b with currentState := STATE_CREDENTIALS_RECEIVED }))

/-- The callback `ConnectCallbacks::onWrite`; `R` is what the radio does during the
connection attempt, if one is made. -/
def ConnectCallbacks.onWrite (R : Radio) (value : AString) (d : Device) : Device :=
  if value = lit "1" ∧ d.ble.currentState = STATE_CREDENTIALS_RECEIVED then
    let b := setStatus (lit "") { d.ble with currentState := STATE_CONNECTING }
    match WiFiManager.connectStation R b.receivedSSID b.receivedPassword d.wifi with
    | (result, wifi) =>
      match result with
      | CONN_SUCCESS =>
        let prefs := (NVSManager.saveCredentials b.receivedSSID b.receivedPassword d.prefs).2
        let b1 := notifyStatus (setStatus (lit "SUCCESS") { b with currentState := STATE_SUCCESS })
        { ble := stopAdvertising { b1 with provisioningCompleted := true },
          wifi := wifi, prefs := prefs }
      | CONN_WRONG_PASSWORD =>
        { ble := retryReady (lit "WRONG_PASSWORD") b, wifi := wifi, prefs := d.prefs }
      | CONN_SSID_NOT_FOUND =>
        { ble := retryReady (lit "SSID_NOT_FOUND") b, wifi := wifi, prefs := d.prefs }
      | CONN_AUTH_FAILED =>
        { ble := retryReady (lit "AUTH_FAILED") b, wifi := wifi, prefs := d.prefs }
      | CONN_TIMEOUT =>
        { ble := retryReady (lit "TIMEOUT") b, wifi := wifi, prefs := d.prefs }
  else d

end BLEProvisioning

/-- A command of the peer or an event of the BLE transport. -/
inductive Command where
  /-- A peer attaches (`ServerCallbacks::onConnect`). -/
  | attach
  /-- The peer disconnects (`ServerCallbacks::onDisconnect`). -/
  | detach (softAPok : Bool)
  /-- A write to the peer-public-key characteristic. -/
  | writePublicKey (value : AString)
  /-- A write to the ssid characteristic. -/
  | writeSSID (value : AString)
  /-- A write to the password characteristic. -/
  | writePassword (value : AString)
  /-- A write to the connect-trigger characteristic, with the behaviour of the radio
  during the attempt it may start. -/
  | writeConnect (value : AString) (R : Radio)
deriving DecidableEq, Repr

/-- One callback run to completion. -/
def step (M : Mbedtls) (c : Command) (d : Device) : Exec Device :=
  match c with
  | .attach => .ret (BLEProvisioning.ServerCallbacks.onConnect d)
  | .detach ok => .ret (BLEProvisioning.ServerCallbacks.onDisconnect ok d)
  | .writePublicKey v => .ret (BLEProvisioning.PublicKeyCallbacks.onWrite M v d)
  | .writeSSID v => .ret (BLEProvisioning.SSIDCallbacks.onWrite v d)
  | .writePassword v => BLEProvisioning.PasswordCallbacks.onWrite M v d
  | .writeConnect v R => .ret (BLEProvisioning.ConnectCallbacks.onWrite R v d)

/-! ## Fixtures: a stand-in cipher and sample devices -/

/-- Bytewise exclusive or of two byte strings. -/
def xorBytes (a b : List Byte) : List Byte :=
  List.zipWith (fun x y => byteOfNat (x.val ^^^ y.val)) a b

/-- A stand-in for mbedTLS with the same interface: the block cipher is the exclusive or
with the key, a point is accepted unless its last byte is `0xFF`, and the shared secret
is the exclusive or of our scalar with the 32 bytes after the tag of the peer point. -/
def standInTls : Mbedtls where
  mbedtls_ecp_group_load := 0
  mbedtls_ecp_point_read_binary := fun p => if (p.getD 64 0).val = 255 then -19584 else 0
  mbedtls_ecdh_get_params := fun ctx p => (0, { ctx with Qp := p })
  mbedtls_ecdh_calc_secret := fun ctx _ => (0, ctx, xorBytes ctx.d ((ctx.Qp.drop 1).take 32))
  mbedtls_aes_setkey_dec := fun _ keybits => if keybits = 128 then 0 else -32
  mbedtls_aes_crypt_ecb := fun key block => (0, xorBytes block key)

/-- The session right after `begin()`: advertising, nothing received, an empty store that
accepts writes, the event handler registered. Our scalar is 32 bytes of `0x11`; the
buffer of the local public key, which no callback reads, is left empty. -/
def bootDevice : Device where
  ble :=
    { currentState := STATE_ADVERTISING, deviceConnected := false,
      provisioningCompleted := false,
      ecdhContext := { d := List.replicate 32 17, Qp := [] },
      sharedSecret := List.replicate 32 0, ourPublicKey := [], ourPublicKeyLen := 0,
      keyExchangeComplete := false, receivedSSID := [], receivedPassword := [],
      credentialStatus := [], wifiScanResults := [], notifications := [],
      advertising := true }
  wifi :=
    { currentMode := .MODE_AP, connectionResult := .CONN_TIMEOUT, handshakeFailCount := 0,
      connectionDone := false, eventHandlerRegistered := true, beginCalls := [],
      mdnsBeginCalls := 0, mdnsServices := 0 }
  prefs := { writable := true, entries := [] }

/-- A radio on which nothing happens: the attempt times out. -/
def silentRadio : Radio := { early := [], slots := [], late := [], mdnsOk := true }

/-- A radio that delivers the given events during the first `delay(100)` of the loop. -/
def radioWith (events : List WiFiEvent) : Radio :=
  { early := [], slots := [events], late := [], mdnsOk := true }

/-- Run a sequence of callbacks, each to completion, in order. -/
def run (M : Mbedtls) : List Command → Device → Exec Device
  | [], d => .ret d
  | c :: rest, d =>
    match step M c d with
    | .ret d1 => run M rest d1
    | .oob => .oob

/-- The value a run returns, if it returns. -/
def Exec.value {α : Type} : Exec α → Option α
  | .ret v => some v
  | .oob => none

/-! ## The peer side of the credential cipher

The companion application is not part of the repository. Its encryption is written here
after the wire format the specification describes: PKCS#7 padding to a multiple of 16
bytes, every block encrypted on its own under the key, the result sent as hex text. -/

/-- One hex digit as an ASCII char, in upper or lower case. -/
def hexDigit (upper : Bool) (n : Nat) : Byte :=
  byteOfNat (if n < 10 then 48 + n else if upper then 55 + n else 87 + n)

/-- Two hex digits per byte, high nibble first. -/
def hexEncode (upper : Bool) (bs : List Byte) : AString :=
  bs.flatMap (fun b => [hexDigit upper (b.val / 16), hexDigit upper (b.val % 16)])

/-- PKCS#7 padding to the next multiple of 16: `n` bytes of value `n`, `1 ≤ n ≤ 16`. -/
def pkcs7Pad (pw : List Byte) : List Byte :=
  pw ++ List.replicate (16 - pw.length % 16) (byteOfNat (16 - pw.length % 16))

/-- Encryption of the first `m` 16-byte blocks of a message, each on its own. -/
def ecbEncryptBlocks (enc : List Byte → List Byte → List Byte) (key : List Byte) :
    Nat → List Byte → List Byte
  | 0, _ => []
  | m + 1, bs => enc key (bs.take 16) ++ ecbEncryptBlocks enc key m (bs.drop 16)

/-- ECB encryption of a message whose length is a multiple of 16. -/
def ecbEncrypt (enc : List Byte → List Byte → List Byte) (key bs : List Byte) : List Byte :=
  ecbEncryptBlocks enc key (bs.length / 16) bs

/-- What the peer writes to the password characteristic for a password. -/
def encryptPassword (enc : List Byte → List Byte → List Byte) (upper : Bool)
    (key pw : List Byte) : AString :=
  hexEncode upper (ecbEncrypt enc key (pkcs7Pad pw))

/-- The block encryption matching `standInTls`: exclusive or with the key. -/
def standInEnc (key block : List Byte) : List Byte := xorBytes block key

/-- A session that has received an ssid and a password and waits for the trigger. -/
def readyDevice : Device :=
  { bootDevice with
    ble := { bootDevice.ble with
      currentState := STATE_CREDENTIALS_RECEIVED, deviceConnected := true,
      keyExchangeComplete := true, receivedSSID := lit "HomeNet",
      receivedPassword := lit "hunter2" } }

/-- A peer public key in the wire format: the tag `04` and 64 bytes `0x22`. -/
def peerKeyHex : AString := lit "04" ++ List.replicate 128 (byteOfNat 50)

/-- The first 16 bytes of the secret `standInTls` derives from `peerKeyHex` on `bootDevice`. -/
def sampleKey : List Byte := List.replicate 16 (byteOfNat 51)

/-- The password "hunter2" as the peer sends it under `sampleKey`. -/
def sampleCiphertext : AString := encryptPassword standInEnc true sampleKey (lit "hunter2")

/-- A session in which the peer never writes an ssid: attach, key exchange, password,
connect-trigger, and the radio acquires an IP address. -/
def ssidlessSession : List Command :=
  [.attach, .writePublicKey peerKeyHex, .writePassword sampleCiphertext,
   .writeConnect (lit "1") (radioWith [.ARDUINO_EVENT_WIFI_STA_GOT_IP])]

/-- A complete session for the network "HomeNet" that ends in Success. -/
def homeNetSession : List Command :=
  [.attach, .writePublicKey peerKeyHex, .writeSSID (lit "HomeNet"),
   .writePassword sampleCiphertext,
   .writeConnect (lit "1") (radioWith [.ARDUINO_EVENT_WIFI_STA_GOT_IP])]

/-- The device after a successful attempt on `readyDevice`. -/
def successDevice : Device :=
  BLEProvisioning.ConnectCallbacks.onWrite (radioWith [.ARDUINO_EVENT_WIFI_STA_GOT_IP])
    (lit "1") readyDevice

/-- The device after a peer attached and completed the key exchange with `peerKeyHex`. -/
def keyedDevice : Device :=
  BLEProvisioning.PublicKeyCallbacks.onWrite standInTls peerKeyHex
    (BLEProvisioning.ServerCallbacks.onConnect bootDevice)

/-- One ciphertext block that decrypts under `sampleKey` to sixteen bytes `0x00`. -/
def zeroPaddingCiphertext : AString :=
  hexEncode true (ecbEncrypt standInEnc sampleKey (List.replicate 16 0))

/-- Two ciphertext blocks that decrypt under `sampleKey` to "hunter2" followed by 25
bytes of value 20. -/
def longPaddingCiphertext : AString :=
  hexEncode true (ecbEncrypt standInEnc sampleKey (lit "hunter2" ++ List.replicate 25 20))

/-- One ciphertext block that decrypts under `sampleKey` to "hunter2" followed by nine
bytes of value 200. -/
def hugePaddingCiphertext : AString :=
  hexEncode true (ecbEncrypt standInEnc sampleKey (lit "hunter2" ++ List.replicate 9 200))

/-! ## Classes of driver events

The vocabulary of the classifier, after the reason codes the handler tests. -/

namespace WiFiEvent

/-- A disconnect with a handshake-timeout reason: 15 (`4WAY_HANDSHAKE_TIMEOUT`) or 204
(`HANDSHAKE_TIMEOUT`). -/
def isHandshakeTimeout : WiFiEvent → Bool
  | ARDUINO_EVENT_WIFI_STA_DISCONNECTED reason => reason.val == 15 || reason.val == 204
  | _ => false

/-- An event the handler only logs: "associated", an event of another kind, or a
disconnect whose reason is none of 15, 204, 201, 202, 2. -/
def isIgnored : WiFiEvent → Bool
  | ARDUINO_EVENT_WIFI_STA_CONNECTED => true
  | otherEvent => true
  | ARDUINO_EVENT_WIFI_STA_GOT_IP => false
  | ARDUINO_EVENT_WIFI_STA_DISCONNECTED reason =>
    !(reason.val == 15 || reason.val == 204 || reason.val == 201 || reason.val == 202
      || reason.val == 2)

end WiFiEvent

/-- The number of handshake-timeout disconnects in a stream of events. -/
def handshakeTimeouts (events : List WiFiEvent) : Nat :=
  events.countP WiFiEvent.isHandshakeTimeout

/-- A stream without terminal classification for an attempt that starts with its counter
at 0: only ignored events and handshake timeouts, of the latter at most one. -/
def nonTerminal (events : List WiFiEvent) : Bool :=
  events.all (fun e => e.isIgnored || e.isHandshakeTimeout)
    && decide (handshakeTimeouts events ≤ 1)

/-- The events an attempt handles when it runs into the timeout: those before the loop,
those of the 301 `delay(100)` of the loop, and those of the cleanup. -/
def Radio.handled (R : Radio) : List WiFiEvent :=
  R.early ++ (R.slots.take (WIFI_CONNECT_TIMEOUT_MS / 100 + 1)).flatten ++ R.late

/-- The first handshake timeout of an attempt, with reason 15. -/
def handshakeTimeout15 : WiFiEvent := .ARDUINO_EVENT_WIFI_STA_DISCONNECTED 15

/-- A handshake timeout with the other reason code, 204. -/
def handshakeTimeout204 : WiFiEvent := .ARDUINO_EVENT_WIFI_STA_DISCONNECTED 204

/-- The statics of `WiFiManager` when `connectStation` has reset the classification and
called `WiFi.begin`, before any event of the attempt. -/
def WiFiManager.started (ssid password : AString) (w : WiFiManager) : WiFiManager :=
  { WiFiManager.resetConnectionState w with
    beginCalls := (WiFiManager.resetConnectionState w).beginCalls
      ++ [(cstr ssid, cstr password)] }

/-- The statics after `k` more handshake timeouts were counted and nothing else changed. -/
def WiFiManager.counted (k : Nat) (w : WiFiManager) : WiFiManager :=
  { w with handshakeFailCount := w.handshakeFailCount + k }

/-- A radio on which an association and one handshake timeout are followed, two polls
later, by a disconnect with the given reason; the events of the last poll never arrive. -/
def lateDisconnectRadio (reason : Byte) : Radio :=
  { early := [.ARDUINO_EVENT_WIFI_STA_CONNECTED],
    slots := [[handshakeTimeout15], [],
              [.otherEvent, .ARDUINO_EVENT_WIFI_STA_DISCONNECTED reason],
              [.ARDUINO_EVENT_WIFI_STA_GOT_IP]],
    late := [], mdnsOk := true }

/-- The `HTTPProvisioning::ProvisioningState` enumeration. -/
inductive HTTPProvisioning.ProvisioningState where
  | STATE_IDLE
  | STATE_SCANNING
  | STATE_SCANNED
  | STATE_CONNECTING
  | STATE_SUCCESS
  | STATE_FAILED
deriving DecidableEq, Repr

/-- The static members of `HTTPProvisioning` (the server pointer apart). -/
structure HTTPProvisioning where
  currentState : HTTPProvisioning.ProvisioningState
  lastScanResults : AString
  receivedSSID : AString
  receivedPassword : AString
deriving DecidableEq, Repr

/-- A response handed to `request->send`: the status code and the members of the JSON
object in its body, in order, each value as text. -/
structure HttpResponse where
  code : Nat
  body : List (AString × AString)
deriving DecidableEq, Repr

/-- The JSON object of a `POST /api/provision` body, as far as the handler reads it: for
each of the two keys, `none` when `containsKey` is false, else the `as<String>()` of its
value. -/
structure ProvisionRequest where
  ssid : Option AString
  password : Option AString
deriving DecidableEq, Repr

/-- The firmware state the HTTP endpoint touches. -/
structure HttpDevice where
  http : HTTPProvisioning
  wifi : WiFiManager
  prefs : Preferences
deriving DecidableEq, Repr

/-- The integer value of an enumerator of `ConnectionResult`, in declaration order. -/
def ConnectionResult.toNat : ConnectionResult → Nat
  | .CONN_SUCCESS => 0
  | .CONN_WRONG_PASSWORD => 1
  | .CONN_SSID_NOT_FOUND => 2
  | .CONN_AUTH_FAILED => 3
  | .CONN_TIMEOUT => 4

namespace HTTPProvisioning

/-- The function `HTTPProvisioning::handleProvision`, given what the radio does during the
attempt and the text of `WiFi.localIP()`: the response sent and the state after it. The
source stores the result of `connectStation` in `bool success`, a conversion of the
enumeration to `bool` that is true for every enumerator but the one with value 0. -/
def handleProvision (R : Radio) (localIP : AString) (json : ProvisionRequest) (d : HttpDevice) :
    HttpResponse × HttpDevice :=
  match json.ssid, json.password with
  | some ssid, some password =>
    let h := { d.http with receivedSSID := ssid, receivedPassword := password,
                           currentState := .STATE_CONNECTING }
    match WiFiManager.connectStation R h.receivedSSID h.receivedPassword d.wifi with
    | (result, wifi) =>
      let success : Bool := decide (result.toNat ≠ 0)
      if success then
        let prefs := (NVSManager.saveCredentials h.receivedSSID h.receivedPassword d.prefs).2
        ({ code := 200,
           body := [(lit "status", lit "success"), (lit "connected", lit "true"),
                    (lit "ip", localIP)] },
         { http := { h with currentState := .STATE_SUCCESS }, wifi := wifi, prefs := prefs })
      else
        ({ code := 400,
           body := [(lit "status", lit "failed"),
                    (lit "error", lit "Could not connect to WiFi")] },
         { http := { h with currentState := .STATE_FAILED }, wifi := wifi, prefs := d.prefs })
  | _, _ =>
    ({ code := 400, body := [(lit "error", lit "Missing ssid or password")] }, d)

end HTTPProvisioning

/-- The HTTP endpoint on the freshly booted device. -/
def bootHttp : HttpDevice :=
  { http := { currentState := .STATE_IDLE, lastScanResults := [], receivedSSID := [],
              receivedPassword := [] },
    wifi := bootDevice.wifi, prefs := bootDevice.prefs }

/-- The request body with ssid "HomeNet" and password "hunter2". -/
def homeNetRequest : ProvisionRequest :=
  { ssid := some (lit "HomeNet"), password := some (lit "hunter2") }

/-- The empty password as the peer sends it under `sampleKey`: one block of sixteen
bytes `0x10`, encrypted. -/
def emptyPasswordCiphertext : AString := encryptPassword standInEnc true sampleKey []

/-- The stand-in library with a block cipher that reports an error on every block. -/
def faultyCipherTls : Mbedtls :=
  { standInTls with mbedtls_aes_crypt_ecb := fun _ _ => (-33, []) }

/-- A session up to the point where ssid and password have been received. -/
def credentialsSession : List Command :=
  [.attach, .writePublicKey peerKeyHex, .writeSSID (lit "HomeNet"),
   .writePassword sampleCiphertext]

/-- The session `readyDevice` with a store that refuses every write. -/
def readOnlyDevice : Device :=
  { readyDevice with prefs := { writable := false, entries := [] } }

/-! ## Successful attempts along a session -/

/-- Whether a command is a connect-trigger that is accepted in the state `d` and whose
attempt returns `CONN_SUCCESS`. -/
def Command.succeeds (c : Command) (d : Device) : Bool :=
  match c with
  | .writeConnect v R =>
    decide (v = lit "1" ∧ d.ble.currentState = STATE_CREDENTIALS_RECEIVED)
      && decide ((WiFiManager.connectStation R d.ble.receivedSSID d.ble.receivedPassword
            d.wifi).1 = .CONN_SUCCESS)
  | _ => false

/-- Whether some connection attempt has succeeded in the course of a run of commands. -/
def anySucceeded (M : Mbedtls) : List Command → Device → Bool
  | [], _ => false
  | c :: rest, d =>
    c.succeeds d ||
      match step M c d with
      | .ret d1 => anySucceeded M rest d1
      | .oob => false

/-! ## `BLEProvisioning::begin` and the local key pair -/

/-- The mbedTLS entry points used by `initCrypto`, each returning its status code (0 is
success) and what it writes. -/
structure MbedtlsKeygen where
  /-- Status of `mbedtls_ctr_drbg_seed(ctr_drbg, mbedtls_entropy_func, entropy, pers, len)`. -/
  mbedtls_ctr_drbg_seed : Int
  /-- Status of `mbedtls_ecdh_setup(ctx, MBEDTLS_ECP_DP_SECP256R1)`. -/
  mbedtls_ecdh_setup : Int
  /-- Call `mbedtls_ecdh_make_params(ctx, &olen, buf, blen, rng)`, given the context and
  the current contents of `buf`: status, new context, the length written to `olen`, new
  contents of `buf`. -/
  mbedtls_ecdh_make_params : EcdhContext → List Byte → Int × EcdhContext × Nat × List Byte

namespace BLEProvisioning

/-- The statics of `BLEProvisioning` as their initialisers leave them at power-on, the
characteristics holding no value. -/
def staticInit : BLEProvisioning where
  currentState := STATE_IDLE
  deviceConnected := false
  provisioningCompleted := false
  ecdhContext := { d := [], Qp := [] }
  sharedSecret := List.replicate 32 0
  ourPublicKey := List.replicate 128 0
  ourPublicKeyLen := 0
  keyExchangeComplete := false
  receivedSSID := []
  receivedPassword := []
  credentialStatus := []
  wifiScanResults := []
  notifications := []
  advertising := false

/-- The function `BLEProvisioning::initCrypto`: the returned flag and the statics after
the call. `mbedtls_ecdh_init` clears the context. -/
def initCrypto (K : MbedtlsKeygen) (s : BLEProvisioning) : Bool × BLEProvisioning :=
  let s0 := { s with ecdhContext := { d := [], Qp := [] } }
  if K.mbedtls_ctr_drbg_seed ≠ 0 then (false, s0)
  else if K.mbedtls_ecdh_setup ≠ 0 then (false, s0)
  else
    match K.mbedtls_ecdh_make_params s0.ecdhContext s0.ourPublicKey with
    | (r, ctx, olen, buf) =>
      let s1 := { s0 with ecdhContext := ctx, ourPublicKeyLen := olen, ourPublicKey := buf }
      if r ≠ 0 then (false, s1)
      else (true, { s1 with keyExchangeComplete := false })

/-- The function `BLEProvisioning::begin`: the returned flag and the device after the
call. Creating the server and the services installs the callbacks and hands the text of
`getPublicKey()` to the read-only characteristic; neither changes a static. -/
def begin (K : MbedtlsKeygen) (d : Device) : Bool × Device :=
  match initCrypto K d.ble with
  | (false, b) => (false, { d with ble := b })
  | (true, b) =>
    (true, { d with ble := { startAdvertising b with currentState := STATE_ADVERTISING } })

end BLEProvisioning

/-- A stand-in key generation matching `standInTls`: the scalar is 32 bytes `0x11`, and
the buffer receives the three bytes naming the curve, the length byte 65 and the point
(the tag `04` and 64 bytes `0x2A`), 69 bytes in all. -/
def standInKeygen : MbedtlsKeygen where
  mbedtls_ctr_drbg_seed := 0
  mbedtls_ecdh_setup := 0
  mbedtls_ecdh_make_params := fun ctx buf =>
    (0, { ctx with d := List.replicate 32 17 }, 69,
     [3, 0, 23, 65, 4] ++ List.replicate 64 42 ++ buf.drop 69)

/-- The device at power-on, before `begin()`: the statics at their initialisers, the
radio and the store as on `bootDevice`. -/
def powerOnDevice : Device :=
  { ble := BLEProvisioning.staticInit, wifi := bootDevice.wifi, prefs := bootDevice.prefs }

/-- The session `credentialsSession` run after `begin()` at power-on. -/
def credentialsDevice : Device :=
  (run standInTls credentialsSession
    (BLEProvisioning.begin standInKeygen powerOnDevice).2).value.getD powerOnDevice

namespace BLEProvisioning

/-- The text `snprintf(hex, sizeof(hex), "%02X", b)` writes for a `uint8_t`: two hex
digits in upper case. -/
def fmt02X (b : Byte) : AString := [hexDigit true (b.val / 16), hexDigit true (b.val % 16)]

/-- The loop `for (size_t i = keyStart; i < ourPublicKeyLen; i++)` of `getPublicKey`, at
index `i` with `n` iterations to go: each reads `ourPublicKey[i]`, inside the buffer or
not, and appends its two digits. -/
def hexKeyLoop (buf : List Byte) : Nat → Nat → AString → Exec AString
  | _, 0, hexKey => .ret hexKey
  | i, n + 1, hexKey =>
    match buf[i]? with
    | none => .oob
    | some b => hexKeyLoop buf (i + 1) n (hexKey ++ fmt02X b)

/-- The function `BLEProvisioning::getPublicKey`. The subtraction
`ourPublicKeyLen - 65` is one of `size_t`. -/
def getPublicKey (s : BLEProvisioning) : Exec AString :=
  let keyStart := (s.ourPublicKeyLen + 2 ^ 32 - 65) % 2 ^ 32
  hexKeyLoop s.ourPublicKey keyStart (s.ourPublicKeyLen - keyStart) []

/-- The last 65 bytes of the key buffer, of which `ourPublicKeyLen` bytes were written. -/
def lastKeyBytes (s : BLEProvisioning) : List Byte :=
  (s.ourPublicKey.take s.ourPublicKeyLen).drop (s.ourPublicKeyLen - 65)

end BLEProvisioning

/-- An ASCII hex digit in upper case: `0`..`9` or `A`..`F`. -/
def isUpperHexDigit (c : Byte) : Bool :=
  (48 ≤ c.val && c.val ≤ 57) || (65 ≤ c.val && c.val ≤ 70)

/-! ## Successive calls of `connectStation` within one boot -/

/-- A radio on which "network not found" and "IP acquired" arrive within the same
`delay(100)` of the wait loop, in this order. -/
def overtakenRadio : Radio :=
  radioWith [.ARDUINO_EVENT_WIFI_STA_DISCONNECTED 201, .ARDUINO_EVENT_WIFI_STA_GOT_IP]

/-- A radio on which, after one handshake timeout, "network not found" is followed in
the same poll by ignored events only; an "IP acquired" is held for the next poll. -/
def decidedRadio : Radio :=
  { early := [],
    slots := [[handshakeTimeout15, .ARDUINO_EVENT_WIFI_STA_DISCONNECTED 201,
               .ARDUINO_EVENT_WIFI_STA_DISCONNECTED 8, .ARDUINO_EVENT_WIFI_STA_CONNECTED],
              [.ARDUINO_EVENT_WIFI_STA_GOT_IP]],
    late := [.ARDUINO_EVENT_WIFI_STA_DISCONNECTED 8], mdnsOk := true }

/-- A string of 130 chars that is not hex text: the pair `4G`, then 64 times `ZZ`. -/
def nonHexKey : AString := lit "4G" ++ (List.replicate 64 (lit "ZZ")).flatten

/-- A string of 130 chars that starts with a blank: the pair ` 4`, then 64 times `22`. -/
def blankKey : AString := lit " 4" ++ List.replicate 128 (byteOfNat 50)

/-- A char that is a hex digit for `strtoul`: `0`..`9`, `a`..`f`, `A`..`F`. -/
def isHexDigit (c : Byte) : Bool :=
  match digitVal c with
  | some v => decide (v < 16)
  | none => false

/-! ## `WiFiManager::scanNetworks` -/

/-- One entry of the scan list of the radio driver, as the firmware reads it through
`WiFi.SSID(i)`, `WiFi.RSSI(i)` and `WiFi.encryptionType(i)`. -/
structure ScanRecord where
  ssid : AString
  rssi : Int
  encryptionType : Nat
deriving DecidableEq, Repr

/-- The enumerator `WIFI_AUTH_OPEN` of the driver. -/
def WIFI_AUTH_OPEN : Nat := 0

namespace WiFiManager

/-- The local constant `MAX_PAYLOAD_SIZE` of `scanNetworks`. -/
def MAX_PAYLOAD_SIZE : Nat := 480

/-- The text `networkJson` the loop body builds for the record at index `i`; `String(int)`
is the decimal text of the number. -/
def networkJson (i : Nat) (n : ScanRecord) : AString :=
  (if 0 < i then lit "," else lit "")
    ++ lit "\x7b"
    ++ (lit "\"ssid\":\"" ++ n.ssid ++ lit "\",")
    ++ (lit "\"rssi\":" ++ lit (toString n.rssi) ++ lit ",")
    ++ (lit "\"secure\":"
        ++ (if n.encryptionType ≠ WIFI_AUTH_OPEN then lit "true" else lit "false"))
    ++ lit "\x7d"

/-- The loop `for (int i = 0; i < networkCount; i++)` of `scanNetworks`, at index `i`
with the records still to visit: the text `json` when the loop is left, by `break` or at
its end. The lengths compared are far below the range of `int`. -/
def scanLoop : List ScanRecord → Nat → AString → AString
  | [], _, json => json
  | n :: rest, i, json =>
    if json.length + (networkJson i n).length + 1 > MAX_PAYLOAD_SIZE then json
    else scanLoop rest (i + 1) (json ++ networkJson i n)

/-- The function `WiFiManager::scanNetworks`, given the scan list the driver found;
`networkCount` is its length. (A scan that fails reports a negative count: the loop then
makes no iteration and the text is `[]` as for the empty list.) -/
def scanNetworks (found : List ScanRecord) : AString :=
  if found.length = 0 then lit "[]"
  else scanLoop found 0 (lit "[") ++ lit "]"

end WiFiManager

/-- Texts separated by commas. -/
def commaSeparated : List AString → AString
  | [] => []
  | e :: es => e ++ (es.map (fun x => lit "," ++ x)).flatten

/-- The JSON array of a list of networks without its closing bracket. -/
def openArray (nets : List ScanRecord) : AString :=
  lit "[" ++ commaSeparated (nets.map (WiFiManager.networkJson 0))

/-- The encoding of a list of networks: the JSON array of their entries, in order. -/
def encodeNetworks (nets : List ScanRecord) : AString := openArray nets ++ lit "]"

/-- A scan list of twelve networks with names of 32 chars. -/
def crowdedScan : List ScanRecord :=
  (List.range 12).map (fun i =>
    { ssid := List.replicate 32 (byteOfNat (65 + i)), rssi := -40 - i,
      encryptionType := i % 2 })

/-! ## The end of the wait, and fixtures for what follows it -/

/-- The statics of `WiFiManager` at the moment the wait loop of `connectStation` is left,
before the result is handled. -/
def WiFiManager.waited (R : Radio) (ssid password : AString) (w : WiFiManager) : WiFiManager :=
  WiFiManager.waitLoop (WIFI_CONNECT_TIMEOUT_MS / 100 + 1) R.slots
    (WiFiManager.deliver R.early (WiFiManager.started ssid password w))

/-- The batches of events of an attempt in the order the handler sees them while the
wait lasts: those delivered before the first test of the loop, then those of each
`delay(100)`. The done flag is tested after each batch. -/
def Radio.polls (R : Radio) : List (List WiFiEvent) := R.early :: R.slots

/-- A radio on which "network not found" ends the wait and "authentication failed"
arrives during the `delay(100)` of the cleanup. -/
def lateAuthRadio : Radio :=
  { early := [], slots := [[.ARDUINO_EVENT_WIFI_STA_DISCONNECTED 201]],
    late := [.ARDUINO_EVENT_WIFI_STA_DISCONNECTED 202], mdnsOk := true }

/-- A radio on which "authentication expired" arrives right after the association,
before the first test of the wait loop; an "IP acquired" is held for the first poll. -/
def earlyAuthRadio : Radio :=
  { early := [.ARDUINO_EVENT_WIFI_STA_CONNECTED, .ARDUINO_EVENT_WIFI_STA_DISCONNECTED 2],
    slots := [[.ARDUINO_EVENT_WIFI_STA_GOT_IP]], late := [], mdnsOk := true }

/-- The password "hunter2" as the peer sends it under the key of sixteen bytes `0x00`,
the first half of the secret of `successDevice`. -/
def zeroKeyCiphertext : AString :=
  encryptPassword standInEnc true (List.replicate 16 0) (lit "hunter2")

/-- The session `successDevice` after the peer came back: attach, and a password write. -/
def revisitedDevice : Device :=
  (run standInTls [.attach, .writePassword zeroKeyCiphertext] successDevice).value.getD
    successDevice

/-! # Theorems -/

open BLEProvisioning ConnectionResult

/-! ## What a connection attempt leaves alone -/

namespace WiFiManager

theorem onEvent_beginCalls (e : WiFiEvent) (w : WiFiManager) :
    (onEvent e w).beginCalls = w.beginCalls := by
  cases e <;> simp only [onEvent]
  repeat (first | rfl | split)

theorem foldl_onEvent_beginCalls (es : List WiFiEvent) (w : WiFiManager) :
    (es.foldl (fun acc e => onEvent e acc) w).beginCalls = w.beginCalls := by
  induction es generalizing w with
  | nil => rfl
  | cons e es ih => rw [List.foldl_cons, ih, onEvent_beginCalls]

theorem deliver_beginCalls (es : List WiFiEvent) (w : WiFiManager) :
    (deliver es w).beginCalls = w.beginCalls := by
  unfold deliver
  split
  · exact foldl_onEvent_beginCalls es w
  · rfl

theorem waitLoop_beginCalls (n : Nat) (slots : List (List WiFiEvent)) (w : WiFiManager) :
    (waitLoop n slots w).beginCalls = w.beginCalls := by
  induction n generalizing slots w with
  | zero => unfold waitLoop; split <;> rfl
  | succ n ih =>
    unfold waitLoop
    split
    · rfl
    · rw [ih, deliver_beginCalls]

/-- Every call of `connectStation` makes one `WiFi.begin` call, with the C strings of
its arguments. -/
theorem connectStation_beginCalls (R : Radio) (ssid password : AString) (w : WiFiManager) :
    (connectStation R ssid password w).2.beginCalls
      = w.beginCalls ++ [(cstr ssid, cstr password)] := by
  unfold connectStation
  simp only []
  split
  · simp only [waitLoop_beginCalls, deliver_beginCalls, resetConnectionState]
  · simp only [waitLoop_beginCalls, deliver_beginCalls, resetConnectionState]

end WiFiManager

/-! ## The connect trigger -/

/-- An accepted trigger makes exactly one `WiFi.begin` call, with the cached credentials. -/
theorem onWrite_accepted_beginCalls (R : Radio) (d : Device)
    (hs : d.ble.currentState = STATE_CREDENTIALS_RECEIVED) :
    (ConnectCallbacks.onWrite R (lit "1") d).wifi.beginCalls
      = d.wifi.beginCalls ++ [(cstr d.ble.receivedSSID, cstr d.ble.receivedPassword)] := by
  have h : lit "1" = lit "1" ∧ d.ble.currentState = STATE_CREDENTIALS_RECEIVED := ⟨rfl, hs⟩
  unfold ConnectCallbacks.onWrite
  rw [if_pos h]
  simp only [setStatus]
  rw [← WiFiManager.connectStation_beginCalls R d.ble.receivedSSID d.ble.receivedPassword d.wifi]
  generalize WiFiManager.connectStation R d.ble.receivedSSID d.ble.receivedPassword d.wifi = r
  obtain ⟨res, w⟩ := r
  cases res <;> rfl

/-- The session fields an accepted trigger leaves alone, and the state it ends in. -/
theorem onWrite_accepted_ble (R : Radio) (d : Device)
    (hs : d.ble.currentState = STATE_CREDENTIALS_RECEIVED) :
    let r := (WiFiManager.connectStation R d.ble.receivedSSID d.ble.receivedPassword d.wifi).1
    let d1 := ConnectCallbacks.onWrite R (lit "1") d
    d1.ble.currentState = (if r = CONN_SUCCESS then STATE_SUCCESS else STATE_CREDENTIALS_RECEIVED)
    ∧ d1.ble.receivedSSID = d.ble.receivedSSID
    ∧ d1.ble.receivedPassword = d.ble.receivedPassword
    ∧ d1.ble.keyExchangeComplete = d.ble.keyExchangeComplete
    ∧ d1.ble.sharedSecret = d.ble.sharedSecret := by
  have h : lit "1" = lit "1" ∧ d.ble.currentState = STATE_CREDENTIALS_RECEIVED := ⟨rfl, hs⟩
  unfold ConnectCallbacks.onWrite
  rw [if_pos h]
  simp only [setStatus]
  generalize WiFiManager.connectStation R d.ble.receivedSSID d.ble.receivedPassword d.wifi = r
  obtain ⟨res, w⟩ := r
  cases res <;> simp [retryReady, setStatus, notifyStatus, stopAdvertising]

/-- A trigger that is not accepted is a no-op on the whole device. -/
theorem onWrite_rejected (R : Radio) (value : AString) (d : Device)
    (h : ¬ (value = lit "1" ∧ d.ble.currentState = STATE_CREDENTIALS_RECEIVED)) :
    ConnectCallbacks.onWrite R value d = d := by
  unfold ConnectCallbacks.onWrite
  rw [if_neg h]

/-- C1. Connect-trigger gating: `ConnectCallbacks::onWrite` starts a connection attempt
(a `WiFi.begin` call) if and only if the written value is exactly "1" and the state is
`STATE_CREDENTIALS_RECEIVED`; for any other value or any other state the handler returns
the device as it found it: state, ssid, password, key-exchange flag, status
characteristic, notifications sent, radio and credential store are all unchanged. -/
theorem C1_connect_trigger_gating (R : Radio) (value : AString) (d : Device) :
    ((ConnectCallbacks.onWrite R value d).wifi.beginCalls ≠ d.wifi.beginCalls
        ↔ (value = lit "1" ∧ d.ble.currentState = STATE_CREDENTIALS_RECEIVED))
    ∧ (¬ (value = lit "1" ∧ d.ble.currentState = STATE_CREDENTIALS_RECEIVED)
        → ConnectCallbacks.onWrite R value d = d) := by
  refine ⟨⟨?_, ?_⟩, onWrite_rejected R value d⟩
  · intro hne
    by_contra h
    exact hne (by rw [onWrite_rejected R value d h])
  · rintro ⟨hv, hs⟩
    subst hv
    rw [onWrite_accepted_beginCalls R d hs]
    simp

/-- C2. After an accepted connect-trigger whose attempt ends in any outcome other than
Success, the state is `STATE_CREDENTIALS_RECEIVED` (not `STATE_IDLE`), the cached ssid,
password, key-exchange flag and shared secret are what they were, and a repeated
connect-trigger "1" is accepted: it starts a new attempt with the same credentials. -/
theorem C2_failure_keeps_session_ready (R : Radio) (d : Device)
    (hs : d.ble.currentState = STATE_CREDENTIALS_RECEIVED)
    (hr : (WiFiManager.connectStation R d.ble.receivedSSID d.ble.receivedPassword d.wifi).1
            ≠ CONN_SUCCESS) :
    (ConnectCallbacks.onWrite R (lit "1") d).ble.currentState = STATE_CREDENTIALS_RECEIVED
    ∧ (ConnectCallbacks.onWrite R (lit "1") d).ble.currentState ≠ STATE_IDLE
    ∧ (ConnectCallbacks.onWrite R (lit "1") d).ble.receivedSSID = d.ble.receivedSSID
    ∧ (ConnectCallbacks.onWrite R (lit "1") d).ble.receivedPassword = d.ble.receivedPassword
    ∧ (ConnectCallbacks.onWrite R (lit "1") d).ble.keyExchangeComplete
        = d.ble.keyExchangeComplete
    ∧ (ConnectCallbacks.onWrite R (lit "1") d).ble.sharedSecret = d.ble.sharedSecret
    ∧ ∀ R2 : Radio,
        (ConnectCallbacks.onWrite R2 (lit "1")
            (ConnectCallbacks.onWrite R (lit "1") d)).wifi.beginCalls
          = (ConnectCallbacks.onWrite R (lit "1") d).wifi.beginCalls
              ++ [(cstr d.ble.receivedSSID, cstr d.ble.receivedPassword)] := by
  obtain ⟨h1, h2, h3, h4, h5⟩ := onWrite_accepted_ble R d hs
  rw [if_neg hr] at h1
  refine ⟨h1, ?_, h2, h3, h4, h5, ?_⟩
  · rw [h1]; decide
  · intro R2
    rw [onWrite_accepted_beginCalls R2 _ h1, h2, h3]

/-- Witness of C2: on `readyDevice`, an attempt that meets "network not found" ends in
`CONN_SSID_NOT_FOUND` and leaves the session in `STATE_CREDENTIALS_RECEIVED`. -/
theorem C2_witness :
    readyDevice.ble.currentState = STATE_CREDENTIALS_RECEIVED
    ∧ (WiFiManager.connectStation (radioWith [.ARDUINO_EVENT_WIFI_STA_DISCONNECTED 201])
        (lit "HomeNet") (lit "hunter2") readyDevice.wifi).1 = CONN_SSID_NOT_FOUND
    ∧ (ConnectCallbacks.onWrite (radioWith [.ARDUINO_EVENT_WIFI_STA_DISCONNECTED 201])
        (lit "1") readyDevice).ble.currentState = STATE_CREDENTIALS_RECEIVED :=
  ⟨by decide, by decide,
   (C2_failure_keeps_session_ready (radioWith [.ARDUINO_EVENT_WIFI_STA_DISCONNECTED 201])
      readyDevice (by decide) (by decide)).1⟩

/-! ## The credential store -/

/-- A string without NUL is its own C string. -/
theorem cstr_eq_self (s : AString) (h : (0 : Byte) ∉ s) : cstr s = s := by
  unfold cstr
  rw [List.takeWhile_eq_self_iff]
  intro c hc
  have : c ≠ 0 := fun h0 => h (h0 ▸ hc)
  have hv : c.val ≠ 0 := fun h0 => this (Fin.ext h0)
  simpa using hv

namespace Preferences

theorem get_set_same (p : Preferences) (key : AString) (v : NvsValue) :
    (p.set key v).get key = some v := by
  simp [get, set, List.lookup]

theorem lookup_filter_ne (es : List (AString × NvsValue)) (key key2 : AString) (h : key2 ≠ key) :
    (es.filter (fun e => e.1 != key)).lookup key2 = es.lookup key2 := by
  induction es with
  | nil => rfl
  | cons e es ih =>
    obtain ⟨k, x⟩ := e
    by_cases hk : k = key
    · subst hk
      have h1 : (key2 == k) = false := by simpa using h
      simp [List.filter, List.lookup, h1, ih]
    · have h1 : (k != key) = true := by simpa using hk
      simp only [List.filter, h1, List.lookup, ih]

theorem get_set_other (p : Preferences) (key key2 : AString) (v : NvsValue) (h : key2 ≠ key) :
    (p.set key v).get key2 = p.get key2 := by
  have h1 : (key2 == key) = false := by simpa using h
  simp only [get, set, List.lookup, h1]
  exact lookup_filter_ne p.entries key key2 h

end Preferences

namespace NVSManager

/-- `saveCredentials` refuses an empty ssid and leaves the store alone. -/
theorem saveCredentials_empty (password : AString) (prefs : Preferences) :
    saveCredentials [] password prefs = (false, prefs) := rfl

/-- On a store that accepts writes, `saveCredentials` with a non-empty ssid and a
non-empty password, both free of NUL, stores the three entries. -/
theorem saveCredentials_ok (ssid password : AString) (prefs : Preferences)
    (hw : prefs.writable = true) (hs : ssid ≠ []) (hs0 : (0 : Byte) ∉ ssid)
    (hp : password ≠ []) (hp0 : (0 : Byte) ∉ password) :
    saveCredentials ssid password prefs
      = (true, ((prefs.set NVS_KEY_SSID (.str ssid)).set NVS_KEY_PASSWORD (.str password)).set
                  NVS_KEY_PROVISIONED (.bool true)) := by
  have e1 : ssid.isEmpty = false := by cases ssid <;> simp_all
  have l1 : ssid.length ≠ 0 := by simpa using hs
  have l2 : password.length ≠ 0 := by simpa using hp
  simp [saveCredentials, e1, Preferences.putString, Preferences.putBool, hw, Preferences.set,
    cstr_eq_self _ hs0, cstr_eq_self _ hp0, l1, l2]

end NVSManager

/-- C3 (amended). For every accepted connect-trigger: if the attempt ends in Success the
store after the handler is the store after exactly one `saveCredentials(ssid, password)`
call, and when the store accepts writes and the cached ssid and password are non-empty
and free of NUL bytes it then holds that ssid, that password and provisioned = true; if
the attempt ends in any other outcome, or the cached ssid is empty (never written), the
store is left unchanged. -/
theorem C3_persistence_on_success_only (R : Radio) (d : Device)
    (hs : d.ble.currentState = STATE_CREDENTIALS_RECEIVED) :
    ((WiFiManager.connectStation R d.ble.receivedSSID d.ble.receivedPassword d.wifi).1
          = CONN_SUCCESS →
        (ConnectCallbacks.onWrite R (lit "1") d).prefs
          = (NVSManager.saveCredentials d.ble.receivedSSID d.ble.receivedPassword d.prefs).2)
    ∧ ((WiFiManager.connectStation R d.ble.receivedSSID d.ble.receivedPassword d.wifi).1
          = CONN_SUCCESS →
        d.prefs.writable = true →
        d.ble.receivedSSID ≠ [] → (0 : Byte) ∉ d.ble.receivedSSID →
        d.ble.receivedPassword ≠ [] → (0 : Byte) ∉ d.ble.receivedPassword →
        (ConnectCallbacks.onWrite R (lit "1") d).prefs.get NVS_KEY_SSID
            = some (.str d.ble.receivedSSID)
        ∧ (ConnectCallbacks.onWrite R (lit "1") d).prefs.get NVS_KEY_PASSWORD
            = some (.str d.ble.receivedPassword)
        ∧ (ConnectCallbacks.onWrite R (lit "1") d).prefs.get NVS_KEY_PROVISIONED
            = some (.bool true))
    ∧ ((WiFiManager.connectStation R d.ble.receivedSSID d.ble.receivedPassword d.wifi).1
          ≠ CONN_SUCCESS ∨ d.ble.receivedSSID = [] →
        (ConnectCallbacks.onWrite R (lit "1") d).prefs = d.prefs) := by
  have h : lit "1" = lit "1" ∧ d.ble.currentState = STATE_CREDENTIALS_RECEIVED := ⟨rfl, hs⟩
  have key : (ConnectCallbacks.onWrite R (lit "1") d).prefs
      = if (WiFiManager.connectStation R d.ble.receivedSSID d.ble.receivedPassword d.wifi).1
            = CONN_SUCCESS
        then (NVSManager.saveCredentials d.ble.receivedSSID d.ble.receivedPassword d.prefs).2
        else d.prefs := by
    unfold ConnectCallbacks.onWrite
    rw [if_pos h]
    simp only [setStatus]
    generalize WiFiManager.connectStation R d.ble.receivedSSID d.ble.receivedPassword d.wifi = r
    obtain ⟨res, w⟩ := r
    cases res <;> simp
  refine ⟨?_, ?_, ?_⟩
  · intro hr
    rw [key, if_pos hr]
  · intro hr hw h1 h2 h3 h4
    rw [key, if_pos hr, NVSManager.saveCredentials_ok _ _ _ hw h1 h2 h3 h4]
    refine ⟨?_, ?_, ?_⟩
    · rw [Preferences.get_set_other _ _ _ _ (by decide),
        Preferences.get_set_other _ _ _ _ (by decide), Preferences.get_set_same]
    · rw [Preferences.get_set_other _ _ _ _ (by decide), Preferences.get_set_same]
    · rw [Preferences.get_set_same]
  · rintro (hr | he)
    · rw [key, if_neg hr]
    · rw [key, he]
      split <;> rfl


/-- Witness of C3: a successful attempt on `readyDevice` leaves provisioned = true. -/
theorem C3_witness :
    readyDevice.ble.currentState = STATE_CREDENTIALS_RECEIVED
    ∧ (ConnectCallbacks.onWrite (radioWith [.ARDUINO_EVENT_WIFI_STA_GOT_IP]) (lit "1")
        readyDevice).prefs.get NVS_KEY_PROVISIONED = some (.bool true) :=
  ⟨by decide,
   ((C3_persistence_on_success_only (radioWith [.ARDUINO_EVENT_WIFI_STA_GOT_IP]) readyDevice
      (by decide)).2.1 (by decide) (by decide) (by decide) (by decide) (by decide)
      (by decide)).2.2⟩

/-- C3 fails as stated: in a session whose ssid was never written (attach, key
exchange, password write, connect-trigger) the attempt succeeds, "SUCCESS" is notified,
and the credential store is exactly what it was at boot: no ssid, no password, no
provisioned flag. -/
theorem C3_counterexample :
    (run standInTls ssidlessSession bootDevice).value.map
        (fun d => (d.ble.currentState, d.ble.notifications, d.prefs))
      = some (STATE_SUCCESS, [lit "SUCCESS"], bootDevice.prefs) := by
  decide

/-! ## After Success -/

/-- What `processAppPublicKey` changes: nothing of the state and the flag when it
returns false, both when it returns true. -/
theorem processAppPublicKey_frame (M : Mbedtls) (s : BLEProvisioning) (hexKey : AString) :
    (processAppPublicKey M s hexKey).2.provisioningCompleted = s.provisioningCompleted
    ∧ (processAppPublicKey M s hexKey).2.advertising = s.advertising
    ∧ ((processAppPublicKey M s hexKey).1 = false →
        (processAppPublicKey M s hexKey).2.currentState = s.currentState
        ∧ (processAppPublicKey M s hexKey).2.keyExchangeComplete = s.keyExchangeComplete)
    ∧ ((processAppPublicKey M s hexKey).1 = true →
        (processAppPublicKey M s hexKey).2.currentState = STATE_KEY_EXCHANGED
        ∧ (processAppPublicKey M s hexKey).2.keyExchangeComplete = true) := by
  unfold processAppPublicKey
  simp only []
  repeat (first | split | simp)

/-- The connect-trigger never clears the completed flag and never starts advertising. -/
theorem onWrite_frame (R : Radio) (value : AString) (d : Device) :
    (d.ble.provisioningCompleted = true →
      (ConnectCallbacks.onWrite R value d).ble.provisioningCompleted = true)
    ∧ (d.ble.advertising = false →
      (ConnectCallbacks.onWrite R value d).ble.advertising = false) := by
  unfold ConnectCallbacks.onWrite
  split
  · simp only [setStatus]
    generalize WiFiManager.connectStation R d.ble.receivedSSID d.ble.receivedPassword d.wifi = r
    obtain ⟨res, w⟩ := r
    cases res <;> simp [retryReady, setStatus, notifyStatus, stopAdvertising]
  · exact ⟨id, id⟩

/-- C4 fails as stated: the session `homeNetSession` ends in `STATE_SUCCESS`, and one
more password write moves the state to `STATE_CREDENTIALS_RECEIVED`, one more peer
attach to `STATE_CONNECTED`. -/
theorem C4_counterexample :
    (run standInTls homeNetSession bootDevice).value.map (fun d => d.ble.currentState)
      = some STATE_SUCCESS
    ∧ (run standInTls (homeNetSession ++ [.writePassword sampleCiphertext])
          bootDevice).value.map (fun d => d.ble.currentState)
        = some STATE_CREDENTIALS_RECEIVED
    ∧ (run standInTls (homeNetSession ++ [.attach]) bootDevice).value.map
          (fun d => d.ble.currentState)
        = some STATE_CONNECTED := by
  decide

/-! ## The credential cipher: round trip -/

/-- Decoding the two hex digits of a byte with `strtoul` gives the byte back. -/
theorem hexPair_decode : ∀ (upper : Bool) (b : Byte),
    byteOfNat (strtoul16 [hexDigit upper (b.val / 16), hexDigit upper (b.val % 16)]) = b := by
  decide

theorem hexByteAt_zero (a b : Byte) (rest : AString) :
    hexByteAt (a :: b :: rest) 0 = byteOfNat (strtoul16 [a, b]) := by
  simp [hexByteAt, substring]

theorem hexByteAt_succ (a b : Byte) (rest : AString) (i : Nat) :
    hexByteAt (a :: b :: rest) (i + 1) = hexByteAt rest i := by
  have h : (i + 1) * 2 = i * 2 + 1 + 1 := by omega
  simp [hexByteAt, substring, h]

theorem hexToBytes_cons (a b : Byte) (rest : AString) (n : Nat) :
    hexToBytes (a :: b :: rest) (n + 1) = byteOfNat (strtoul16 [a, b]) :: hexToBytes rest n := by
  unfold hexToBytes
  rw [List.range_succ_eq_map, List.map_cons, List.map_map, hexByteAt_zero]
  congr 1
  apply List.map_congr_left
  intro i _
  exact hexByteAt_succ a b rest i

theorem hexEncode_cons (upper : Bool) (b : Byte) (bs : List Byte) :
    hexEncode upper (b :: bs)
      = hexDigit upper (b.val / 16) :: hexDigit upper (b.val % 16) :: hexEncode upper bs := by
  simp [hexEncode]

theorem hexEncode_length (upper : Bool) (bs : List Byte) :
    (hexEncode upper bs).length = 2 * bs.length := by
  induction bs with
  | nil => rfl
  | cons b bs ih => rw [hexEncode_cons, List.length_cons, List.length_cons, ih, List.length_cons]; omega

/-- The decoding loop of the firmware inverts the hex encoding. -/
theorem hexToBytes_hexEncode (upper : Bool) (bs : List Byte) :
    hexToBytes (hexEncode upper bs) bs.length = bs := by
  induction bs with
  | nil => rfl
  | cons b bs ih => rw [hexEncode_cons, List.length_cons, hexToBytes_cons, ih, hexPair_decode]

/-- Copying out exactly the bytes in front of the padding stays inside the buffer. -/
theorem copyOut_append (a b : List Byte) : copyOut (a ++ b) a.length = .ret a := by
  induction a with
  | nil => cases b <;> rfl
  | cons x a ih =>
    rw [List.cons_append, List.length_cons, copyOut, ih]

theorem block16_of_length (b : List Byte) (h : b.length = 16) : block16 b = b := by
  unfold block16
  rw [List.take_append_of_le_length (by omega), ← h, List.take_length]

theorem ecbEncryptBlocks_length (enc : List Byte → List Byte → List Byte) (key : List Byte)
    (henc : ∀ b : List Byte, b.length = 16 → (enc key b).length = 16) :
    ∀ (m : Nat) (P : List Byte), P.length = 16 * m →
      (ecbEncryptBlocks enc key m P).length = 16 * m := by
  intro m
  induction m with
  | zero => intro P _; rfl
  | succ m ih =>
    intro P hP
    rw [ecbEncryptBlocks, List.length_append, henc _ (by rw [List.length_take]; omega),
      ih _ (by rw [List.length_drop]; omega)]
    omega

/-- The decryption loop, started at block `k` of a buffer whose remaining `m` blocks are
the encryption of `P`, appends `P` to what it has decrypted so far. -/
theorem ecbLoop_decrypts (M : Mbedtls) (enc : List Byte → List Byte → List Byte)
    (key : List Byte)
    (henc : ∀ b : List Byte, b.length = 16 → (enc key b).length = 16)
    (hdec : ∀ b : List Byte, b.length = 16 → M.mbedtls_aes_crypt_ecb key (enc key b) = (0, b)) :
    ∀ (m k : Nat) (P front acc : List Byte), P.length = 16 * m → front.length = 16 * k →
      ecbLoop M key (front ++ ecbEncryptBlocks enc key m P) (16 * (k + m))
          ((List.range' k m).map (fun j => j * 16)) acc
        = .ret (some (acc ++ P)) := by
  intro m
  induction m with
  | zero =>
    intro k P front acc hP _
    have : P = [] := List.length_eq_zero.mp (by omega)
    subst this
    simp [ecbLoop]
  | succ m ih =>
    intro k P front acc hP hfront
    have hk : front.length = k * 16 := by omega
    have htake : (P.take 16).length = 16 := by rw [List.length_take]; omega
    have hdrop : (P.drop 16).length = 16 * m := by rw [List.length_drop]; omega
    have hblk : ((front ++ ecbEncryptBlocks enc key (m + 1) P).drop (k * 16)).take 16
        = enc key (P.take 16) := by
      rw [← hk, List.drop_left, ecbEncryptBlocks,
        List.take_append_of_le_length (by rw [henc _ htake])]
      exact List.take_of_length_le (by rw [henc _ htake])
    have hnot : ¬ (16 * (k + (m + 1)) < k * 16 + 16) := by omega
    rw [List.range'_succ, List.map_cons, ecbLoop, if_neg hnot, hblk, hdec _ htake]
    simp only [ne_eq, not_true_eq_false, if_false, block16_of_length _ htake]
    have hstep := ih (k + 1) (P.drop 16) (front ++ enc key (P.take 16)) (acc ++ P.take 16) hdrop
      (by rw [List.length_append, hfront, henc _ htake]; omega)
    have e1 : 16 * (k + 1 + m) = 16 * (k + (m + 1)) := by omega
    rw [e1, List.append_assoc, List.append_assoc, List.take_append_drop] at hstep
    rw [ecbEncryptBlocks]
    exact hstep


theorem pkcs7Pad_length (pw : List Byte) :
    (pkcs7Pad pw).length = 16 * (pw.length / 16 + 1) := by
  unfold pkcs7Pad
  rw [List.length_append, List.length_replicate]
  omega

theorem blockOffsets_mul (m : Nat) :
    blockOffsets (16 * m) = (List.range' 0 m).map (fun j => j * 16) := by
  unfold blockOffsets
  have h : (16 * m + 15) / 16 = m := by omega
  rw [h, List.range_eq_range']

theorem pkcs7Pad_last (pw : List Byte) :
    ((pkcs7Pad pw).getD (16 * (pw.length / 16 + 1) - 1) 0).val = 16 - pw.length % 16 := by
  unfold pkcs7Pad
  have h1 : pw.length ≤ 16 * (pw.length / 16 + 1) - 1 := by omega
  rw [List.getD_eq_getElem?_getD, List.getElem?_append_right h1, List.getElem?_replicate]
  have h2 : 16 * (pw.length / 16 + 1) - 1 - pw.length < 16 - pw.length % 16 := by omega
  rw [if_pos h2]
  simp only [Option.getD_some, byteOfNat]
  omega

/-- C5. Encrypt/decrypt round trip: let the block cipher be a keyed permutation of
16-byte blocks whose decryption (`mbedtls_aes_crypt_ecb`, status 0) inverts the
encryption `enc`, and let `mbedtls_aes_setkey_dec` accept 16-byte keys. Then for every
16-byte key equal to the first 16 bytes of the shared secret of a session whose key
exchange is complete, and every password of 0 to 240 bytes, `decryptPassword` applied to
the hex text (upper or lower case) of the ECB encryption of the PKCS#7-padded password
returns exactly that password. -/
theorem C5_encrypt_decrypt_round_trip (M : Mbedtls) (enc : List Byte → List Byte → List Byte)
    (upper : Bool) (s : BLEProvisioning) (key pw : List Byte)
    (hkx : s.keyExchangeComplete = true)
    (hkey : s.sharedSecret.take 16 = key)
    (hklen : key.length = 16)
    (hset : ∀ k : List Byte, k.length = 16 → M.mbedtls_aes_setkey_dec k 128 = 0)
    (henc : ∀ k b : List Byte, k.length = 16 → b.length = 16 → (enc k b).length = 16)
    (hdec : ∀ k b : List Byte, k.length = 16 → b.length = 16 →
      M.mbedtls_aes_crypt_ecb k (enc k b) = (0, b))
    (hlen : pw.length ≤ 240) :
    decryptPassword M s (encryptPassword enc upper key pw) = .ret pw := by
  have hP := pkcs7Pad_length pw
  have hct : (ecbEncrypt enc key (pkcs7Pad pw)).length = 16 * (pw.length / 16 + 1) := by
    unfold ecbEncrypt
    have hm : (pkcs7Pad pw).length / 16 = pw.length / 16 + 1 := by omega
    rw [hm]
    exact ecbEncryptBlocks_length enc key (fun b hb => henc key b hklen hb) _ _ hP
  have hex : (encryptPassword enc upper key pw).length / 2 = 16 * (pw.length / 16 + 1) := by
    unfold encryptPassword
    rw [hexEncode_length, hct]
    omega
  have hbytes : hexToBytes (encryptPassword enc upper key pw) (16 * (pw.length / 16 + 1))
      = ecbEncrypt enc key (pkcs7Pad pw) := by
    unfold encryptPassword
    rw [← hct]
    exact hexToBytes_hexEncode upper _
  have hloop : ecbLoop M key (ecbEncrypt enc key (pkcs7Pad pw)) (16 * (pw.length / 16 + 1))
      (blockOffsets (16 * (pw.length / 16 + 1))) [] = .ret (some (pkcs7Pad pw)) := by
    have h := ecbLoop_decrypts M enc key (fun b hb => henc key b hklen hb)
      (fun b hb => hdec key b hklen hb) (pw.length / 16 + 1) 0 (pkcs7Pad pw) [] [] hP rfl
    rw [blockOffsets_mul]
    unfold ecbEncrypt
    have hm : (pkcs7Pad pw).length / 16 = pw.length / 16 + 1 := by omega
    rw [hm]
    simpa using h
  have hlast : (16 * (pw.length / 16 + 1) + 2 ^ 32 - 1) % 2 ^ 32
      = 16 * (pw.length / 16 + 1) - 1 := by omega
  have hnot : ¬ (16 * (pw.length / 16 + 1) ≤ 16 * (pw.length / 16 + 1) - 1) := by omega
  have hdl : (16 * (pw.length / 16 + 1) + 2 ^ 32 - (16 - pw.length % 16)) % 2 ^ 32
      = pw.length := by omega
  unfold decryptPassword
  simp only [hkx, Bool.not_true, Bool.false_eq_true, if_false, hkey, hset key hklen, ne_eq,
    not_true_eq_false, hex, hbytes, hloop, hlast, hnot, pkcs7Pad_last, hdl]
  unfold pkcs7Pad
  exact copyOut_append pw _

/-! ## The stand-in cipher is a keyed permutation -/

theorem xorByte_cancel (x y : Byte) :
    byteOfNat ((byteOfNat (x.val ^^^ y.val)).val ^^^ y.val) = x := by
  have hlt : x.val ^^^ y.val < 256 := Nat.xor_lt_two_pow (n := 8) x.isLt y.isLt
  apply Fin.ext
  show ((x.val ^^^ y.val) % 256 ^^^ y.val) % 256 = x.val
  rw [Nat.mod_eq_of_lt hlt, Nat.xor_cancel_right, Nat.mod_eq_of_lt x.isLt]

theorem xorBytes_cancel : ∀ (b k : List Byte), b.length ≤ k.length →
    xorBytes (xorBytes b k) k = b
  | [], _, _ => by simp [xorBytes]
  | x :: b, [], h => by simp at h
  | x :: b, y :: k, h => by
    have ih := xorBytes_cancel b k (by simpa using h)
    unfold xorBytes at ih ⊢
    simp only [List.zipWith_cons_cons, List.cons.injEq]
    exact ⟨xorByte_cancel x y, ih⟩

theorem xorBytes_length (b k : List Byte) : (xorBytes b k).length = min b.length k.length := by
  simp [xorBytes]


/-- Witness of C5: under `standInTls`, the ciphertext of "hunter2" decrypts to "hunter2"
on the device that completed the key exchange. -/
theorem C5_witness :
    keyedDevice.ble.keyExchangeComplete = true
    ∧ keyedDevice.ble.sharedSecret.take 16 = sampleKey
    ∧ (lit "hunter2").length ≤ 240
    ∧ decryptPassword standInTls keyedDevice.ble
        (encryptPassword standInEnc true sampleKey (lit "hunter2")) = .ret (lit "hunter2") :=
  ⟨by decide, by decide, by decide,
   C5_encrypt_decrypt_round_trip standInTls standInEnc true keyedDevice.ble sampleKey
     (lit "hunter2") (by decide) (by decide) (by decide)
     (fun _ _ => rfl)
     (fun k b hk hb => by
        show (xorBytes b k).length = 16
        rw [xorBytes_length, hk, hb]; rfl)
     (fun k b hk hb => by
        show ((0 : Int), xorBytes (xorBytes b k) k) = (0, b)
        rw [xorBytes_cancel b k (by rw [hk, hb])])
     (by decide)⟩

/-! ## The credential cipher: failure paths -/

/-- C6. Decryption fails closed before key exchange: while `keyExchangeComplete` is
false, `decryptPassword` returns the failure value (the empty string) for every
ciphertext and every cipher, hence without decoding or decrypting anything (its result
does not depend on either, and it cannot leave a buffer), and a password write stores the
empty password and sets `STATE_FAILED`, never `STATE_CREDENTIALS_RECEIVED`. -/
theorem C6_decrypt_fails_closed_before_key_exchange (M : Mbedtls) (encryptedHex : AString)
    (d : Device) (h : d.ble.keyExchangeComplete = false) :
    decryptPassword M d.ble encryptedHex = .ret []
    ∧ (∀ (M2 : Mbedtls) (hex2 : AString),
        decryptPassword M2 d.ble hex2 = decryptPassword M d.ble encryptedHex)
    ∧ PasswordCallbacks.onWrite M encryptedHex d
        = .ret { d with ble := { d.ble with receivedPassword := [], currentState := STATE_FAILED } }
    ∧ ∀ d1 : Device, PasswordCallbacks.onWrite M encryptedHex d = .ret d1 →
        d1.ble.currentState ≠ STATE_CREDENTIALS_RECEIVED := by
  have h1 : ∀ (M2 : Mbedtls) (hex2 : AString), decryptPassword M2 d.ble hex2 = .ret [] := by
    intro M2 hex2
    unfold decryptPassword
    simp [h]
  have h2 : PasswordCallbacks.onWrite M encryptedHex d
      = .ret { d with ble := { d.ble with receivedPassword := [],
                                          currentState := STATE_FAILED } } := by
    unfold PasswordCallbacks.onWrite
    rw [h1]
    rfl
  refine ⟨h1 M encryptedHex, fun M2 hex2 => by rw [h1, h1], h2, ?_⟩
  intro d1 hd
  rw [h2] at hd
  cases hd
  simp

/-- Witness of C6: on the freshly booted device a well-formed ciphertext is refused. -/
theorem C6_witness :
    bootDevice.ble.keyExchangeComplete = false
    ∧ decryptPassword standInTls bootDevice.ble sampleCiphertext = .ret [] :=
  ⟨by decide,
   (C6_decrypt_fails_closed_before_key_exchange standInTls sampleCiphertext bootDevice
      (by decide)).1⟩

/-- C7, the code at failing inputs. With the key exchange complete, `decryptPassword`
checks neither the parity nor the length of the ciphertext: on "00" (one byte) the
cipher is handed 16 bytes of a 1-byte buffer, on "" the padding byte is read at index
`SIZE_MAX` of an empty buffer (both outside the allocation), and a well-formed
ciphertext followed by one stray hex digit (odd length) is decrypted to a password. -/
theorem C7_malformed_ciphertext_is_not_rejected :
    keyedDevice.ble.keyExchangeComplete = true
    ∧ decryptPassword standInTls keyedDevice.ble (lit "00") = .oob
    ∧ decryptPassword standInTls keyedDevice.ble (lit "") = .oob
    ∧ decryptPassword standInTls keyedDevice.ble (sampleCiphertext ++ lit "0")
        = .ret (lit "hunter2") := by
  decide

/-- C8, the code at failing inputs. With the key exchange complete, `decryptPassword`
does not validate the padding byte: padding 0 returns the whole block (sixteen NUL
chars) as the password, padding 20 on a 32-byte plaintext strips 20 bytes and returns 12,
and padding 200 on a 16-byte plaintext makes `encLen - padding` wrap around, so that
the copy loop leaves the buffer. -/
theorem C8_invalid_padding_is_not_rejected :
    keyedDevice.ble.keyExchangeComplete = true
    ∧ zeroPaddingCiphertext = lit "33333333333333333333333333333333"
    ∧ decryptPassword standInTls keyedDevice.ble zeroPaddingCiphertext
        = .ret (List.replicate 16 0)
    ∧ decryptPassword standInTls keyedDevice.ble longPaddingCiphertext
        = .ret (lit "hunter2" ++ List.replicate 5 20)
    ∧ hugePaddingCiphertext = lit "5B465D47564101FBFBFBFBFBFBFBFBFB"
    ∧ decryptPassword standInTls keyedDevice.ble hugePaddingCiphertext = .oob := by
  decide

/-! ## The peer public key -/

theorem hexToBytes_head (hex : AString) (n : Nat) :
    (hexToBytes hex (n + 1)).getD 0 0 = hexByteAt hex 0 := by
  unfold hexToBytes
  rw [List.range_succ_eq_map]
  rfl

/-- C9. Peer public key format check: if the input is not 130 chars long, or its first
two chars decode (by `strtoul`, stored into a byte) to something other than `0x04`,
`processAppPublicKey` returns false and leaves every static of the session unchanged,
in particular the state, the key-exchange flag and the shared secret. -/
theorem C9_public_key_format_check (M : Mbedtls) (s : BLEProvisioning) (hexKey : AString)
    (h : hexKey.length ≠ 130 ∨ hexByteAt hexKey 0 ≠ 4) :
    processAppPublicKey M s hexKey = (false, s) := by
  unfold processAppPublicKey
  by_cases hl : hexKey.length ≠ 130
  · rw [if_pos hl]
  · rw [if_neg hl]
    have hb : hexByteAt hexKey 0 ≠ 4 := h.resolve_left hl
    have hv : ((hexToBytes hexKey 65).getD 0 0).val ≠ 4 := by
      rw [hexToBytes_head]
      intro hc
      exact hb (Fin.ext hc)
    simp only [hv, ne_eq, not_false_eq_true, if_true]

/-- Witness of C9: a 130-char key with tag `05` is refused. -/
theorem C9_witness :
    (lit "05" ++ List.replicate 128 (byteOfNat 50)).length = 130
    ∧ hexByteAt (lit "05" ++ List.replicate 128 (byteOfNat 50)) 0 ≠ 4
    ∧ processAppPublicKey standInTls keyedDevice.ble (lit "05" ++ List.replicate 128 (byteOfNat 50))
        = (false, keyedDevice.ble) :=
  ⟨by decide, by decide,
   C9_public_key_format_check standInTls keyedDevice.ble _ (Or.inr (by decide))⟩

/-- C10. Key exchange is atomic with respect to the session state: a peer public key
write sets `STATE_KEY_EXCHANGED` and the key-exchange flag when the format is right and
every mbedTLS step (curve load, point import, parameter import, shared-secret
computation) returns 0; when the format is wrong or any step fails, the state and the
key-exchange flag are exactly what they were before the write. -/
theorem C10_key_exchange_is_atomic (M : Mbedtls) (value : AString) (d : Device) :
    ((value.length = 130 ∧ hexByteAt value 0 = 4
        ∧ M.mbedtls_ecp_group_load = 0
        ∧ M.mbedtls_ecp_point_read_binary (hexToBytes value 65) = 0
        ∧ (M.mbedtls_ecdh_get_params d.ble.ecdhContext (hexToBytes value 65)).1 = 0
        ∧ (M.mbedtls_ecdh_calc_secret
            (M.mbedtls_ecdh_get_params d.ble.ecdhContext (hexToBytes value 65)).2
            d.ble.sharedSecret).1 = 0) →
      (PublicKeyCallbacks.onWrite M value d).ble.currentState = STATE_KEY_EXCHANGED
      ∧ (PublicKeyCallbacks.onWrite M value d).ble.keyExchangeComplete = true)
    ∧ (¬ (value.length = 130 ∧ hexByteAt value 0 = 4
        ∧ M.mbedtls_ecp_group_load = 0
        ∧ M.mbedtls_ecp_point_read_binary (hexToBytes value 65) = 0
        ∧ (M.mbedtls_ecdh_get_params d.ble.ecdhContext (hexToBytes value 65)).1 = 0
        ∧ (M.mbedtls_ecdh_calc_secret
            (M.mbedtls_ecdh_get_params d.ble.ecdhContext (hexToBytes value 65)).2
            d.ble.sharedSecret).1 = 0) →
      (PublicKeyCallbacks.onWrite M value d).ble.currentState = d.ble.currentState
      ∧ (PublicKeyCallbacks.onWrite M value d).ble.keyExchangeComplete
          = d.ble.keyExchangeComplete) := by
  have hhead : ((hexToBytes value 65).getD 0 0).val = 4 ↔ hexByteAt value 0 = 4 := by
    rw [hexToBytes_head]
    exact ⟨fun h => Fin.ext h, fun h => by rw [h]; rfl⟩
  unfold PublicKeyCallbacks.onWrite processAppPublicKey
  simp only []
  constructor
  · rintro ⟨h1, h2, h3, h4, h5, h6⟩
    simp only [h1, hhead.mpr h2, h3, h4, h5, h6, ne_eq, not_true_eq_false, if_false, and_self]
  · intro hn
    by_cases h1 : value.length = 130
    · by_cases h2 : hexByteAt value 0 = 4
      · by_cases h3 : M.mbedtls_ecp_group_load = 0
        · by_cases h4 : M.mbedtls_ecp_point_read_binary (hexToBytes value 65) = 0
          · by_cases h5 : (M.mbedtls_ecdh_get_params d.ble.ecdhContext (hexToBytes value 65)).1 = 0
            · have h6 : ¬ (M.mbedtls_ecdh_calc_secret
                  (M.mbedtls_ecdh_get_params d.ble.ecdhContext (hexToBytes value 65)).2
                  d.ble.sharedSecret).1 = 0 := fun h6 => hn ⟨h1, h2, h3, h4, h5, h6⟩
              simp only [h1, hhead.mpr h2, h3, h4, h5, h6, ne_eq, not_true_eq_false, if_false,
                not_false_eq_true, if_true, and_self]
            · simp only [h1, hhead.mpr h2, h3, h4, h5, ne_eq, not_true_eq_false, if_false,
                not_false_eq_true, if_true, and_self]
          · simp only [h1, hhead.mpr h2, h3, h4, ne_eq, not_true_eq_false, if_false,
              not_false_eq_true, if_true, and_self]
        · simp only [h1, hhead.mpr h2, h3, ne_eq, not_true_eq_false, if_false,
            not_false_eq_true, if_true, and_self]
      · have h2v : ¬ ((hexToBytes value 65).getD 0 0).val = 4 := fun h => h2 (hhead.mp h)
        simp only [h1, h2v, ne_eq, not_true_eq_false, if_false, not_false_eq_true, if_true,
          and_self]
    · simp only [h1, ne_eq, not_false_eq_true, if_true, and_self]

/-! ## The classifier: how a stream of driver events decides an attempt -/

namespace WiFiManager
open WiFiEvent

/-- The handler only logs an ignored event. -/
theorem onEvent_ignored (e : WiFiEvent) (w : WiFiManager) (h : e.isIgnored = true) :
    onEvent e w = w := by
  cases e with
  | ARDUINO_EVENT_WIFI_STA_CONNECTED => rfl
  | ARDUINO_EVENT_WIFI_STA_GOT_IP => simp [isIgnored] at h
  | otherEvent => rfl
  | ARDUINO_EVENT_WIFI_STA_DISCONNECTED reason =>
    simp only [isIgnored, Bool.not_eq_true', Bool.or_eq_false_iff, beq_eq_false_iff_ne, ne_eq] at h
    obtain ⟨⟨⟨⟨h1, h2⟩, h3⟩, h4⟩, h5⟩ := h
    simp [onEvent, h1, h2, h3, h4, h5]

/-- The handler on a handshake timeout: count, and classify from the second on. -/
theorem onEvent_handshake (e : WiFiEvent) (w : WiFiManager) (h : e.isHandshakeTimeout = true) :
    onEvent e w =
      if 2 ≤ w.handshakeFailCount + 1 then
        { w with handshakeFailCount := w.handshakeFailCount + 1,
                 connectionResult := CONN_WRONG_PASSWORD, connectionDone := true }
      else { w with handshakeFailCount := w.handshakeFailCount + 1 } := by
  cases e with
  | ARDUINO_EVENT_WIFI_STA_CONNECTED => simp [isHandshakeTimeout] at h
  | ARDUINO_EVENT_WIFI_STA_GOT_IP => simp [isHandshakeTimeout] at h
  | otherEvent => simp [isHandshakeTimeout] at h
  | ARDUINO_EVENT_WIFI_STA_DISCONNECTED reason =>
    simp only [isHandshakeTimeout, Bool.or_eq_true, beq_iff_eq] at h
    simp only [onEvent, h, if_true]

theorem ignored_not_handshake (e : WiFiEvent) (h : e.isIgnored = true) :
    e.isHandshakeTimeout = false := by
  cases e with
  | ARDUINO_EVENT_WIFI_STA_CONNECTED => rfl
  | ARDUINO_EVENT_WIFI_STA_GOT_IP => rfl
  | otherEvent => rfl
  | ARDUINO_EVENT_WIFI_STA_DISCONNECTED reason =>
    simp only [isIgnored, Bool.not_eq_true', Bool.or_eq_false_iff, beq_eq_false_iff_ne, ne_eq] at h
    obtain ⟨⟨⟨⟨h1, h2⟩, h3⟩, h4⟩, h5⟩ := h
    simp [isHandshakeTimeout, h1, h2]


theorem counted_counted (a b : Nat) (w : WiFiManager) :
    counted b (counted a w) = counted (a + b) w := by
  simp only [counted, WiFiManager.mk.injEq, and_true, true_and]
  omega

/-- A stream of ignored events and fewer handshake timeouts than it takes to reach 2
only advances the counter. -/
theorem foldl_onEvent_quiet (es : List WiFiEvent) (w : WiFiManager)
    (hall : ∀ e ∈ es, (e.isIgnored || e.isHandshakeTimeout) = true)
    (hc : w.handshakeFailCount + handshakeTimeouts es < 2) :
    es.foldl (fun acc e => onEvent e acc) w = counted (handshakeTimeouts es) w := by
  induction es generalizing w with
  | nil => rfl
  | cons e es ih =>
    have he := hall e (List.mem_cons_self e es)
    have hrest : ∀ x ∈ es, (x.isIgnored || x.isHandshakeTimeout) = true :=
      fun x hx => hall x (List.mem_cons_of_mem e hx)
    rw [List.foldl_cons]
    by_cases hi : e.isIgnored = true
    · have hn := ignored_not_handshake e hi
      have hcnt : handshakeTimeouts (e :: es) = handshakeTimeouts es := by
        simp [handshakeTimeouts, List.countP_cons, hn]
      rw [onEvent_ignored e w hi, ih w hrest (by rw [← hcnt]; exact hc), hcnt]
    · have hh : e.isHandshakeTimeout = true := by
        rcases Bool.or_eq_true _ _ |>.mp he with h | h
        · exact absurd h hi
        · exact h
      have hcnt : handshakeTimeouts (e :: es) = handshakeTimeouts es + 1 := by
        simp [handshakeTimeouts, List.countP_cons, hh]
      rw [hcnt] at hc ⊢
      have hlt : ¬ (2 ≤ w.handshakeFailCount + 1) := by omega
      have h1 := ih (counted 1 w) hrest (by show w.handshakeFailCount + 1 + _ < 2; omega)
      rw [onEvent_handshake e w hh, if_neg hlt]
      show es.foldl (fun acc e => onEvent e acc) (counted 1 w) = _
      rw [h1, counted_counted, Nat.add_comm]

theorem handshakeTimeouts_append (a b : List WiFiEvent) :
    handshakeTimeouts (a ++ b) = handshakeTimeouts a + handshakeTimeouts b := by
  simp [handshakeTimeouts, List.countP_append]

/-- The same for a batch handed to a registered handler. -/
theorem deliver_quiet (es : List WiFiEvent) (w : WiFiManager)
    (hreg : w.eventHandlerRegistered = true)
    (hall : ∀ e ∈ es, (e.isIgnored || e.isHandshakeTimeout) = true)
    (hc : w.handshakeFailCount + handshakeTimeouts es < 2) :
    deliver es w = counted (handshakeTimeouts es) w := by
  unfold deliver
  rw [if_pos hreg]
  exact foldl_onEvent_quiet es w hall hc

theorem waitLoop_done (n : Nat) (slots : List (List WiFiEvent)) (w : WiFiManager)
    (h : w.connectionDone = true) : waitLoop n slots w = w := by
  cases n <;> simp [waitLoop, h]

theorem waitLoop_step (n : Nat) (slots : List (List WiFiEvent)) (w : WiFiManager)
    (h : w.connectionDone = false) :
    waitLoop (n + 1) slots w = waitLoop n slots.tail (deliver (slots.headD []) w) := by
  simp [waitLoop, h]

/-- A wait loop all of whose polls stay without terminal classification runs into the
timeout. -/
theorem waitLoop_quiet (n : Nat) (slots : List (List WiFiEvent)) (w : WiFiManager)
    (hreg : w.eventHandlerRegistered = true) (hdone : w.connectionDone = false)
    (hall : ∀ e ∈ (slots.take n).flatten, (e.isIgnored || e.isHandshakeTimeout) = true)
    (hc : w.handshakeFailCount + handshakeTimeouts (slots.take n).flatten < 2) :
    waitLoop n slots w
      = { counted (handshakeTimeouts (slots.take n).flatten) w with
          connectionResult := CONN_TIMEOUT } := by
  induction n generalizing slots w with
  | zero =>
    simp [waitLoop, hdone, handshakeTimeouts, counted]
  | succ n ih =>
    rw [waitLoop_step n slots w hdone]
    cases slots with
    | nil =>
      have hd : deliver (([] : List (List WiFiEvent)).headD []) w = w := by
        simp [deliver]
      rw [hd, List.tail_nil]
      have h := ih [] w hreg hdone (by simp) (by simpa [handshakeTimeouts] using hc)
      simpa using h
    | cons s ss =>
      have hfl : ((s :: ss).take (n + 1)).flatten = s ++ (ss.take n).flatten := by
        simp
      rw [hfl] at hall hc
      rw [handshakeTimeouts_append] at hc
      have hs : ∀ e ∈ s, (e.isIgnored || e.isHandshakeTimeout) = true :=
        fun e he => hall e (List.mem_append_left _ he)
      have hss : ∀ e ∈ (ss.take n).flatten, (e.isIgnored || e.isHandshakeTimeout) = true :=
        fun e he => hall e (List.mem_append_right _ he)
      have h1 := ih ss (counted (handshakeTimeouts s) w) hreg hdone hss
        (by show w.handshakeFailCount + _ + _ < 2; omega)
      rw [List.headD_cons, List.tail_cons, deliver_quiet s w hreg hs (by omega), h1, hfl,
        handshakeTimeouts_append, counted_counted]

/-- Polls without terminal classification only advance the counter and the loop. -/
theorem waitLoop_prefix (pre tail : List (List WiFiEvent)) (n : Nat) (w : WiFiManager)
    (hreg : w.eventHandlerRegistered = true) (hdone : w.connectionDone = false)
    (hall : ∀ e ∈ pre.flatten, (e.isIgnored || e.isHandshakeTimeout) = true)
    (hc : w.handshakeFailCount + handshakeTimeouts pre.flatten < 2) :
    waitLoop (n + pre.length) (pre ++ tail) w
      = waitLoop n tail (counted (handshakeTimeouts pre.flatten) w) := by
  induction pre generalizing w with
  | nil => simp [handshakeTimeouts, counted]
  | cons s ss ih =>
    have hfl : (s :: ss).flatten = s ++ ss.flatten := by simp
    rw [hfl] at hall hc
    rw [handshakeTimeouts_append] at hc
    have hs : ∀ e ∈ s, (e.isIgnored || e.isHandshakeTimeout) = true :=
      fun e he => hall e (List.mem_append_left _ he)
    have hss : ∀ e ∈ ss.flatten, (e.isIgnored || e.isHandshakeTimeout) = true :=
      fun e he => hall e (List.mem_append_right _ he)
    have hlen : n + (s :: ss).length = (n + ss.length) + 1 := by simp; omega
    have h1 := ih (counted (handshakeTimeouts s) w) hreg hdone hss
      (by show w.handshakeFailCount + _ + _ < 2; omega)
    rw [hlen, List.cons_append, waitLoop_step _ _ w hdone, List.headD_cons, List.tail_cons,
      deliver_quiet s w hreg hs (by omega), h1, hfl, handshakeTimeouts_append, counted_counted]

theorem nonTerminal_iff (es : List WiFiEvent) :
    nonTerminal es = true ↔
      (∀ e ∈ es, (e.isIgnored || e.isHandshakeTimeout) = true) ∧ handshakeTimeouts es ≤ 1 := by
  simp [nonTerminal, List.all_eq_true]

/-- The result of `connectStation` in terms of the state the wait loop ends in. -/
theorem connectStation_result (R : Radio) (ssid password : AString) (w : WiFiManager) :
    (connectStation R ssid password w).1
      = if (waitLoop (WIFI_CONNECT_TIMEOUT_MS / 100 + 1) R.slots
              (deliver R.early (started ssid password w))).connectionResult = CONN_SUCCESS
        then CONN_SUCCESS
        else (deliver R.late (waitLoop (WIFI_CONNECT_TIMEOUT_MS / 100 + 1) R.slots
              (deliver R.early (started ssid password w)))).connectionResult := by
  unfold connectStation started
  simp only []
  split
  · next h => exact h
  · rfl

/-- An attempt whose events bring no terminal classification returns `CONN_TIMEOUT`. -/
theorem connectStation_timeout (R : Radio) (ssid password : AString) (w : WiFiManager)
    (hreg : w.eventHandlerRegistered = true) (hnt : nonTerminal R.handled = true) :
    (connectStation R ssid password w).1 = CONN_TIMEOUT := by
  obtain ⟨hall, hc⟩ := (nonTerminal_iff _).mp hnt
  unfold Radio.handled at hall hc
  rw [handshakeTimeouts_append, handshakeTimeouts_append] at hc
  have h1 : ∀ e ∈ R.early, (e.isIgnored || e.isHandshakeTimeout) = true :=
    fun e he => hall e (List.mem_append_left _ (List.mem_append_left _ he))
  have h2 : ∀ e ∈ (R.slots.take (WIFI_CONNECT_TIMEOUT_MS / 100 + 1)).flatten,
      (e.isIgnored || e.isHandshakeTimeout) = true :=
    fun e he => hall e (List.mem_append_left _ (List.mem_append_right _ he))
  have h3 : ∀ e ∈ R.late, (e.isIgnored || e.isHandshakeTimeout) = true :=
    fun e he => hall e (List.mem_append_right _ he)
  have e1 := deliver_quiet R.early (started ssid password w) hreg h1
    (by show 0 + _ < 2; omega)
  have e2 := waitLoop_quiet (WIFI_CONNECT_TIMEOUT_MS / 100 + 1) R.slots
    (counted (handshakeTimeouts R.early) (started ssid password w)) hreg rfl h2
    (by show 0 + _ + _ < 2; omega)
  have e3 := deliver_quiet R.late
    { counted (handshakeTimeouts (R.slots.take (WIFI_CONNECT_TIMEOUT_MS / 100 + 1)).flatten)
        (counted (handshakeTimeouts R.early) (started ssid password w)) with
      connectionResult := CONN_TIMEOUT } hreg h3 (by show 0 + _ + _ + _ < 2; omega)
  rw [connectStation_result, e1, e2, e3]
  rfl

end WiFiManager

/-! ## The classifier: outcomes of an attempt -/

namespace WiFiManager
open WiFiEvent

theorem onEvent_registered (e : WiFiEvent) (w : WiFiManager) :
    (onEvent e w).eventHandlerRegistered = w.eventHandlerRegistered := by
  cases e <;> simp only [onEvent]
  repeat (first | rfl | split)

theorem foldl_onEvent_registered (es : List WiFiEvent) (w : WiFiManager) :
    (es.foldl (fun acc e => onEvent e acc) w).eventHandlerRegistered
      = w.eventHandlerRegistered := by
  induction es generalizing w with
  | nil => rfl
  | cons e es ih => rw [List.foldl_cons, ih, onEvent_registered]

theorem deliver_registered (es : List WiFiEvent) (w : WiFiManager) :
    (deliver es w).eventHandlerRegistered = w.eventHandlerRegistered := by
  unfold deliver
  split
  · exact foldl_onEvent_registered es w
  · rfl

theorem waitLoop_registered (n : Nat) (slots : List (List WiFiEvent)) (w : WiFiManager) :
    (waitLoop n slots w).eventHandlerRegistered = w.eventHandlerRegistered := by
  induction n generalizing slots w with
  | zero => unfold waitLoop; split <;> rfl
  | succ n ih =>
    unfold waitLoop
    split
    · rfl
    · rw [ih, deliver_registered]

/-- An attempt leaves the registration of the event handler as it was. -/
theorem connectStation_registered (R : Radio) (ssid password : AString) (w : WiFiManager) :
    (connectStation R ssid password w).2.eventHandlerRegistered = w.eventHandlerRegistered := by
  unfold connectStation
  simp only []
  split
  · simp only [waitLoop_registered, deliver_registered, resetConnectionState]
  · simp only [waitLoop_registered, deliver_registered, resetConnectionState]

theorem onEvent_reason_201 (reason : Byte) (w : WiFiManager) (h : reason.val = 201) :
    (onEvent (ARDUINO_EVENT_WIFI_STA_DISCONNECTED reason) w).connectionDone = true
    ∧ (onEvent (ARDUINO_EVENT_WIFI_STA_DISCONNECTED reason) w).connectionResult
        = CONN_SSID_NOT_FOUND := by
  simp [onEvent, h]

theorem onEvent_reason_auth (reason : Byte) (w : WiFiManager)
    (h : reason.val = 202 ∨ reason.val = 2) :
    (onEvent (ARDUINO_EVENT_WIFI_STA_DISCONNECTED reason) w).connectionDone = true
    ∧ (onEvent (ARDUINO_EVENT_WIFI_STA_DISCONNECTED reason) w).connectionResult
        = CONN_AUTH_FAILED := by
  rcases h with h | h <;> simp [onEvent, h]

/-- A batch of ignored events changes nothing. -/
theorem deliver_ignored (es : List WiFiEvent) (w : WiFiManager)
    (h : ∀ e ∈ es, e.isIgnored = true) : deliver es w = w := by
  unfold deliver
  split
  · induction es with
    | nil => rfl
    | cons e es ih =>
      rw [List.foldl_cons, onEvent_ignored e w (h e (List.mem_cons_self e es))]
      exact ih (fun x hx => h x (List.mem_cons_of_mem e hx))
  · rfl

end WiFiManager

open WiFiManager WiFiEvent

theorem nonTerminal_single (h : WiFiEvent) (hh : h.isHandshakeTimeout = true) :
    nonTerminal [h] = true ∧ handshakeTimeouts [h] = 1 := by
  simp [nonTerminal, handshakeTimeouts, hh]

/-- C16. Classification counters are reset per attempt. `resetConnectionState` puts the
counter at 0, the done flag at false and the provisional result at `CONN_TIMEOUT`, and
`connectStation` starts with it: what it returns does not depend on the values these
three statics had before the call. Hence an attempt with a single handshake timeout,
followed (after any events between the attempts) by a new attempt with a single
handshake timeout, returns `CONN_TIMEOUT` both times, not `CONN_WRONG_PASSWORD`. -/
theorem C16_counters_reset_per_attempt (w : WiFiManager) (ssid password : AString)
    (hreg : w.eventHandlerRegistered = true) :
    (resetConnectionState w).handshakeFailCount = 0
    ∧ (resetConnectionState w).connectionDone = false
    ∧ (resetConnectionState w).connectionResult = CONN_TIMEOUT
    ∧ (∀ (R : Radio) (count : Nat) (done : Bool) (result : ConnectionResult),
        connectStation R ssid password
            { w with handshakeFailCount := count, connectionDone := done,
                     connectionResult := result }
          = connectStation R ssid password w)
    ∧ (∀ (h1 h2 : WiFiEvent) (between : List WiFiEvent),
        h1.isHandshakeTimeout = true → h2.isHandshakeTimeout = true →
        (connectStation (radioWith [h1]) ssid password w).1 = CONN_TIMEOUT
        ∧ (connectStation (radioWith [h2]) ssid password
            (deliver between (connectStation (radioWith [h1]) ssid password w).2)).1
            = CONN_TIMEOUT) := by
  refine ⟨rfl, rfl, rfl, fun _ _ _ _ => rfl, ?_⟩
  intro h1 h2 between hh1 hh2
  have hn : ∀ h : WiFiEvent, h.isHandshakeTimeout = true →
      nonTerminal (radioWith [h]).handled = true := by
    intro h hh
    have : (radioWith [h]).handled = [h] := by
      simp [Radio.handled, radioWith]
    rw [this]
    exact (nonTerminal_single h hh).1
  refine ⟨connectStation_timeout _ ssid password w hreg (hn h1 hh1), ?_⟩
  apply connectStation_timeout _ ssid password _ _ (hn h2 hh2)
  rw [deliver_registered, connectStation_registered, hreg]

/-- Witness of C16: two attempts with one handshake timeout each, and one between. -/
theorem C16_witness :
    bootDevice.wifi.eventHandlerRegistered = true
    ∧ (connectStation (radioWith [handshakeTimeout15]) (lit "HomeNet") (lit "hunter2")
        (deliver [handshakeTimeout204]
          (connectStation (radioWith [handshakeTimeout15]) (lit "HomeNet") (lit "hunter2")
            bootDevice.wifi).2)).1 = CONN_TIMEOUT :=
  ⟨by decide,
   ((C16_counters_reset_per_attempt bootDevice.wifi (lit "HomeNet") (lit "hunter2")
      (by decide)).2.2.2.2 handshakeTimeout15 handshakeTimeout15 [handshakeTimeout204]
      (by decide) (by decide)).2⟩

/-! ## Password and ssid writes -/

/-- A password write stores what `decryptPassword` returns; the state becomes
`STATE_FAILED` for the empty string and `STATE_CREDENTIALS_RECEIVED` otherwise. -/
theorem passwordWrite_eq (M : Mbedtls) (hex : AString) (d : Device) (pw : AString)
    (h : decryptPassword M d.ble hex = .ret pw) :
    PasswordCallbacks.onWrite M hex d
      = .ret { d with ble := { d.ble with
                receivedPassword := pw,
                currentState := if pw = [] then STATE_FAILED
                                else STATE_CREDENTIALS_RECEIVED } } := by
  unfold PasswordCallbacks.onWrite
  rw [h]
  cases pw with
  | nil => rfl
  | cons b bs => rfl

/-- C11 (amended). A password write whose decryption fails (`decryptPassword` returns
the empty string) sets the state to `STATE_FAILED`, whatever the state before, and
replaces the cached password by the empty string; nothing else of the device changes. A
connect-trigger written in that state is ignored. The next password write that decrypts
to a non-empty password sets `STATE_CREDENTIALS_RECEIVED`. -/
theorem C11_failed_decryption_sets_failed (M : Mbedtls) (hex : AString) (d : Device)
    (hfail : decryptPassword M d.ble hex = .ret []) :
    PasswordCallbacks.onWrite M hex d
        = .ret { d with ble := { d.ble with receivedPassword := [],
                                            currentState := STATE_FAILED } }
    ∧ (∀ (R : Radio) (value : AString),
        ConnectCallbacks.onWrite R value
            { d with ble := { d.ble with receivedPassword := [],
                                         currentState := STATE_FAILED } }
          = { d with ble := { d.ble with receivedPassword := [],
                                         currentState := STATE_FAILED } })
    ∧ (∀ (M2 : Mbedtls) (hex2 : AString) (pw : AString), pw ≠ [] →
        decryptPassword M2 { d.ble with receivedPassword := [],
                                        currentState := STATE_FAILED } hex2 = .ret pw →
        PasswordCallbacks.onWrite M2 hex2
            { d with ble := { d.ble with receivedPassword := [],
                                         currentState := STATE_FAILED } }
          = .ret { d with ble := { d.ble with receivedPassword := pw,
                                              currentState := STATE_CREDENTIALS_RECEIVED } }) := by
  refine ⟨?_, ?_, ?_⟩
  · rw [passwordWrite_eq M hex d [] hfail]
    rfl
  · intro R value
    apply onWrite_rejected
    rintro ⟨_, h⟩
    cases h
  · intro M2 hex2 pw hne hdec
    refine (passwordWrite_eq M2 hex2 _ pw hdec).trans ?_
    rw [if_neg hne]

/-- Witness of C11: the encrypted empty password on the device after key exchange. -/
theorem C11_witness :
    decryptPassword standInTls keyedDevice.ble emptyPasswordCiphertext = .ret []
    ∧ (PasswordCallbacks.onWrite standInTls emptyPasswordCiphertext keyedDevice).value.map
        (fun d => d.ble.currentState) = some STATE_FAILED :=
  ⟨by decide,
   by rw [(C11_failed_decryption_sets_failed standInTls emptyPasswordCiphertext keyedDevice
      (by decide)).1]; rfl⟩

/-- C11 fails as stated: the session `credentialsSession` is in
`STATE_CREDENTIALS_RECEIVED`; a password write that the firmware reports as failed
(the decrypted text is empty) moves the state to `STATE_FAILED` and erases the cached
password, and the connect-trigger "1" written next starts no attempt and sends no
notification. The same happens in `STATE_KEY_EXCHANGED` when the cipher reports an
error. -/
theorem C11_counterexample :
    (run standInTls credentialsSession bootDevice).value.map (fun d => d.ble.currentState)
      = some STATE_CREDENTIALS_RECEIVED
    ∧ (run standInTls (credentialsSession ++ [.writePassword emptyPasswordCiphertext])
          bootDevice).value.map (fun d => (d.ble.currentState, d.ble.receivedPassword))
        = some (STATE_FAILED, [])
    ∧ (run standInTls (credentialsSession ++ [.writePassword emptyPasswordCiphertext,
          .writeConnect (lit "1") (radioWith [.ARDUINO_EVENT_WIFI_STA_GOT_IP])])
          bootDevice).value.map
          (fun d => (d.ble.currentState, d.wifi.beginCalls, d.ble.notifications))
        = some (STATE_FAILED, [], [])
    ∧ keyedDevice.ble.currentState = STATE_KEY_EXCHANGED
    ∧ decryptPassword faultyCipherTls keyedDevice.ble sampleCiphertext = .ret []
    ∧ (PasswordCallbacks.onWrite faultyCipherTls sampleCiphertext keyedDevice).value.map
          (fun d => d.ble.currentState) = some STATE_FAILED := by
  decide

/-- Decryption does not look at the cached ssid. -/
theorem decryptPassword_ssid (M : Mbedtls) (s : BLEProvisioning) (v hex : AString) :
    decryptPassword M { s with receivedSSID := v } hex = decryptPassword M s hex := rfl

/-- C12 (amended). A password write that decrypts to a non-empty password sets
`STATE_CREDENTIALS_RECEIVED` whether or not an ssid has been written and whatever the
state before; an ssid write stores the ssid and changes nothing else, in particular not
the state. Hence ssid then password ends in `STATE_CREDENTIALS_RECEIVED`, and with the
password first the session is in `STATE_CREDENTIALS_RECEIVED` already before the ssid
write and stays there. -/
theorem C12_password_write_alone_sets_credentials_received (M : Mbedtls) (hex : AString)
    (d : Device) (pw : AString)
    (hdec : decryptPassword M d.ble hex = .ret pw) (hne : pw ≠ []) :
    PasswordCallbacks.onWrite M hex d
        = .ret { d with ble := { d.ble with receivedPassword := pw,
                                            currentState := STATE_CREDENTIALS_RECEIVED } }
    ∧ (∀ (v : AString) (d0 : Device),
        SSIDCallbacks.onWrite v d0 = { d0 with ble := { d0.ble with receivedSSID := v } })
    ∧ (∀ v : AString,
        PasswordCallbacks.onWrite M hex (SSIDCallbacks.onWrite v d)
          = .ret { d with ble := { d.ble with receivedSSID := v, receivedPassword := pw,
                                              currentState := STATE_CREDENTIALS_RECEIVED } })
    ∧ (∀ v : AString,
        (SSIDCallbacks.onWrite v
            { d with ble := { d.ble with receivedPassword := pw,
                                         currentState := STATE_CREDENTIALS_RECEIVED } })
          = { d with ble := { d.ble with receivedSSID := v, receivedPassword := pw,
                                         currentState := STATE_CREDENTIALS_RECEIVED } }) := by
  refine ⟨?_, fun _ _ => rfl, ?_, fun _ => rfl⟩
  · rw [passwordWrite_eq M hex d pw hdec, if_neg hne]
  · intro v
    have h2 : decryptPassword M (SSIDCallbacks.onWrite v d).ble hex = .ret pw := by
      rw [← hdec]
      rfl
    refine (passwordWrite_eq M hex _ pw h2).trans ?_
    rw [if_neg hne]
    rfl

/-- Witness of C12: ssid "HomeNet", then the encrypted "hunter2". -/
theorem C12_witness :
    decryptPassword standInTls keyedDevice.ble sampleCiphertext = .ret (lit "hunter2")
    ∧ (PasswordCallbacks.onWrite standInTls sampleCiphertext
          (SSIDCallbacks.onWrite (lit "HomeNet") keyedDevice)).value.map
        (fun d => d.ble.currentState) = some STATE_CREDENTIALS_RECEIVED :=
  ⟨by decide,
   by rw [(C12_password_write_alone_sets_credentials_received standInTls sampleCiphertext
      keyedDevice (lit "hunter2") (by decide) (by decide)).2.2.1 (lit "HomeNet")]; rfl⟩

/-- C12 fails as stated: on the device in `STATE_KEY_EXCHANGED` with no ssid written, a
successful password write sets `STATE_CREDENTIALS_RECEIVED` at once, the cached ssid
still being empty. -/
theorem C12_counterexample :
    keyedDevice.ble.currentState = STATE_KEY_EXCHANGED
    ∧ keyedDevice.ble.receivedSSID = []
    ∧ (PasswordCallbacks.onWrite standInTls sampleCiphertext keyedDevice).value.map
          (fun d => (d.ble.currentState, d.ble.receivedSSID))
        = some (STATE_CREDENTIALS_RECEIVED, []) := by
  decide


/-! ## Status notifications and the success path -/

/-- What an accepted trigger does to the status characteristic, the notifications, the
completed flag, advertising and the store, by outcome of the attempt. -/
theorem onWrite_accepted_effects (R : Radio) (d : Device)
    (hs : d.ble.currentState = STATE_CREDENTIALS_RECEIVED) :
    (ConnectCallbacks.onWrite R (lit "1") d).ble.notifications
        = d.ble.notifications
          ++ [match (WiFiManager.connectStation R d.ble.receivedSSID d.ble.receivedPassword
                  d.wifi).1 with
              | CONN_SUCCESS => lit "SUCCESS"
              | CONN_WRONG_PASSWORD => lit "WRONG_PASSWORD"
              | CONN_SSID_NOT_FOUND => lit "SSID_NOT_FOUND"
              | CONN_AUTH_FAILED => lit "AUTH_FAILED"
              | CONN_TIMEOUT => lit "TIMEOUT"]
    ∧ (ConnectCallbacks.onWrite R (lit "1") d).ble.credentialStatus
        = (if (WiFiManager.connectStation R d.ble.receivedSSID d.ble.receivedPassword
                d.wifi).1 = CONN_SUCCESS then lit "SUCCESS" else lit "")
    ∧ (ConnectCallbacks.onWrite R (lit "1") d).ble.provisioningCompleted
        = (if (WiFiManager.connectStation R d.ble.receivedSSID d.ble.receivedPassword
                d.wifi).1 = CONN_SUCCESS then true else d.ble.provisioningCompleted)
    ∧ (ConnectCallbacks.onWrite R (lit "1") d).ble.advertising
        = (if (WiFiManager.connectStation R d.ble.receivedSSID d.ble.receivedPassword
                d.wifi).1 = CONN_SUCCESS then false else d.ble.advertising)
    ∧ (ConnectCallbacks.onWrite R (lit "1") d).prefs
        = (if (WiFiManager.connectStation R d.ble.receivedSSID d.ble.receivedPassword
                d.wifi).1 = CONN_SUCCESS
           then (NVSManager.saveCredentials d.ble.receivedSSID d.ble.receivedPassword d.prefs).2
           else d.prefs) := by
  have h : lit "1" = lit "1" ∧ d.ble.currentState = STATE_CREDENTIALS_RECEIVED := ⟨rfl, hs⟩
  unfold ConnectCallbacks.onWrite
  rw [if_pos h]
  simp only [setStatus]
  generalize WiFiManager.connectStation R d.ble.receivedSSID d.ble.receivedPassword d.wifi = r
  obtain ⟨res, w⟩ := r
  cases res <;> simp [retryReady, setStatus, notifyStatus, stopAdvertising]

/-- C17. Status notification vocabulary: an accepted connect-trigger sends exactly one
notification, "SUCCESS", "WRONG_PASSWORD", "SSID_NOT_FOUND", "AUTH_FAILED" or "TIMEOUT"
according to the outcome of the attempt; when the handler returns the status
characteristic holds "SUCCESS" after Success and "" after each other outcome. -/
theorem C17_status_notification_vocabulary (R : Radio) (d : Device)
    (hs : d.ble.currentState = STATE_CREDENTIALS_RECEIVED) :
    (ConnectCallbacks.onWrite R (lit "1") d).ble.notifications
        = d.ble.notifications
          ++ [match (WiFiManager.connectStation R d.ble.receivedSSID d.ble.receivedPassword
                  d.wifi).1 with
              | CONN_SUCCESS => lit "SUCCESS"
              | CONN_WRONG_PASSWORD => lit "WRONG_PASSWORD"
              | CONN_SSID_NOT_FOUND => lit "SSID_NOT_FOUND"
              | CONN_AUTH_FAILED => lit "AUTH_FAILED"
              | CONN_TIMEOUT => lit "TIMEOUT"]
    ∧ (ConnectCallbacks.onWrite R (lit "1") d).ble.credentialStatus
        = (if (WiFiManager.connectStation R d.ble.receivedSSID d.ble.receivedPassword
                d.wifi).1 = CONN_SUCCESS then lit "SUCCESS" else lit "") :=
  ⟨(onWrite_accepted_effects R d hs).1, (onWrite_accepted_effects R d hs).2.1⟩

/-- Witness of C17: two handshake timeouts notify "WRONG_PASSWORD" and leave "". -/
theorem C17_witness :
    readyDevice.ble.currentState = STATE_CREDENTIALS_RECEIVED
    ∧ (ConnectCallbacks.onWrite (radioWith [handshakeTimeout15, handshakeTimeout204]) (lit "1")
        readyDevice).ble.notifications = [lit "WRONG_PASSWORD"]
    ∧ (ConnectCallbacks.onWrite (radioWith [handshakeTimeout15, handshakeTimeout204]) (lit "1")
        readyDevice).ble.credentialStatus = lit "" :=
  ⟨by decide,
   (C17_status_notification_vocabulary (radioWith [handshakeTimeout15, handshakeTimeout204])
      readyDevice (by decide)).1.trans (by decide),
   (C17_status_notification_vocabulary (radioWith [handshakeTimeout15, handshakeTimeout204])
      readyDevice (by decide)).2.trans (by decide)⟩

/-- C19. Persistence failure does not demote the outcome: after an accepted
connect-trigger whose attempt ends in Success the state is `STATE_SUCCESS`, "SUCCESS" has
been notified and `provisioningCompleted` is set, for every store and every cached
ssid and password, so whatever `saveCredentials` returned; with an empty ssid
`saveCredentials` returns false and the store is unchanged. -/
theorem C19_persistence_failure_does_not_demote (R : Radio) (d : Device)
    (hs : d.ble.currentState = STATE_CREDENTIALS_RECEIVED)
    (hr : (WiFiManager.connectStation R d.ble.receivedSSID d.ble.receivedPassword d.wifi).1
            = CONN_SUCCESS) :
    (ConnectCallbacks.onWrite R (lit "1") d).ble.currentState = STATE_SUCCESS
    ∧ (ConnectCallbacks.onWrite R (lit "1") d).ble.notifications
        = d.ble.notifications ++ [lit "SUCCESS"]
    ∧ (ConnectCallbacks.onWrite R (lit "1") d).ble.credentialStatus = lit "SUCCESS"
    ∧ (ConnectCallbacks.onWrite R (lit "1") d).ble.provisioningCompleted = true
    ∧ (ConnectCallbacks.onWrite R (lit "1") d).prefs
        = (NVSManager.saveCredentials d.ble.receivedSSID d.ble.receivedPassword d.prefs).2
    ∧ (d.ble.receivedSSID = [] →
        (NVSManager.saveCredentials d.ble.receivedSSID d.ble.receivedPassword d.prefs).1 = false
        ∧ (ConnectCallbacks.onWrite R (lit "1") d).prefs = d.prefs) := by
  obtain ⟨h1, h2, h3, h4, h5⟩ := onWrite_accepted_effects R d hs
  have h0 := (onWrite_accepted_ble R d hs).1
  simp only [hr, if_true] at h0 h1 h2 h3 h5
  refine ⟨h0, h1, h2, h3, h5, ?_⟩
  intro he
  rw [h5, he]
  exact ⟨rfl, rfl⟩

/-- Witness of C19: on a store that refuses writes `saveCredentials` returns false and
the session still ends in `STATE_SUCCESS`. -/
theorem C19_witness :
    readOnlyDevice.ble.currentState = STATE_CREDENTIALS_RECEIVED
    ∧ (NVSManager.saveCredentials readOnlyDevice.ble.receivedSSID
          readOnlyDevice.ble.receivedPassword readOnlyDevice.prefs).1 = false
    ∧ (ConnectCallbacks.onWrite (radioWith [.ARDUINO_EVENT_WIFI_STA_GOT_IP]) (lit "1")
          readOnlyDevice).ble.currentState = STATE_SUCCESS
    ∧ (ConnectCallbacks.onWrite (radioWith [.ARDUINO_EVENT_WIFI_STA_GOT_IP]) (lit "1")
          readOnlyDevice).ble.provisioningCompleted = true :=
  ⟨by decide, by decide,
   (C19_persistence_failure_does_not_demote (radioWith [.ARDUINO_EVENT_WIFI_STA_GOT_IP])
      readOnlyDevice (by decide) (by decide)).1,
   (C19_persistence_failure_does_not_demote (radioWith [.ARDUINO_EVENT_WIFI_STA_GOT_IP])
      readOnlyDevice (by decide) (by decide)).2.2.2.1⟩

/-- C20, the code at failing inputs. For a request that carries ssid and password,
`handleProvision` answers 400 "failed", sets `STATE_FAILED` and saves nothing exactly
when `connectStation` returned `CONN_SUCCESS`, and answers 200 "success", sets
`STATE_SUCCESS` and calls `saveCredentials` for each of the four other outcomes: the
result is stored in a `bool`, and `CONN_SUCCESS` is the enumerator with value 0. On the
booted device, an attempt that acquires an IP address is answered with 400, and one that
meets "network not found" with 200 and a store marked provisioned. -/
theorem C20_http_result_is_inverted (R : Radio) (localIP ssid password : AString)
    (d : HttpDevice) :
    ((WiFiManager.connectStation R ssid password d.wifi).1 = CONN_SUCCESS →
        (HTTPProvisioning.handleProvision R localIP { ssid := some ssid, password := some password } d).1.code
            = 400
        ∧ (HTTPProvisioning.handleProvision R localIP { ssid := some ssid, password := some password }
              d).2.http.currentState = .STATE_FAILED
        ∧ (HTTPProvisioning.handleProvision R localIP { ssid := some ssid, password := some password } d).2.prefs
            = d.prefs)
    ∧ ((WiFiManager.connectStation R ssid password d.wifi).1 ≠ CONN_SUCCESS →
        (HTTPProvisioning.handleProvision R localIP { ssid := some ssid, password := some password } d).1
            = { code := 200,
                body := [(lit "status", lit "success"), (lit "connected", lit "true"),
                         (lit "ip", localIP)] }
        ∧ (HTTPProvisioning.handleProvision R localIP { ssid := some ssid, password := some password }
              d).2.http.currentState = .STATE_SUCCESS
        ∧ (HTTPProvisioning.handleProvision R localIP { ssid := some ssid, password := some password } d).2.prefs
            = (NVSManager.saveCredentials ssid password d.prefs).2)
    ∧ (WiFiManager.connectStation (radioWith [.ARDUINO_EVENT_WIFI_STA_GOT_IP]) (lit "HomeNet")
          (lit "hunter2") bootHttp.wifi).1 = CONN_SUCCESS
    ∧ (HTTPProvisioning.handleProvision (radioWith [.ARDUINO_EVENT_WIFI_STA_GOT_IP]) (lit "192.168.1.7")
          homeNetRequest bootHttp).1
        = { code := 400,
            body := [(lit "status", lit "failed"),
                     (lit "error", lit "Could not connect to WiFi")] }
    ∧ (HTTPProvisioning.handleProvision (radioWith [.ARDUINO_EVENT_WIFI_STA_GOT_IP]) (lit "192.168.1.7")
          homeNetRequest bootHttp).2.prefs.get NVS_KEY_PROVISIONED = none
    ∧ (WiFiManager.connectStation (radioWith [.ARDUINO_EVENT_WIFI_STA_DISCONNECTED 201])
          (lit "HomeNet") (lit "hunter2") bootHttp.wifi).1 = CONN_SSID_NOT_FOUND
    ∧ (HTTPProvisioning.handleProvision (radioWith [.ARDUINO_EVENT_WIFI_STA_DISCONNECTED 201])
          (lit "192.168.1.7") homeNetRequest bootHttp).1.code = 200
    ∧ (HTTPProvisioning.handleProvision (radioWith [.ARDUINO_EVENT_WIFI_STA_DISCONNECTED 201])
          (lit "192.168.1.7") homeNetRequest bootHttp).2.prefs.get NVS_KEY_PROVISIONED
        = some (.bool true) := by
  refine ⟨?_, ?_, by decide, by decide, by decide, by decide, by decide, by decide⟩
  · intro hr
    unfold HTTPProvisioning.handleProvision
    simp only []
    generalize WiFiManager.connectStation R ssid password d.wifi = r at hr ⊢
    obtain ⟨res, w⟩ := r
    simp only at hr
    subst hr
    simp [ConnectionResult.toNat]
  · intro hr
    unfold HTTPProvisioning.handleProvision
    simp only []
    generalize WiFiManager.connectStation R ssid password d.wifi = r at hr ⊢
    obtain ⟨res, w⟩ := r
    simp only at hr
    cases res <;> simp [ConnectionResult.toNat] at hr ⊢


/-! ## The end-to-end scenario -/

/-- What the peer encrypts for the session key, the session decrypts. -/
theorem decryptPassword_encryptPassword (M : Mbedtls) (enc : List Byte → List Byte → List Byte)
    (upper : Bool) (s : BLEProvisioning) (key pw : List Byte)
    (hkx : s.keyExchangeComplete = true)
    (hkey : s.sharedSecret.take 16 = key)
    (hklen : key.length = 16)
    (hset : ∀ k : List Byte, k.length = 16 → M.mbedtls_aes_setkey_dec k 128 = 0)
    (henc : ∀ k b : List Byte, k.length = 16 → b.length = 16 → (enc k b).length = 16)
    (hdec : ∀ k b : List Byte, k.length = 16 → b.length = 16 →
      M.mbedtls_aes_crypt_ecb k (enc k b) = (0, b))
    (hlen : pw.length ≤ 240) :
    decryptPassword M s (encryptPassword enc upper key pw) = .ret pw := by
  have hP := pkcs7Pad_length pw
  have hct : (ecbEncrypt enc key (pkcs7Pad pw)).length = 16 * (pw.length / 16 + 1) := by
    unfold ecbEncrypt
    have hm : (pkcs7Pad pw).length / 16 = pw.length / 16 + 1 := by omega
    rw [hm]
    exact ecbEncryptBlocks_length enc key (fun b hb => henc key b hklen hb) _ _ hP
  have hex : (encryptPassword enc upper key pw).length / 2 = 16 * (pw.length / 16 + 1) := by
    unfold encryptPassword
    rw [hexEncode_length, hct]
    omega
  have hbytes : hexToBytes (encryptPassword enc upper key pw) (16 * (pw.length / 16 + 1))
      = ecbEncrypt enc key (pkcs7Pad pw) := by
    unfold encryptPassword
    rw [← hct]
    exact hexToBytes_hexEncode upper _
  have hloop : ecbLoop M key (ecbEncrypt enc key (pkcs7Pad pw)) (16 * (pw.length / 16 + 1))
      (blockOffsets (16 * (pw.length / 16 + 1))) [] = .ret (some (pkcs7Pad pw)) := by
    have h := ecbLoop_decrypts M enc key (fun b hb => henc key b hklen hb)
      (fun b hb => hdec key b hklen hb) (pw.length / 16 + 1) 0 (pkcs7Pad pw) [] [] hP rfl
    rw [blockOffsets_mul]
    unfold ecbEncrypt
    have hm : (pkcs7Pad pw).length / 16 = pw.length / 16 + 1 := by omega
    rw [hm]
    simpa using h
  have hlast : (16 * (pw.length / 16 + 1) + 2 ^ 32 - 1) % 2 ^ 32
      = 16 * (pw.length / 16 + 1) - 1 := by omega
  have hnot : ¬ (16 * (pw.length / 16 + 1) ≤ 16 * (pw.length / 16 + 1) - 1) := by omega
  have hdl : (16 * (pw.length / 16 + 1) + 2 ^ 32 - (16 - pw.length % 16)) % 2 ^ 32
      = pw.length := by omega
  unfold decryptPassword
  simp only [hkx, Bool.not_true, Bool.false_eq_true, if_false, hkey, hset key hklen, ne_eq,
    not_true_eq_false, hex, hbytes, hloop, hlast, hnot, pkcs7Pad_last, hdl]
  unfold pkcs7Pad
  exact copyOut_append pw _

/-- A well-formed peer public key on which every mbedTLS step succeeds is accepted. -/
theorem processAppPublicKey_ok (M : Mbedtls) (s : BLEProvisioning) (value : AString)
    (h : value.length = 130 ∧ hexByteAt value 0 = 4
        ∧ M.mbedtls_ecp_group_load = 0
        ∧ M.mbedtls_ecp_point_read_binary (hexToBytes value 65) = 0
        ∧ (M.mbedtls_ecdh_get_params s.ecdhContext (hexToBytes value 65)).1 = 0
        ∧ (M.mbedtls_ecdh_calc_secret
            (M.mbedtls_ecdh_get_params s.ecdhContext (hexToBytes value 65)).2
            s.sharedSecret).1 = 0) :
    (processAppPublicKey M s value).1 = true := by
  obtain ⟨h1, h2, h3, h4, h5, h6⟩ := h
  have hv : ((hexToBytes value 65).getD 0 0).val = 4 := by
    rw [hexToBytes_head, h2]
    rfl
  unfold processAppPublicKey
  simp only [h1, hv, h3, h4, h5, h6, ne_eq, not_true_eq_false, if_false]

/-- C18. End-to-end scenario. From a session (in particular one in `STATE_CONNECTED`)
with a store that accepts writes (in particular an empty one): a well-formed peer public
key on which every mbedTLS step succeeds makes the state `STATE_KEY_EXCHANGED`; after
the ssid "HomeNet", the write of a non-empty password (NUL-free text of at most 240
bytes) encrypted under the first 16 bytes of the derived secret returns and makes the
state `STATE_CREDENTIALS_RECEIVED`; the connect-trigger "1" with an attempt that ends in
Success then makes the state `STATE_SUCCESS`, and the store holds ssid "HomeNet", the
password and provisioned = true. The cipher is any keyed permutation, as in C5. -/
theorem C18_end_to_end_scenario (M : Mbedtls) (enc : List Byte → List Byte → List Byte)
    (upper : Bool) (d0 : Device) (peerKey : AString) (pw : List Byte) (R : Radio)
    (hstore : d0.prefs.writable = true)
    (hkeyOk : peerKey.length = 130 ∧ hexByteAt peerKey 0 = 4
        ∧ M.mbedtls_ecp_group_load = 0
        ∧ M.mbedtls_ecp_point_read_binary (hexToBytes peerKey 65) = 0
        ∧ (M.mbedtls_ecdh_get_params d0.ble.ecdhContext (hexToBytes peerKey 65)).1 = 0
        ∧ (M.mbedtls_ecdh_calc_secret
            (M.mbedtls_ecdh_get_params d0.ble.ecdhContext (hexToBytes peerKey 65)).2
            d0.ble.sharedSecret).1 = 0)
    (hsecret : 16 ≤ (PublicKeyCallbacks.onWrite M peerKey d0).ble.sharedSecret.length)
    (hset : ∀ k : List Byte, k.length = 16 → M.mbedtls_aes_setkey_dec k 128 = 0)
    (henc : ∀ k b : List Byte, k.length = 16 → b.length = 16 → (enc k b).length = 16)
    (hdec : ∀ k b : List Byte, k.length = 16 → b.length = 16 →
      M.mbedtls_aes_crypt_ecb k (enc k b) = (0, b))
    (hpw : pw ≠ []) (hpw0 : (0 : Byte) ∉ pw) (hlen : pw.length ≤ 240)
    (hR : (WiFiManager.connectStation R (lit "HomeNet") pw d0.wifi).1 = CONN_SUCCESS) :
    (PublicKeyCallbacks.onWrite M peerKey d0).ble.currentState = STATE_KEY_EXCHANGED
    ∧ ∃ d3 : Device,
        PasswordCallbacks.onWrite M
            (encryptPassword enc upper
              ((PublicKeyCallbacks.onWrite M peerKey d0).ble.sharedSecret.take 16) pw)
            (SSIDCallbacks.onWrite (lit "HomeNet") (PublicKeyCallbacks.onWrite M peerKey d0))
          = .ret d3
        ∧ d3.ble.currentState = STATE_CREDENTIALS_RECEIVED
        ∧ (ConnectCallbacks.onWrite R (lit "1") d3).ble.currentState = STATE_SUCCESS
        ∧ (ConnectCallbacks.onWrite R (lit "1") d3).prefs.get NVS_KEY_SSID
            = some (.str (lit "HomeNet"))
        ∧ (ConnectCallbacks.onWrite R (lit "1") d3).prefs.get NVS_KEY_PASSWORD
            = some (.str pw)
        ∧ (ConnectCallbacks.onWrite R (lit "1") d3).prefs.get NVS_KEY_PROVISIONED
            = some (.bool true) := by
  have hacc := processAppPublicKey_ok M d0.ble peerKey hkeyOk
  obtain ⟨_, _, _, hke⟩ := processAppPublicKey_frame M d0.ble peerKey
  obtain ⟨hst, hkx⟩ := hke hacc
  have hklen : ((PublicKeyCallbacks.onWrite M peerKey d0).ble.sharedSecret.take 16).length
      = 16 := by
    rw [List.length_take]
    omega
  have hdecrypt := decryptPassword_encryptPassword M enc upper
    (SSIDCallbacks.onWrite (lit "HomeNet") (PublicKeyCallbacks.onWrite M peerKey d0)).ble
    ((PublicKeyCallbacks.onWrite M peerKey d0).ble.sharedSecret.take 16) pw hkx rfl hklen
    hset henc hdec hlen
  have hwrite := passwordWrite_eq M _ _ pw hdecrypt
  rw [if_neg hpw] at hwrite
  refine ⟨hst, _, hwrite, rfl, ?_⟩
  have hcr : ({ SSIDCallbacks.onWrite (lit "HomeNet") (PublicKeyCallbacks.onWrite M peerKey d0)
      with ble := { (SSIDCallbacks.onWrite (lit "HomeNet")
        (PublicKeyCallbacks.onWrite M peerKey d0)).ble with
          receivedPassword := pw,
          currentState := STATE_CREDENTIALS_RECEIVED } } : Device).ble.currentState
      = STATE_CREDENTIALS_RECEIVED := rfl
  have hstate1 := (onWrite_accepted_ble R _ hcr).1
  have hprefs := (onWrite_accepted_effects R _ hcr).2.2.2.2
  have hR2 : (WiFiManager.connectStation R (lit "HomeNet") pw d0.wifi).1 = CONN_SUCCESS := hR
  simp only [SSIDCallbacks.onWrite, PublicKeyCallbacks.onWrite] at hstate1 hprefs
  simp only [hR2, if_true] at hstate1 hprefs
  simp only [SSIDCallbacks.onWrite, PublicKeyCallbacks.onWrite]
  have hl : lit "HomeNet" ≠ [] := by decide
  have hl0 : (0 : Byte) ∉ lit "HomeNet" := by decide
  rw [hprefs, NVSManager.saveCredentials_ok _ _ _ hstore hl hl0 hpw hpw0]
  refine ⟨hstate1, ?_, ?_, ?_⟩
  · rw [Preferences.get_set_other _ _ _ _ (by decide),
      Preferences.get_set_other _ _ _ _ (by decide), Preferences.get_set_same]
  · rw [Preferences.get_set_other _ _ _ _ (by decide), Preferences.get_set_same]
  · rw [Preferences.get_set_same]


/-- Witness of C18: the scenario under the stand-in library, from the attached device. -/
theorem C18_witness :
    (ServerCallbacks.onConnect bootDevice).ble.currentState = STATE_CONNECTED
    ∧ (ServerCallbacks.onConnect bootDevice).prefs = { writable := true, entries := [] }
    ∧ (WiFiManager.connectStation (radioWith [.ARDUINO_EVENT_WIFI_STA_GOT_IP]) (lit "HomeNet")
          (lit "hunter2") (ServerCallbacks.onConnect bootDevice).wifi).1 = CONN_SUCCESS
    ∧ (PublicKeyCallbacks.onWrite standInTls peerKeyHex
          (ServerCallbacks.onConnect bootDevice)).ble.currentState = STATE_KEY_EXCHANGED :=
  ⟨by decide, by decide, by decide,
   (C18_end_to_end_scenario standInTls standInEnc true (ServerCallbacks.onConnect bootDevice)
      peerKeyHex (lit "hunter2") (radioWith [.ARDUINO_EVENT_WIFI_STA_GOT_IP])
      (by decide) (by decide) (by decide)
      (fun _ _ => rfl)
      (fun k b hk hb => by
        show (xorBytes b k).length = 16
        rw [xorBytes_length, hk, hb]; rfl)
      (fun k b hk hb => by
        show ((0 : Int), xorBytes (xorBytes b k) k) = (0, b)
        rw [xorBytes_cancel b k (by rw [hk, hb])])
      (by decide) (by decide) (by decide) (by decide)).1⟩

/-! ## Peer disconnects and the completed flag -/

/-- What `ServerCallbacks::onDisconnect` does, by the completed flag. -/
theorem onDisconnect_effects (ok : Bool) (d : Device) :
    ((ServerCallbacks.onDisconnect ok d).ble.provisioningCompleted = d.ble.provisioningCompleted)
    ∧ (d.ble.provisioningCompleted = false →
        (ServerCallbacks.onDisconnect ok d).ble.advertising = true
        ∧ (ServerCallbacks.onDisconnect ok d).ble.currentState = STATE_ADVERTISING)
    ∧ (d.ble.provisioningCompleted = true →
        (ServerCallbacks.onDisconnect ok d).ble.advertising = d.ble.advertising
        ∧ (ServerCallbacks.onDisconnect ok d).ble.currentState = d.ble.currentState)
    ∧ (ServerCallbacks.onDisconnect ok d).ble.receivedSSID = d.ble.receivedSSID
    ∧ (ServerCallbacks.onDisconnect ok d).ble.receivedPassword = d.ble.receivedPassword
    ∧ (ServerCallbacks.onDisconnect ok d).ble.sharedSecret = d.ble.sharedSecret
    ∧ (ServerCallbacks.onDisconnect ok d).ble.keyExchangeComplete = d.ble.keyExchangeComplete := by
  unfold ServerCallbacks.onDisconnect
  cases h : d.ble.provisioningCompleted <;> simp [h, startAdvertising]

/-- One callback sets the completed flag exactly when it is an accepted trigger whose
attempt succeeds; a set flag stays set, and with it advertising stays off. -/
theorem step_completed (M : Mbedtls) (c : Command) (d d1 : Device)
    (hstep : step M c d = .ret d1) :
    d1.ble.provisioningCompleted = (d.ble.provisioningCompleted || c.succeeds d)
    ∧ ((d.ble.provisioningCompleted = true → d.ble.advertising = false) →
        (d1.ble.provisioningCompleted = true → d1.ble.advertising = false)) := by
  cases c with
  | attach =>
    simp only [step, Exec.ret.injEq] at hstep
    subst hstep
    simp [ServerCallbacks.onConnect, Command.succeeds]
  | detach ok =>
    simp only [step, Exec.ret.injEq] at hstep
    subst hstep
    have h := onDisconnect_effects ok d
    refine ⟨by simp [h.1, Command.succeeds], ?_⟩
    intro hinv hd
    rw [h.1] at hd
    rw [(h.2.2.1 hd).1]
    exact hinv hd
  | writePublicKey v =>
    simp only [step, Exec.ret.injEq] at hstep
    subst hstep
    have h := processAppPublicKey_frame M d.ble v
    simp only [PublicKeyCallbacks.onWrite, h.1, h.2.1, Command.succeeds, Bool.or_false]
    exact ⟨trivial, fun hinv => hinv⟩
  | writeSSID v =>
    simp only [step, Exec.ret.injEq] at hstep
    subst hstep
    simp [SSIDCallbacks.onWrite, Command.succeeds]
  | writePassword v =>
    simp only [step] at hstep
    unfold PasswordCallbacks.onWrite at hstep
    cases hdec : decryptPassword M d.ble v with
    | oob => rw [hdec] at hstep; simp at hstep
    | ret pw =>
      rw [hdec] at hstep
      simp only [] at hstep
      split at hstep <;>
      · simp only [Exec.ret.injEq] at hstep
        subst hstep
        simp [Command.succeeds]
  | writeConnect v R =>
    simp only [step, Exec.ret.injEq] at hstep
    subst hstep
    by_cases hacc : v = lit "1" ∧ d.ble.currentState = STATE_CREDENTIALS_RECEIVED
    · obtain ⟨hv, hs⟩ := hacc
      subst hv
      have h := onWrite_accepted_effects R d hs
      rw [h.2.2.1, h.2.2.2.1]
      by_cases hr : (WiFiManager.connectStation R d.ble.receivedSSID d.ble.receivedPassword
          d.wifi).1 = CONN_SUCCESS
      · simp [Command.succeeds, hs, hr]
      · simp [Command.succeeds, hs, hr]
    · rw [onWrite_rejected R v d hacc]
      simp [Command.succeeds, hacc]

/-- Along a run the completed flag is set exactly when some attempt has succeeded, and
once it is set advertising is off. -/
theorem run_completed (M : Mbedtls) : ∀ (cmds : List Command) (d0 d : Device),
    run M cmds d0 = .ret d →
    d.ble.provisioningCompleted = (d0.ble.provisioningCompleted || anySucceeded M cmds d0)
    ∧ ((d0.ble.provisioningCompleted = true → d0.ble.advertising = false) →
        (d.ble.provisioningCompleted = true → d.ble.advertising = false))
  | [], d0, d, h => by
    simp only [run, Exec.ret.injEq] at h
    subst h
    simp [anySucceeded]
  | c :: rest, d0, d, h => by
    simp only [run] at h
    cases hs : step M c d0 with
    | oob => rw [hs] at h; simp at h
    | ret d1 =>
      rw [hs] at h
      simp only [] at h
      have h1 := step_completed M c d0 d1 hs
      have h2 := run_completed M rest d1 d h
      refine ⟨?_, fun hinv => h2.2 (h1.2 hinv)⟩
      rw [h2.1, h1.1]
      simp only [anySucceeded, hs, Bool.or_assoc]

/-- C21. Peer disconnect handling. After any run of commands of a session that started with
no attempt succeeded, a peer disconnect restarts advertising and sets
`STATE_ADVERTISING` if and only if no connection attempt of the run has succeeded; when
one has, advertising is off before the disconnect and stays off, and the state is the
one before. In both cases the cached ssid, the cached password, the shared secret and the
key-exchange flag are those before the disconnect. -/
theorem C21_peer_disconnect_handling (M : Mbedtls) (cmds : List Command) (d0 d : Device)
    (ok : Bool)
    (h0 : d0.ble.provisioningCompleted = false)
    (hrun : run M cmds d0 = .ret d) :
    (((ServerCallbacks.onDisconnect ok d).ble.advertising = true
        ∧ (ServerCallbacks.onDisconnect ok d).ble.currentState = STATE_ADVERTISING)
      ↔ anySucceeded M cmds d0 = false)
    ∧ (anySucceeded M cmds d0 = true →
        d.ble.advertising = false
        ∧ (ServerCallbacks.onDisconnect ok d).ble.advertising = false
        ∧ (ServerCallbacks.onDisconnect ok d).ble.currentState = d.ble.currentState)
    ∧ (ServerCallbacks.onDisconnect ok d).ble.receivedSSID = d.ble.receivedSSID
    ∧ (ServerCallbacks.onDisconnect ok d).ble.receivedPassword = d.ble.receivedPassword
    ∧ (ServerCallbacks.onDisconnect ok d).ble.sharedSecret = d.ble.sharedSecret
    ∧ (ServerCallbacks.onDisconnect ok d).ble.keyExchangeComplete
        = d.ble.keyExchangeComplete := by
  have hr := run_completed M cmds d0 d hrun
  have hflag : d.ble.provisioningCompleted = anySucceeded M cmds d0 := by
    rw [hr.1, h0, Bool.false_or]
  have hoff : d.ble.provisioningCompleted = true → d.ble.advertising = false :=
    hr.2 (fun h => by rw [h0] at h; cases h)
  have he := onDisconnect_effects ok d
  refine ⟨?_, ?_, he.2.2.2.1, he.2.2.2.2.1, he.2.2.2.2.2.1, he.2.2.2.2.2.2⟩
  · constructor
    · intro hadv
      cases hany : anySucceeded M cmds d0 with
      | false => rfl
      | true =>
        have hc : d.ble.provisioningCompleted = true := by rw [hflag, hany]
        have h1 := (he.2.2.1 hc).1
        rw [hoff hc] at h1
        rw [h1] at hadv
        cases hadv.1
    · intro hany
      exact he.2.1 (by rw [hflag, hany])
  · intro hany
    have hc : d.ble.provisioningCompleted = true := by rw [hflag, hany]
    have h1 := he.2.2.1 hc
    exact ⟨hoff hc, by rw [h1.1]; exact hoff hc, h1.2⟩

/-- Witness of C21: a disconnect in the session `readyDevice`, and one after its attempt
has succeeded. -/
theorem C21_witness :
    readyDevice.ble.provisioningCompleted = false
    ∧ run standInTls [.writeConnect (lit "1") (radioWith [.ARDUINO_EVENT_WIFI_STA_GOT_IP])]
        readyDevice = .ret successDevice
    ∧ anySucceeded standInTls
        [.writeConnect (lit "1") (radioWith [.ARDUINO_EVENT_WIFI_STA_GOT_IP])] readyDevice = true
    ∧ (ServerCallbacks.onDisconnect true successDevice).ble.advertising = false
    ∧ (ServerCallbacks.onDisconnect true successDevice).ble.currentState = STATE_SUCCESS :=
  ⟨by decide, by decide, by decide,
   ((C21_peer_disconnect_handling standInTls
      [.writeConnect (lit "1") (radioWith [.ARDUINO_EVENT_WIFI_STA_GOT_IP])]
      readyDevice successDevice true (by decide) (by decide)).2.1 (by decide)).2.1,
   by decide⟩

/-! ## The ordering invariant -/

/-- The ordering invariant of a session: the states that follow received credentials are
held only with a completed key exchange. -/
theorem step_ordered (M : Mbedtls) (c : Command) (d d1 : Device)
    (hstep : step M c d = .ret d1)
    (hinv : d.ble.currentState = STATE_CREDENTIALS_RECEIVED
        ∨ d.ble.currentState = STATE_CONNECTING ∨ d.ble.currentState = STATE_SUCCESS →
      d.ble.keyExchangeComplete = true) :
    d1.ble.currentState = STATE_CREDENTIALS_RECEIVED
        ∨ d1.ble.currentState = STATE_CONNECTING ∨ d1.ble.currentState = STATE_SUCCESS →
      d1.ble.keyExchangeComplete = true := by
  cases c with
  | attach =>
    simp only [step, Exec.ret.injEq] at hstep
    subst hstep
    simp [ServerCallbacks.onConnect]
  | detach ok =>
    simp only [step, Exec.ret.injEq] at hstep
    subst hstep
    have h := onDisconnect_effects ok d
    rw [h.2.2.2.2.2.2]
    cases hc : d.ble.provisioningCompleted with
    | false =>
      rw [(h.2.1 hc).2]
      simp
    | true =>
      rw [(h.2.2.1 hc).2]
      exact hinv
  | writePublicKey v =>
    simp only [step, Exec.ret.injEq] at hstep
    subst hstep
    have h := processAppPublicKey_frame M d.ble v
    simp only [PublicKeyCallbacks.onWrite]
    cases hr : (processAppPublicKey M d.ble v).1 with
    | false =>
      rw [(h.2.2.1 hr).1, (h.2.2.1 hr).2]
      exact hinv
    | true =>
      intro _
      exact (h.2.2.2 hr).2
  | writeSSID v =>
    simp only [step, Exec.ret.injEq] at hstep
    subst hstep
    exact hinv
  | writePassword v =>
    simp only [step] at hstep
    cases hk : d.ble.keyExchangeComplete with
    | false =>
      have h6 : decryptPassword M d.ble v = .ret [] := by
        unfold decryptPassword
        simp [hk]
      rw [passwordWrite_eq M v d [] h6] at hstep
      simp only [Exec.ret.injEq] at hstep
      subst hstep
      simp
    | true =>
      cases hdec : decryptPassword M d.ble v with
      | oob =>
        unfold PasswordCallbacks.onWrite at hstep
        rw [hdec] at hstep
        simp at hstep
      | ret pw =>
        rw [passwordWrite_eq M v d pw hdec] at hstep
        simp only [Exec.ret.injEq] at hstep
        subst hstep
        intro _
        exact hk
  | writeConnect v R =>
    simp only [step, Exec.ret.injEq] at hstep
    subst hstep
    by_cases hacc : v = lit "1" ∧ d.ble.currentState = STATE_CREDENTIALS_RECEIVED
    · obtain ⟨hv, hs⟩ := hacc
      subst hv
      have h := onWrite_accepted_ble R d hs
      simp only [] at h
      intro _
      rw [h.2.2.2.1]
      exact hinv (Or.inl hs)
    · rw [onWrite_rejected R v d hacc]
      exact hinv

/-- The invariant holds along every run that starts where it holds. -/
theorem run_ordered (M : Mbedtls) : ∀ (cmds : List Command) (d0 d : Device),
    run M cmds d0 = .ret d →
    (d0.ble.currentState = STATE_CREDENTIALS_RECEIVED
        ∨ d0.ble.currentState = STATE_CONNECTING ∨ d0.ble.currentState = STATE_SUCCESS →
      d0.ble.keyExchangeComplete = true) →
    (d.ble.currentState = STATE_CREDENTIALS_RECEIVED
        ∨ d.ble.currentState = STATE_CONNECTING ∨ d.ble.currentState = STATE_SUCCESS →
      d.ble.keyExchangeComplete = true)
  | [], d0, d, h, hinv => by
    simp only [run, Exec.ret.injEq] at h
    subst h
    exact hinv
  | c :: rest, d0, d, h, hinv => by
    simp only [run] at h
    cases hs : step M c d0 with
    | oob => rw [hs] at h; simp at h
    | ret d1 =>
      rw [hs] at h
      exact run_ordered M rest d1 d h (step_ordered M c d0 d1 hs hinv)

/-- What `begin()` leaves: no completed key exchange when it is called at power-on or
succeeds, and `STATE_ADVERTISING` with advertising running when it succeeds. -/
theorem begin_effects (K : MbedtlsKeygen) (d : Device) :
    ((BLEProvisioning.begin K d).1 = true →
        (BLEProvisioning.begin K d).2.ble.currentState = STATE_ADVERTISING
        ∧ (BLEProvisioning.begin K d).2.ble.advertising = true
        ∧ (BLEProvisioning.begin K d).2.ble.keyExchangeComplete = false)
    ∧ ((BLEProvisioning.begin K d).1 = false →
        (BLEProvisioning.begin K d).2.ble.currentState = d.ble.currentState
        ∧ (BLEProvisioning.begin K d).2.ble.keyExchangeComplete = d.ble.keyExchangeComplete) := by
  unfold BLEProvisioning.begin initCrypto
  simp only []
  split_ifs <;> simp [startAdvertising]

/-- C22. Ordering invariant. The session starts with `begin()` on the statics as
initialised at power-on, and then runs any sequence of commands and transport events
(attach, disconnect, public-key write, ssid write, password write, connect-trigger with
any behaviour of the radio), each callback returning. In every state so reached, if the
state is `STATE_CREDENTIALS_RECEIVED`, `STATE_CONNECTING` or `STATE_SUCCESS` then
`keyExchangeComplete` is true. -/
theorem C22_ordering_invariant (K : MbedtlsKeygen) (M : Mbedtls) (wifi : WiFiManager)
    (prefs : Preferences) (cmds : List Command) (d : Device)
    (hrun : run M cmds
        (BLEProvisioning.begin K { ble := staticInit, wifi := wifi, prefs := prefs }).2
      = .ret d) :
    (d.ble.currentState = STATE_CREDENTIALS_RECEIVED
        ∨ d.ble.currentState = STATE_CONNECTING ∨ d.ble.currentState = STATE_SUCCESS →
      d.ble.keyExchangeComplete = true)
    ∧ (d.ble.currentState = STATE_CREDENTIALS_RECEIVED → d.ble.keyExchangeComplete = true) := by
  have hb := begin_effects K { ble := staticInit, wifi := wifi, prefs := prefs }
  have h0 : (BLEProvisioning.begin K { ble := staticInit, wifi := wifi, prefs := prefs }).2.ble.currentState
        = STATE_CREDENTIALS_RECEIVED
      ∨ (BLEProvisioning.begin K { ble := staticInit, wifi := wifi, prefs := prefs }).2.ble.currentState
        = STATE_CONNECTING
      ∨ (BLEProvisioning.begin K { ble := staticInit, wifi := wifi, prefs := prefs }).2.ble.currentState
        = STATE_SUCCESS →
      (BLEProvisioning.begin K { ble := staticInit, wifi := wifi, prefs := prefs }).2.ble.keyExchangeComplete
        = true := by
    cases hr : (BLEProvisioning.begin K { ble := staticInit, wifi := wifi, prefs := prefs }).1 with
    | true =>
      rw [(hb.1 hr).1]
      simp
    | false =>
      rw [(hb.2 hr).1]
      simp [staticInit]
  have h := run_ordered M cmds _ d hrun h0
  exact ⟨h, fun hs => h (Or.inl hs)⟩

/-- Witness of C22: after `begin()` the session `credentialsSession` reaches
`STATE_CREDENTIALS_RECEIVED`, with the key exchange completed. -/
theorem C22_witness :
    run standInTls credentialsSession
        (BLEProvisioning.begin standInKeygen
          { ble := staticInit, wifi := bootDevice.wifi, prefs := bootDevice.prefs }).2
      = .ret credentialsDevice
    ∧ credentialsDevice.ble.currentState = STATE_CREDENTIALS_RECEIVED
    ∧ credentialsDevice.ble.keyExchangeComplete = true :=
  ⟨by decide, by decide,
   (C22_ordering_invariant standInKeygen standInTls bootDevice.wifi bootDevice.prefs
      credentialsSession credentialsDevice (by decide)).2 (by decide)⟩

/-! ## The local public key -/

theorem hexDigit_upper : ∀ n : Fin 16, isUpperHexDigit (hexDigit true n.val) = true := by
  decide

theorem hexEncode_upper (bs : List Byte) : ∀ c ∈ hexEncode true bs, isUpperHexDigit c = true := by
  induction bs with
  | nil => intro c hc; simp [hexEncode] at hc
  | cons b bs ih =>
    intro c hc
    rw [hexEncode_cons] at hc
    simp only [List.mem_cons] at hc
    rcases hc with hc | hc | hc
    · subst hc
      exact hexDigit_upper ⟨b.val / 16, by omega⟩
    · subst hc
      exact hexDigit_upper ⟨b.val % 16, by omega⟩
    · exact ih c hc

/-- The loop of `getPublicKey` stays inside the buffer when its last index does, and it
appends the hex text of the bytes it visits. -/
theorem hexKeyLoop_eq (buf : List Byte) : ∀ (n i : Nat) (acc : AString),
    i + n ≤ buf.length →
    hexKeyLoop buf i n acc = .ret (acc ++ hexEncode true ((buf.drop i).take n))
  | 0, i, acc, _ => by simp [hexKeyLoop, hexEncode]
  | n + 1, i, acc, h => by
    have hi : i < buf.length := by omega
    have hd : buf.drop i = buf[i] :: buf.drop (i + 1) := List.drop_eq_getElem_cons hi
    unfold hexKeyLoop
    rw [List.getElem?_eq_getElem hi]
    simp only []
    rw [hexKeyLoop_eq buf n (i + 1) _ (by omega), hd, List.take_succ_cons, hexEncode_cons,
      List.append_assoc]
    rfl

/-- C23. Local public key encoding. When `initCrypto` has written at least 65 bytes
(and at most the 128 the buffer holds), `getPublicKey` returns the two-digit upper-case
hex text, in order, of the last 65 bytes written: a string of exactly 130 chars, each an
ASCII hex digit; decoding it pairwise as `processAppPublicKey` does gives back those 65
bytes. -/
theorem C23_local_public_key_encoding (s : BLEProvisioning)
    (h65 : 65 ≤ s.ourPublicKeyLen)
    (hbuf : s.ourPublicKeyLen ≤ s.ourPublicKey.length)
    (hsize : s.ourPublicKey.length = 128) :
    getPublicKey s = .ret (hexEncode true (lastKeyBytes s))
    ∧ (lastKeyBytes s).length = 65
    ∧ (hexEncode true (lastKeyBytes s)).length = 130
    ∧ (∀ c ∈ hexEncode true (lastKeyBytes s), isUpperHexDigit c = true)
    ∧ hexToBytes (hexEncode true (lastKeyBytes s)) 65 = lastKeyBytes s := by
  have hk : lastKeyBytes s = (s.ourPublicKey.drop (s.ourPublicKeyLen - 65)).take 65 := by
    unfold lastKeyBytes
    rw [List.drop_take]
    congr 1
    omega
  have hl : (lastKeyBytes s).length = 65 := by
    rw [hk, List.length_take, List.length_drop]
    omega
  have hstart : (s.ourPublicKeyLen + 2 ^ 32 - 65) % 2 ^ 32 = s.ourPublicKeyLen - 65 := by
    omega
  have hn : s.ourPublicKeyLen - (s.ourPublicKeyLen - 65) = 65 := by omega
  refine ⟨?_, hl, ?_, hexEncode_upper _, ?_⟩
  · unfold getPublicKey
    simp only [hstart, hn]
    rw [hexKeyLoop_eq s.ourPublicKey 65 _ [] (by omega), hk]
    rfl
  · rw [hexEncode_length, hl]
  · have h := hexToBytes_hexEncode true (lastKeyBytes s)
    rw [hl] at h
    exact h

/-- Witness of C23: the key text after `begin()` with the stand-in key generation, the
tag `04` followed by 64 times `2A`. -/
theorem C23_witness :
    65 ≤ (BLEProvisioning.begin standInKeygen powerOnDevice).2.ble.ourPublicKeyLen
    ∧ getPublicKey (BLEProvisioning.begin standInKeygen powerOnDevice).2.ble
        = .ret (hexEncode true (lastKeyBytes (BLEProvisioning.begin standInKeygen powerOnDevice).2.ble))
    ∧ hexEncode true (lastKeyBytes (BLEProvisioning.begin standInKeygen powerOnDevice).2.ble)
        = lit "04" ++ (List.replicate 64 (lit "2A")).flatten :=
  ⟨by decide,
   (C23_local_public_key_encoding (BLEProvisioning.begin standInKeygen powerOnDevice).2.ble
      (by decide) (by decide) (by decide)).1,
   by decide⟩

/-! ## Service discovery -/

namespace WiFiManager

end WiFiManager

namespace WiFiManager

/-- The handler never clears the done flag. -/
theorem onEvent_done (e : WiFiEvent) (w : WiFiManager) (h : w.connectionDone = true) :
    (onEvent e w).connectionDone = true := by
  cases e
  · exact h
  · rfl
  · simp only [onEvent]
    repeat (first | exact h | rfl | split)
  · exact h

theorem foldl_onEvent_done (es : List WiFiEvent) (w : WiFiManager)
    (h : w.connectionDone = true) :
    (es.foldl (fun acc e => onEvent e acc) w).connectionDone = true := by
  induction es generalizing w with
  | nil => exact h
  | cons e es ih => exact ih _ (onEvent_done e w h)

/-- The poll in which the done flag is first set is handled to its end, and it is the
last one of the wait. -/
theorem waitLoop_deciding_slot (n : Nat) (p : List WiFiEvent) (t : WiFiEvent)
    (q : List WiFiEvent) (rest : List (List WiFiEvent)) (w : WiFiManager)
    (hreg : w.eventHandlerRegistered = true) (hdone : w.connectionDone = false)
    (hall : ∀ e ∈ p, (e.isIgnored || e.isHandshakeTimeout) = true)
    (hc : w.handshakeFailCount + handshakeTimeouts p < 2)
    (hterm : (onEvent t (counted (handshakeTimeouts p) w)).connectionDone = true) :
    waitLoop (n + 1) ((p ++ t :: q) :: rest) w
      = q.foldl (fun acc e => onEvent e acc) (onEvent t (counted (handshakeTimeouts p) w)) := by
  have hd : deliver (p ++ t :: q) w
      = q.foldl (fun acc e => onEvent e acc) (onEvent t (counted (handshakeTimeouts p) w)) := by
    unfold deliver
    rw [if_pos hreg, List.foldl_append, List.foldl_cons, foldl_onEvent_quiet p w hall hc]
  rw [waitLoop_step n _ w hdone]
  show waitLoop n rest (deliver (p ++ t :: q) w) = _
  rw [hd]
  exact waitLoop_done n rest _ (foldl_onEvent_done q _ hterm)

end WiFiManager

/-- C27. An empty password is reported as a failure. On a store that accepts writes,
`saveCredentials(ssid, "")` with an ssid that starts with a char other than NUL stores
the ssid and the empty password, then takes the 0 that `putString` returns for the empty
text (the number of chars stored) for a failure: it returns false and never writes the
provisioned flag. -/
theorem C27_empty_password_is_reported_as_failure (ssid : AString) (prefs : Preferences)
    (hw : prefs.writable = true) (hs : cstr ssid ≠ []) :
    NVSManager.saveCredentials ssid [] prefs
        = (false, (prefs.set NVS_KEY_SSID (.str (cstr ssid))).set NVS_KEY_PASSWORD (.str []))
    ∧ (NVSManager.saveCredentials ssid [] prefs).2.get NVS_KEY_SSID = some (.str (cstr ssid))
    ∧ (NVSManager.saveCredentials ssid [] prefs).2.get NVS_KEY_PASSWORD = some (.str [])
    ∧ (NVSManager.saveCredentials ssid [] prefs).2.get NVS_KEY_PROVISIONED
        = prefs.get NVS_KEY_PROVISIONED := by
  have hne : ssid ≠ [] := by
    intro h
    rw [h] at hs
    exact hs rfl
  have hlen : (cstr ssid).length ≠ 0 := fun h => hs (List.length_eq_zero.mp h)
  have heq : NVSManager.saveCredentials ssid [] prefs
      = (false, (prefs.set NVS_KEY_SSID (.str (cstr ssid))).set NVS_KEY_PASSWORD (.str [])) := by
    have e1 : ssid.isEmpty = false := by cases ssid <;> simp_all
    have hw1 : (prefs.set NVS_KEY_SSID (.str (cstr ssid))).writable = true := hw
    have hc : cstr ([] : AString) = [] := rfl
    unfold NVSManager.saveCredentials
    simp only [e1, Bool.false_eq_true, if_false, Preferences.putString, hw, hw1, Bool.not_true,
      hlen, hc, List.length_nil, if_true]
  refine ⟨heq, ?_, ?_, ?_⟩
  · rw [heq]
    show ((prefs.set NVS_KEY_SSID (.str (cstr ssid))).set NVS_KEY_PASSWORD (.str [])).get
      NVS_KEY_SSID = _
    rw [Preferences.get_set_other _ _ _ _ (by decide), Preferences.get_set_same]
  · rw [heq]
    exact Preferences.get_set_same _ _ _
  · rw [heq]
    show ((prefs.set NVS_KEY_SSID (.str (cstr ssid))).set NVS_KEY_PASSWORD (.str [])).get
      NVS_KEY_PROVISIONED = _
    rw [Preferences.get_set_other _ _ _ _ (by decide),
      Preferences.get_set_other _ _ _ _ (by decide)]

/-- Witness of C27: the open network "CafeOpen" on the empty store of the booted device. -/
theorem C27_witness :
    bootDevice.prefs.writable = true
    ∧ (NVSManager.saveCredentials (lit "CafeOpen") [] bootDevice.prefs).1 = false
    ∧ (NVSManager.saveCredentials (lit "CafeOpen") [] bootDevice.prefs).2.get NVS_KEY_PASSWORD
        = some (.str [])
    ∧ (NVSManager.saveCredentials (lit "CafeOpen") [] bootDevice.prefs).2.get
        NVS_KEY_PROVISIONED = none :=
  ⟨by decide, by decide,
   (C27_empty_password_is_reported_as_failure (lit "CafeOpen") bootDevice.prefs (by decide)
      (by decide)).2.2.1,
   by decide⟩

/-! ## The exact effect of a password write -/

/-- C28. Exact effect of a password write. Whenever `decryptPassword` returns, the
callback returns, replaces the cached password by the result and sets the state to
`STATE_CREDENTIALS_RECEIVED` if the result is non-empty and to `STATE_FAILED` if it is
empty, and leaves everything else, the cached ssid included, as it was; the result of
`decryptPassword` depends neither on the state nor on the ssid. The callback does not
return exactly when `decryptPassword` runs out of its buffers. Consequently the empty
password encrypted by the peer (one block of sixteen bytes `0x10`, under any keyed
permutation and the session key) puts the session in `STATE_FAILED` and erases the
cached password. -/
theorem C28_exact_effect_of_a_password_write (M : Mbedtls) (hex : AString) (d : Device) :
    (∀ pw : AString, decryptPassword M d.ble hex = .ret pw →
        PasswordCallbacks.onWrite M hex d
          = .ret { d with ble := { d.ble with
                    receivedPassword := pw,
                    currentState := if pw = [] then STATE_FAILED
                                    else STATE_CREDENTIALS_RECEIVED } })
    ∧ (PasswordCallbacks.onWrite M hex d = .oob ↔ decryptPassword M d.ble hex = .oob)
    ∧ (∀ (st : ProvisioningState) (ssid : AString),
        decryptPassword M { d.ble with currentState := st, receivedSSID := ssid } hex
          = decryptPassword M d.ble hex)
    ∧ (∀ d1 : Device, PasswordCallbacks.onWrite M hex d = .ret d1 →
        d1.ble.receivedSSID = d.ble.receivedSSID
        ∧ d1.ble.keyExchangeComplete = d.ble.keyExchangeComplete
        ∧ d1.ble.sharedSecret = d.ble.sharedSecret
        ∧ d1.wifi = d.wifi ∧ d1.prefs = d.prefs)
    ∧ pkcs7Pad [] = List.replicate 16 16
    ∧ (∀ (enc : List Byte → List Byte → List Byte) (upper : Bool) (key : List Byte),
        d.ble.keyExchangeComplete = true → d.ble.sharedSecret.take 16 = key →
        key.length = 16 →
        (∀ k : List Byte, k.length = 16 → M.mbedtls_aes_setkey_dec k 128 = 0) →
        (∀ k b : List Byte, k.length = 16 → b.length = 16 → (enc k b).length = 16) →
        (∀ k b : List Byte, k.length = 16 → b.length = 16 →
          M.mbedtls_aes_crypt_ecb k (enc k b) = (0, b)) →
        PasswordCallbacks.onWrite M (encryptPassword enc upper key []) d
          = .ret { d with ble := { d.ble with
                    receivedPassword := [], currentState := STATE_FAILED } }) := by
  refine ⟨fun pw h => passwordWrite_eq M hex d pw h, ?_, fun _ _ => rfl, ?_, rfl, ?_⟩
  · cases hdec : decryptPassword M d.ble hex with
    | oob =>
      unfold PasswordCallbacks.onWrite
      rw [hdec]
      simp
    | ret pw =>
      rw [passwordWrite_eq M hex d pw hdec]
      simp
  · intro d1 h1
    cases hdec : decryptPassword M d.ble hex with
    | oob =>
      unfold PasswordCallbacks.onWrite at h1
      rw [hdec] at h1
      simp at h1
    | ret pw =>
      rw [passwordWrite_eq M hex d pw hdec] at h1
      simp only [Exec.ret.injEq] at h1
      subst h1
      exact ⟨rfl, rfl, rfl, rfl, rfl⟩
  · intro enc upper key hkx hkey hklen hset henc hdec
    have h := decryptPassword_encryptPassword M enc upper d.ble key [] hkx hkey hklen hset henc
      hdec (by decide)
    exact passwordWrite_eq M _ d [] h

/-- The effect of C28 on the keyed session with the cached password "hunter2": the
encrypted empty password erases it and sets `STATE_FAILED`, the ssid staying. -/
theorem C28_witness :
    PasswordCallbacks.onWrite standInTls emptyPasswordCiphertext
        { readyDevice with ble := { readyDevice.ble with
            sharedSecret := sampleKey ++ sampleKey } }
      = .ret { readyDevice with ble := { readyDevice.ble with
            sharedSecret := sampleKey ++ sampleKey,
            receivedPassword := [], currentState := STATE_FAILED } } :=
  (C28_exact_effect_of_a_password_write standInTls emptyPasswordCiphertext
      { readyDevice with ble := { readyDevice.ble with
          sharedSecret := sampleKey ++ sampleKey } }).1 [] (by decide)

/-! ## Pairs without a hex digit -/

theorem skipSpace_mem : ∀ (l : List Byte) (c : Byte), c ∈ skipSpace l → c ∈ l
  | [], _, h => by simp [skipSpace] at h
  | x :: xs, c, h => by
    unfold skipSpace at h
    split at h
    · exact List.mem_cons_of_mem _ (skipSpace_mem xs c h)
    · exact h

theorem takeSign_mem (l : List Byte) (c : Byte) (h : c ∈ (takeSign l).1) : c ∈ l := by
  cases l with
  | nil => simp [takeSign] at h
  | cons x xs =>
    simp only [takeSign] at h
    by_cases h1 : x.val = 45
    · rw [if_pos h1] at h
      exact List.mem_cons_of_mem _ h
    · rw [if_neg h1] at h
      by_cases h2 : x.val = 43
      · rw [if_pos h2] at h
        exact List.mem_cons_of_mem _ h
      · rw [if_neg h2] at h
        exact h

theorem takeHexMark_mem (l : List Byte) (c : Byte) (h : c ∈ takeHexMark l) : c ∈ l := by
  unfold takeHexMark at h
  split at h
  · split at h
    · exact List.mem_cons_of_mem _ (List.mem_cons_of_mem _ h)
    · exact h
  · exact h

theorem strtoulDigits_no_digit (l : List Byte) (h : ∀ c ∈ l, isHexDigit c = false) :
    strtoulDigits 16 l 0 false = (0, false) := by
  cases l with
  | nil => rfl
  | cons c cs =>
    have hc := h c (List.mem_cons_self c cs)
    unfold isHexDigit at hc
    unfold strtoulDigits
    cases hd : digitVal c with
    | none => rfl
    | some v =>
      rw [hd] at hc
      have hv : 16 ≤ v := by simpa using hc
      simp only [if_pos hv]

/-- A text without any hex digit decodes to 0 under `strtoul(s, NULL, 16)`. -/
theorem strtoul16_no_digit (s : AString) (h : ∀ c ∈ s, isHexDigit c = false) :
    strtoul16 s = 0 := by
  have hs : ∀ c ∈ takeHexMark (takeSign (skipSpace s)).1, isHexDigit c = false :=
    fun c hc => h c (skipSpace_mem _ _ (takeSign_mem _ _ (takeHexMark_mem _ _ hc)))
  have hd := strtoulDigits_no_digit _ hs
  unfold strtoul16
  rcases hts : takeSign (skipSpace s) with ⟨rest, neg⟩
  rw [hts] at hd
  simp only [hd]
  cases neg <;> simp

/-! ## Input that is not hex text -/

theorem strtoul16_stops : ∀ c : Byte, isHexDigit c = false →
    strtoul16 [byteOfNat 52, c] = 4 := by
  decide

theorem strtoul16_skips : ∀ c : Byte, isspace c = true →
    strtoul16 [c, byteOfNat 52] = 4 := by
  decide

/-- C29. Input that is not hex text passes the format check. A string of 130 chars
whose first pair is the digit `4` followed by any char that is not a hex digit (such as
`4G`), or white space followed by `4` (such as a blank and `4`), has the tag byte
`0x04`, whatever its other chars: `processAppPublicKey` accepts it when the mbedTLS steps
succeed on the decoded bytes. A pair without any hex digit, such as `ZZ`, decodes to 0.
With the stand-in library the input `4G` followed by 64 times `ZZ` completes the key
exchange. -/
theorem C29_non_hex_input_passes_the_format_check (M : Mbedtls) (s : BLEProvisioning)
    (c : Byte) (rest : AString) (hrest : rest.length = 128) :
    (isHexDigit c = false →
        (byteOfNat 52 :: c :: rest).length = 130
        ∧ hexByteAt (byteOfNat 52 :: c :: rest) 0 = 4
        ∧ (M.mbedtls_ecp_group_load = 0
            ∧ M.mbedtls_ecp_point_read_binary (hexToBytes (byteOfNat 52 :: c :: rest) 65) = 0
            ∧ (M.mbedtls_ecdh_get_params s.ecdhContext
                (hexToBytes (byteOfNat 52 :: c :: rest) 65)).1 = 0
            ∧ (M.mbedtls_ecdh_calc_secret
                (M.mbedtls_ecdh_get_params s.ecdhContext
                  (hexToBytes (byteOfNat 52 :: c :: rest) 65)).2 s.sharedSecret).1 = 0 →
          (processAppPublicKey M s (byteOfNat 52 :: c :: rest)).1 = true))
    ∧ (isspace c = true →
        (c :: byteOfNat 52 :: rest).length = 130
        ∧ hexByteAt (c :: byteOfNat 52 :: rest) 0 = 4
        ∧ (M.mbedtls_ecp_group_load = 0
            ∧ M.mbedtls_ecp_point_read_binary (hexToBytes (c :: byteOfNat 52 :: rest) 65) = 0
            ∧ (M.mbedtls_ecdh_get_params s.ecdhContext
                (hexToBytes (c :: byteOfNat 52 :: rest) 65)).1 = 0
            ∧ (M.mbedtls_ecdh_calc_secret
                (M.mbedtls_ecdh_get_params s.ecdhContext
                  (hexToBytes (c :: byteOfNat 52 :: rest) 65)).2 s.sharedSecret).1 = 0 →
          (processAppPublicKey M s (c :: byteOfNat 52 :: rest)).1 = true))
    ∧ (∀ a b : Byte, isHexDigit a = false → isHexDigit b = false → strtoul16 [a, b] = 0)
    ∧ strtoul16 (lit "4G") = 4 ∧ strtoul16 (lit " 4") = 4 ∧ strtoul16 (lit "ZZ") = 0
    ∧ nonHexKey.length = 130
    ∧ nonHexKey.all isHexDigit = false
    ∧ hexToBytes nonHexKey 65 = 4 :: List.replicate 64 0
    ∧ (processAppPublicKey standInTls keyedDevice.ble nonHexKey).1 = true
    ∧ (processAppPublicKey standInTls bootDevice.ble blankKey).1 = true := by
  refine ⟨?_, ?_, ?_, by decide, by decide, by decide, by decide, by decide, by decide,
    by decide, by decide⟩
  rotate_left 2
  · intro a b ha hb
    refine strtoul16_no_digit [a, b] (fun x hx => ?_)
    simp only [List.mem_cons, List.mem_singleton, List.not_mem_nil, or_false] at hx
    rcases hx with hx | hx
    · rw [hx]; exact ha
    · rw [hx]; exact hb
  · intro hc
    have hl : (byteOfNat 52 :: c :: rest).length = 130 := by simp [hrest]
    have ht : hexByteAt (byteOfNat 52 :: c :: rest) 0 = 4 := by
      rw [hexByteAt_zero, strtoul16_stops c hc]
      rfl
    exact ⟨hl, ht, fun ⟨h3, h4, h5, h6⟩ =>
      processAppPublicKey_ok M s _ ⟨hl, ht, h3, h4, h5, h6⟩⟩
  · intro hc
    have hl : (c :: byteOfNat 52 :: rest).length = 130 := by simp [hrest]
    have ht : hexByteAt (c :: byteOfNat 52 :: rest) 0 = 4 := by
      rw [hexByteAt_zero, strtoul16_skips c hc]
      rfl
    exact ⟨hl, ht, fun ⟨h3, h4, h5, h6⟩ =>
      processAppPublicKey_ok M s _ ⟨hl, ht, h3, h4, h5, h6⟩⟩

/-- Witness of C29: the pair `4G` before 128 chars `2`. -/
theorem C29_witness :
    (List.replicate 128 (byteOfNat 50)).length = 128
    ∧ isHexDigit (byteOfNat 71) = false
    ∧ hexByteAt (byteOfNat 52 :: byteOfNat 71 :: List.replicate 128 (byteOfNat 50)) 0 = 4 :=
  ⟨by decide, by decide,
   ((C29_non_hex_input_passes_the_format_check standInTls bootDevice.ble (byteOfNat 71)
      (List.replicate 128 (byteOfNat 50)) (by decide)).1 (by decide)).2.1⟩

/-! ## The scan result payload -/

namespace WiFiManager

theorem networkJson_succ (i : Nat) (n : ScanRecord) :
    networkJson (i + 1) n = lit "," ++ networkJson 0 n := by
  have h0 : lit "" = ([] : AString) := rfl
  simp [networkJson, h0, List.append_assoc]

end WiFiManager

/-- Appending a network to a list appends the text the loop body builds for it. -/
theorem openArray_snoc (done : List ScanRecord) (n : ScanRecord) :
    openArray (done ++ [n]) = openArray done ++ networkJson done.length n := by
  cases done with
  | nil => simp [openArray, commaSeparated]
  | cons d ds =>
    simp [openArray, commaSeparated, networkJson_succ, List.append_assoc]

/-- A longer list has a longer encoding. -/
theorem openArray_length_append (ext : List ScanRecord) :
    ∀ done : List ScanRecord, (openArray done).length ≤ (openArray (done ++ ext)).length := by
  induction ext with
  | nil => intro done; simp
  | cons x ext ih =>
    intro done
    have h1 := ih (done ++ [x])
    rw [List.append_assoc, List.singleton_append] at h1
    have h2 : (openArray done).length ≤ (openArray (done ++ [x])).length := by
      rw [openArray_snoc, List.length_append]
      omega
    omega

theorem encodeNetworks_length (nets : List ScanRecord) :
    (encodeNetworks nets).length = (openArray nets).length + 1 := by
  simp [encodeNetworks, lit]

/-- The payload loop, from the text of the records `done` visited so far: it stops after
the longest prefix of the list whose encoding, closing bracket included, fits. -/
theorem scanLoop_prefix : ∀ (rest done : List ScanRecord),
    (openArray done).length + 1 ≤ MAX_PAYLOAD_SIZE →
    ∃ k : Nat, k ≤ rest.length
      ∧ scanLoop rest done.length (openArray done)
          = openArray ((done ++ rest).take (done.length + k))
      ∧ (openArray ((done ++ rest).take (done.length + k))).length + 1 ≤ MAX_PAYLOAD_SIZE
      ∧ (k < rest.length →
          MAX_PAYLOAD_SIZE
            < (openArray ((done ++ rest).take (done.length + k + 1))).length + 1)
  | [], done, h => by
    refine ⟨0, Nat.le_refl _, ?_, ?_, ?_⟩
    · simp [scanLoop]
    · simpa using h
    · intro hk
      simp at hk
  | n :: rest, done, h => by
    by_cases hfit : (openArray done).length + (networkJson done.length n).length + 1
        > MAX_PAYLOAD_SIZE
    · refine ⟨0, Nat.zero_le _, ?_, ?_, ?_⟩
      · simp [scanLoop, hfit]
      · simpa using h
      · intro _
        have ht : (done ++ n :: rest).take (done.length + 0 + 1) = done ++ [n] := by
          rw [Nat.add_zero, List.take_append_eq_append_take]
          simp
        rw [ht, openArray_snoc, List.length_append]
        omega
    · have hfit2 : (openArray (done ++ [n])).length + 1 ≤ MAX_PAYLOAD_SIZE := by
        rw [openArray_snoc, List.length_append]
        omega
      obtain ⟨k, hk, heq, hb, hnext⟩ := scanLoop_prefix rest (done ++ [n]) hfit2
      have hl : (done ++ [n]).length = done.length + 1 := by simp
      have ha : done ++ [n] ++ rest = done ++ n :: rest := by simp
      rw [hl, ha, openArray_snoc] at heq
      rw [hl, ha] at hb hnext
      have e1 : done.length + 1 + k = done.length + (k + 1) := by omega
      have e2 : done.length + 1 + k + 1 = done.length + (k + 1) + 1 := by omega
      rw [e1] at heq hb
      rw [e2] at hnext
      refine ⟨k + 1, by simpa using hk, ?_, hb, ?_⟩
      · unfold scanLoop
        rw [if_neg hfit]
        exact heq
      · intro hk1
        exact hnext (by simpa using hk1)

/-- C30. Scan result payload bound. For every scan list, the text `scanNetworks` returns
is at most 480 bytes long, starts with `[` and ends with `]`, and is the encoding of a
prefix of the list, in scan order: the longest prefix whose encoding, closing bracket
included, fits in 480 bytes. For the empty list it is `[]`. Of the twelve networks of
`crowdedScan` the first six are sent (418 bytes; seven would take 488). -/
theorem C30_scan_result_payload_bound (found : List ScanRecord) :
    (scanNetworks found).length ≤ 480
    ∧ (scanNetworks found).head? = some (byteOfNat 91)
    ∧ (scanNetworks found).getLast? = some (byteOfNat 93)
    ∧ (∃ k : Nat, k ≤ found.length
        ∧ scanNetworks found = encodeNetworks (found.take k)
        ∧ ∀ j : Nat, j ≤ found.length → (encodeNetworks (found.take j)).length ≤ 480 → j ≤ k)
    ∧ (found = [] → scanNetworks found = lit "[]")
    ∧ scanNetworks crowdedScan = encodeNetworks (crowdedScan.take 6)
    ∧ (encodeNetworks (crowdedScan.take 6)).length = 418
    ∧ (encodeNetworks (crowdedScan.take 7)).length = 488 := by
  have hex : ∃ k : Nat, k ≤ found.length
      ∧ scanNetworks found = encodeNetworks (found.take k)
      ∧ (encodeNetworks (found.take k)).length ≤ 480
      ∧ ∀ j : Nat, j ≤ found.length → (encodeNetworks (found.take j)).length ≤ 480 → j ≤ k := by
    cases hf : found with
    | nil =>
      refine ⟨0, Nat.le_refl _, by decide, by decide, ?_⟩
      intro j hj _
      simpa using hj
    | cons n rest =>
      obtain ⟨k, hk, heq, hb, hnext⟩ := scanLoop_prefix (n :: rest) [] (by decide)
      simp only [List.nil_append, List.length_nil, Nat.zero_add] at heq hb hnext
      have h0 : openArray [] = lit "[" := rfl
      rw [h0] at heq
      refine ⟨k, hk, ?_, ?_, ?_⟩
      · unfold scanNetworks
        rw [if_neg (by simp), heq]
        rfl
      · rw [encodeNetworks_length]
        exact hb
      · intro j hj hjfit
        by_contra hlt
        have hk1 : k < (n :: rest).length := by omega
        have hbig := hnext hk1
        have hpre : (n :: rest).take j
            = (n :: rest).take (k + 1) ++ ((n :: rest).take j).drop (k + 1) := by
          have := List.take_append_drop (k + 1) ((n :: rest).take j)
          rw [List.take_take, Nat.min_eq_left (by omega)] at this
          exact this.symm
        have hmono := openArray_length_append (((n :: rest).take j).drop (k + 1))
          ((n :: rest).take (k + 1))
        rw [← hpre] at hmono
        rw [encodeNetworks_length] at hjfit
        have h480 : MAX_PAYLOAD_SIZE = 480 := rfl
        omega
  obtain ⟨k, hk, heq, hlen, hmax⟩ := hex
  refine ⟨by rw [heq]; exact hlen, ?_, ?_, ⟨k, hk, heq, hmax⟩, ?_, by decide, by decide,
    by decide⟩
  · rw [heq]
    rfl
  · rw [heq]
    simp [encodeNetworks, lit, byteOfNat]
  · intro h
    rw [h]
    rfl

/-! ## The end of the wait -/

namespace WiFiManager

/-- What `connectStation` returns, from the statics at the end of the wait: `CONN_SUCCESS`
when they hold it, and otherwise what they hold after the events of the cleanup. -/
theorem connectStation_waited (R : Radio) (ssid password : AString) (w : WiFiManager) :
    (connectStation R ssid password w).1
      = if (waited R ssid password w).connectionResult = CONN_SUCCESS then CONN_SUCCESS
        else (deliver R.late (waited R ssid password w)).connectionResult :=
  connectStation_result R ssid password w

/-- The wait, as a loop over the batches of `Radio.polls` from the start of the attempt. -/
theorem waited_polls (R : Radio) (ssid password : AString) (w : WiFiManager) :
    waited R ssid password w
      = waitLoop (WIFI_CONNECT_TIMEOUT_MS / 100 + 2) R.polls (started ssid password w) := by
  have hd : (started ssid password w).connectionDone = false := rfl
  rw [waitLoop_step (WIFI_CONNECT_TIMEOUT_MS / 100 + 1) R.polls _ hd]
  rfl

/-- A wait in which the event `t` makes the first terminal classification is left after
the batch of `t`, all events of that batch handled. -/
theorem waited_deciding (R : Radio) (ssid password : AString) (w : WiFiManager)
    (pre : List (List WiFiEvent)) (p : List WiFiEvent) (t : WiFiEvent) (q : List WiFiEvent)
    (rest : List (List WiFiEvent))
    (hreg : w.eventHandlerRegistered = true)
    (hpolls : R.polls = pre ++ (p ++ t :: q) :: rest)
    (hpre : pre.length ≤ WIFI_CONNECT_TIMEOUT_MS / 100 + 1)
    (hnt : nonTerminal (pre.flatten ++ p) = true)
    (hterm : (onEvent t (counted (handshakeTimeouts (pre.flatten ++ p))
        (started ssid password w))).connectionDone = true) :
    waited R ssid password w
      = q.foldl (fun acc e => onEvent e acc)
          (onEvent t (counted (handshakeTimeouts (pre.flatten ++ p))
            (started ssid password w))) := by
  obtain ⟨hall, hc⟩ := (nonTerminal_iff _).mp hnt
  rw [handshakeTimeouts_append] at hc hterm ⊢
  have h2 : ∀ e ∈ pre.flatten, (e.isIgnored || e.isHandshakeTimeout) = true :=
    fun e he => hall e (List.mem_append_left _ he)
  have h3 : ∀ e ∈ p, (e.isIgnored || e.isHandshakeTimeout) = true :=
    fun e he => hall e (List.mem_append_right _ he)
  have hn : WIFI_CONNECT_TIMEOUT_MS / 100 + 2
      = (WIFI_CONNECT_TIMEOUT_MS / 100 + 1 - pre.length + 1) + pre.length := by omega
  have e2 := waitLoop_prefix pre ((p ++ t :: q) :: rest)
    (WIFI_CONNECT_TIMEOUT_MS / 100 + 1 - pre.length + 1)
    (started ssid password w) hreg rfl h2
    (by show 0 + _ < 2; omega)
  have hcc : counted (handshakeTimeouts p) (counted (handshakeTimeouts pre.flatten)
        (started ssid password w))
      = counted (handshakeTimeouts pre.flatten + handshakeTimeouts p)
          (started ssid password w) := by
    rw [counted_counted]
  have e3 := waitLoop_deciding_slot (WIFI_CONNECT_TIMEOUT_MS / 100 + 1 - pre.length) p t q rest
    (counted (handshakeTimeouts pre.flatten) (started ssid password w)) hreg rfl h3
    (by show 0 + _ + _ < 2; omega)
    (by rw [hcc]; exact hterm)
  rw [waited_polls, hpolls, hn, e2, e3, hcc]

/-- What a call does depends on the radio through the end of the wait, the events of the
cleanup and the answer of `MDNS.begin` only. -/
theorem connectStation_congr (R R2 : Radio) (ssid password : AString) (w : WiFiManager)
    (hw : waited R2 ssid password w = waited R ssid password w)
    (hlate : R2.late = R.late) (hmdns : R2.mdnsOk = R.mdnsOk) :
    connectStation R2 ssid password w = connectStation R ssid password w := by
  unfold waited at hw
  unfold connectStation
  simp only [] at hw ⊢
  rw [show ({ WiFiManager.resetConnectionState w with
        beginCalls := (WiFiManager.resetConnectionState w).beginCalls
          ++ [(cstr ssid, cstr password)] } : WiFiManager) = started ssid password w from rfl,
    hw, hlate, hmdns]

/-- When the cleanup sees only ignored events, a call returns `CONN_SUCCESS` exactly when
its wait is left with it, and it returns what the wait is left with. -/
theorem connectStation_late_ignored (R : Radio) (ssid password : AString) (w : WiFiManager)
    (hlate : ∀ e ∈ R.late, e.isIgnored = true) :
    (connectStation R ssid password w).1 = (waited R ssid password w).connectionResult := by
  rw [connectStation_waited, deliver_ignored _ _ hlate]
  split
  · next h => exact h.symm
  · rfl

end WiFiManager

/-! ## Immediately terminal reasons, the timeout, and the events that follow -/

/-- C14 (amended). Immediately terminal disconnect reasons. For every attempt on a
registered handler and every prefix of non-terminal events, a disconnect with reason
201 that arrives before the timeout sets the done flag with `CONN_SSID_NOT_FOUND`, and
one with reason 202 or 2 sets it with `CONN_AUTH_FAILED`, at that event, whatever the
statics. The wait is then left after the batch in which the event arrived, all events of
that batch handled and none of a later one: the events the radio holds for later polls,
and the 30-second timeout, play no part. `connectStation` returns that outcome when the
events still handled before it returns (those that follow the disconnect in its batch,
and those of the cleanup delay) are ignored events. -/
theorem C14_immediately_terminal_reasons (w : WiFiManager) (ssid password : AString)
    (R : Radio) (pre : List (List WiFiEvent)) (p q : List WiFiEvent)
    (rest : List (List WiFiEvent)) (reason : Byte)
    (hreg : w.eventHandlerRegistered = true)
    (hpolls : R.polls
      = pre ++ (p ++ ARDUINO_EVENT_WIFI_STA_DISCONNECTED reason :: q) :: rest)
    (hpre : pre.length ≤ WIFI_CONNECT_TIMEOUT_MS / 100 + 1)
    (hnt : nonTerminal (pre.flatten ++ p) = true)
    (hreason : reason.val = 201 ∨ reason.val = 202 ∨ reason.val = 2) :
    (∀ w1 : WiFiManager,
        (onEvent (ARDUINO_EVENT_WIFI_STA_DISCONNECTED reason) w1).connectionDone = true
        ∧ (onEvent (ARDUINO_EVENT_WIFI_STA_DISCONNECTED reason) w1).connectionResult
            = (if reason.val = 201 then CONN_SSID_NOT_FOUND else CONN_AUTH_FAILED))
    ∧ waited R ssid password w
        = q.foldl (fun acc e => onEvent e acc)
            (onEvent (ARDUINO_EVENT_WIFI_STA_DISCONNECTED reason)
              (counted (handshakeTimeouts (pre.flatten ++ p)) (started ssid password w)))
    ∧ (∀ (R2 : Radio) (rest2 : List (List WiFiEvent)),
        R2.polls = pre ++ (p ++ ARDUINO_EVENT_WIFI_STA_DISCONNECTED reason :: q) :: rest2 →
        R2.late = R.late → R2.mdnsOk = R.mdnsOk →
        connectStation R2 ssid password w = connectStation R ssid password w)
    ∧ ((∀ e ∈ q, e.isIgnored = true) → (∀ e ∈ R.late, e.isIgnored = true) →
        (connectStation R ssid password w).1
          = (if reason.val = 201 then CONN_SSID_NOT_FOUND else CONN_AUTH_FAILED)) := by
  have hev : ∀ w1 : WiFiManager,
      (onEvent (ARDUINO_EVENT_WIFI_STA_DISCONNECTED reason) w1).connectionDone = true
      ∧ (onEvent (ARDUINO_EVENT_WIFI_STA_DISCONNECTED reason) w1).connectionResult
          = (if reason.val = 201 then CONN_SSID_NOT_FOUND else CONN_AUTH_FAILED) := by
    intro w1
    rcases hreason with h | h
    · rw [if_pos h]
      exact onEvent_reason_201 reason w1 h
    · have hne : ¬ reason.val = 201 := by omega
      rw [if_neg hne]
      exact onEvent_reason_auth reason w1 h
  have hw := waited_deciding R ssid password w pre p _ q rest hreg hpolls hpre hnt (hev _).1
  refine ⟨hev, hw, ?_, ?_⟩
  · intro R2 rest2 hp2 hl2 hm2
    have hw2 := waited_deciding R2 ssid password w pre p _ q rest2 hreg hp2 hpre hnt (hev _).1
    exact connectStation_congr R R2 ssid password w (by rw [hw2, hw]) hl2 hm2
  · intro hq hlate
    have hf := deliver_ignored q
      (onEvent (ARDUINO_EVENT_WIFI_STA_DISCONNECTED reason)
        (counted (handshakeTimeouts (pre.flatten ++ p)) (started ssid password w))) hq
    unfold deliver at hf
    rw [onEvent_registered] at hf
    have hreg2 : (counted (handshakeTimeouts (pre.flatten ++ p))
        (started ssid password w)).eventHandlerRegistered = true := hreg
    rw [if_pos hreg2] at hf
    rw [connectStation_late_ignored R ssid password w hlate, hw, hf]
    exact (hev _).2

/-- Witness of C14: on `decidedRadio` reason 201 comes after one handshake timeout and is
followed in its batch by ignored events; on `earlyAuthRadio` reason 2 arrives before the
first test of the loop. -/
theorem C14_witness :
    bootDevice.wifi.eventHandlerRegistered = true
    ∧ (connectStation decidedRadio (lit "HomeNet") (lit "hunter2") bootDevice.wifi).1
        = CONN_SSID_NOT_FOUND
    ∧ (connectStation earlyAuthRadio (lit "HomeNet") (lit "hunter2") bootDevice.wifi).1
        = CONN_AUTH_FAILED :=
  ⟨by decide,
   (C14_immediately_terminal_reasons bootDevice.wifi (lit "HomeNet") (lit "hunter2")
      decidedRadio [[]] [handshakeTimeout15]
      [ARDUINO_EVENT_WIFI_STA_DISCONNECTED 8, ARDUINO_EVENT_WIFI_STA_CONNECTED]
      [[ARDUINO_EVENT_WIFI_STA_GOT_IP]] 201 (by decide) rfl (by decide) (by decide)
      (by decide)).2.2.2 (by decide) (by decide),
   (C14_immediately_terminal_reasons bootDevice.wifi (lit "HomeNet") (lit "hunter2")
      earlyAuthRadio [] [ARDUINO_EVENT_WIFI_STA_CONNECTED] []
      [[ARDUINO_EVENT_WIFI_STA_GOT_IP]] 2 (by decide) rfl (by decide) (by decide)
      (by decide)).2.2.2 (by decide) (by decide)⟩

/-- C14 fails as stated: a "network not found" that is the first event of an attempt
does not end it with `CONN_SSID_NOT_FOUND` when "IP acquired" follows within the same
poll (the call returns `CONN_SUCCESS`), nor when "authentication failed" arrives during
the cleanup (the call returns `CONN_AUTH_FAILED`). -/
theorem C14_counterexample :
    overtakenRadio.slots
        = [[ARDUINO_EVENT_WIFI_STA_DISCONNECTED 201, ARDUINO_EVENT_WIFI_STA_GOT_IP]]
    ∧ (connectStation overtakenRadio (lit "HomeNet") (lit "hunter2") bootDevice.wifi).1
        = CONN_SUCCESS
    ∧ lateAuthRadio.slots = [[ARDUINO_EVENT_WIFI_STA_DISCONNECTED 201]]
    ∧ (connectStation lateAuthRadio (lit "HomeNet") (lit "hunter2") bootDevice.wifi).1
        = CONN_AUTH_FAILED := by
  decide

/-- One callback in the state `STATE_SUCCESS` with the completed flag set: what it does
to the flag, to advertising and to the state variable, by command. -/
theorem step_after_success (M : Mbedtls) (c : Command) (d d1 : Device)
    (hs : d.ble.currentState = STATE_SUCCESS)
    (hdone : d.ble.provisioningCompleted = true)
    (hstep : step M c d = .ret d1) :
    d1.ble.provisioningCompleted = true
    ∧ (d.ble.advertising = false → d1.ble.advertising = false)
    ∧ (((∃ ok, c = .detach ok) ∨ (∃ v, c = .writeSSID v) ∨ (∃ v R, c = .writeConnect v R)
          ∨ (∃ v, c = .writePublicKey v ∧ (processAppPublicKey M d.ble v).1 = false)) →
        d1.ble.currentState = STATE_SUCCESS)
    ∧ (c = .attach → d1.ble.currentState = STATE_CONNECTED)
    ∧ ((∃ v, c = .writePublicKey v ∧ (processAppPublicKey M d.ble v).1 = true) →
        d1.ble.currentState = STATE_KEY_EXCHANGED)
    ∧ ((∃ v, c = .writePassword v) →
        d1.ble.currentState = STATE_CREDENTIALS_RECEIVED ∨ d1.ble.currentState = STATE_FAILED) := by
  cases c with
  | attach =>
    simp only [step, Exec.ret.injEq] at hstep
    subst hstep
    simp [ServerCallbacks.onConnect, hdone]
  | detach ok =>
    simp only [step, Exec.ret.injEq] at hstep
    subst hstep
    simp [ServerCallbacks.onDisconnect, hdone, hs]
  | writePublicKey v =>
    simp only [step, Exec.ret.injEq] at hstep
    subst hstep
    obtain ⟨h1, h2, h3, h4⟩ := processAppPublicKey_frame M d.ble v
    simp only [PublicKeyCallbacks.onWrite]
    refine ⟨by rw [h1, hdone], fun h => by rw [h2, h], ?_, by simp, ?_, by simp⟩
    · rintro (⟨_, h⟩ | ⟨_, h⟩ | ⟨_, _, h⟩ | ⟨w, h, hf⟩)
      · cases h
      · cases h
      · cases h
      · cases h
        rw [(h3 hf).1, hs]
    · rintro ⟨w, h, ht⟩
      cases h
      exact (h4 ht).1
  | writeSSID v =>
    simp only [step, Exec.ret.injEq] at hstep
    subst hstep
    simp [SSIDCallbacks.onWrite, hdone, hs]
  | writePassword v =>
    simp only [step, PasswordCallbacks.onWrite] at hstep
    split at hstep
    · cases hstep
    · split at hstep
      · simp only [Exec.ret.injEq] at hstep
        subst hstep
        simp [hdone]
      · simp only [Exec.ret.injEq] at hstep
        subst hstep
        simp [hdone]
  | writeConnect v R =>
    simp only [step, Exec.ret.injEq] at hstep
    subst hstep
    obtain ⟨h1, h2⟩ := onWrite_frame R v d
    have h3 : ConnectCallbacks.onWrite R v d = d := by
      unfold ConnectCallbacks.onWrite
      rw [if_neg]
      rw [hs]
      simp
    refine ⟨h1 hdone, h2, ?_, by simp, by simp, by simp⟩
    intro _
    rw [h3, hs]

/-! ## After Success, over any run -/

/-- C4 (amended). Success is latched in the completed flag. The success branch of the
trigger sets `STATE_SUCCESS` and `provisioningCompleted` and stops advertising. From a
session with `provisioningCompleted` set, after any run of later commands and transport
events and one more, the flag is still set, and advertising, once off, is still off: it
is never restarted. The state variable is not latched: in `STATE_SUCCESS` it stays
`STATE_SUCCESS` under a peer disconnect, an ssid write, a connect-trigger and a rejected
peer public key, while a peer attach sets `STATE_CONNECTED`, an accepted peer public key
sets `STATE_KEY_EXCHANGED`, and a password write that returns sets
`STATE_CREDENTIALS_RECEIVED` or `STATE_FAILED`. -/
theorem C4_success_is_latched_in_the_completed_flag (M : Mbedtls) (cmds : List Command)
    (c : Command) (d d1 d2 : Device)
    (hdone : d.ble.provisioningCompleted = true)
    (hrun : run M cmds d = .ret d1)
    (hstep : step M c d1 = .ret d2) :
    d1.ble.provisioningCompleted = true
    ∧ d2.ble.provisioningCompleted = true
    ∧ (d.ble.advertising = false →
        d1.ble.advertising = false ∧ d2.ble.advertising = false)
    ∧ (d1.ble.currentState = STATE_SUCCESS →
        (((∃ ok, c = .detach ok) ∨ (∃ v, c = .writeSSID v) ∨ (∃ v R, c = .writeConnect v R)
            ∨ (∃ v, c = .writePublicKey v ∧ (processAppPublicKey M d1.ble v).1 = false)) →
          d2.ble.currentState = STATE_SUCCESS)
        ∧ (c = .attach → d2.ble.currentState = STATE_CONNECTED)
        ∧ ((∃ v, c = .writePublicKey v ∧ (processAppPublicKey M d1.ble v).1 = true) →
          d2.ble.currentState = STATE_KEY_EXCHANGED)
        ∧ ((∃ v, c = .writePassword v) →
          d2.ble.currentState = STATE_CREDENTIALS_RECEIVED
            ∨ d2.ble.currentState = STATE_FAILED))
    ∧ (∀ (R : Radio) (d0 : Device),
        d0.ble.currentState = STATE_CREDENTIALS_RECEIVED →
        (WiFiManager.connectStation R d0.ble.receivedSSID d0.ble.receivedPassword d0.wifi).1
          = CONN_SUCCESS →
        (ConnectCallbacks.onWrite R (lit "1") d0).ble.currentState = STATE_SUCCESS
        ∧ (ConnectCallbacks.onWrite R (lit "1") d0).ble.provisioningCompleted = true
        ∧ (ConnectCallbacks.onWrite R (lit "1") d0).ble.advertising = false) := by
  have hr := run_completed M cmds d d1 hrun
  have hs := step_completed M c d1 d2 hstep
  have h1 : d1.ble.provisioningCompleted = true := by rw [hr.1, hdone]; rfl
  have h2 : d2.ble.provisioningCompleted = true := by rw [hs.1, h1]; rfl
  refine ⟨h1, h2, ?_, ?_, ?_⟩
  · intro hadv
    have ha1 : d1.ble.provisioningCompleted = true → d1.ble.advertising = false :=
      hr.2 (fun _ => hadv)
    exact ⟨ha1 h1, hs.2 ha1 h2⟩
  · intro hst
    have h := step_after_success M c d1 d2 hst h1 hstep
    exact ⟨h.2.2.1, h.2.2.2.1, h.2.2.2.2.1, h.2.2.2.2.2⟩
  · intro R d0 hcr hres
    have ha := onWrite_accepted_ble R d0 hcr
    have hb := onWrite_accepted_effects R d0 hcr
    simp only [hres, if_true] at ha hb
    exact ⟨ha.1, hb.2.2.1, hb.2.2.2.1⟩

/-- Witness of C4: after Success the peer comes back, writes a password (the state is
`STATE_CREDENTIALS_RECEIVED` again) and disconnects: the flag is set and advertising
stays off. -/
theorem C4_witness :
    successDevice.ble.provisioningCompleted = true
    ∧ successDevice.ble.advertising = false
    ∧ run standInTls [.attach, .writePassword zeroKeyCiphertext] successDevice
        = .ret revisitedDevice
    ∧ revisitedDevice.ble.currentState = STATE_CREDENTIALS_RECEIVED
    ∧ (ServerCallbacks.onDisconnect true revisitedDevice).ble.provisioningCompleted = true
    ∧ (ServerCallbacks.onDisconnect true revisitedDevice).ble.advertising = false :=
  ⟨by decide, by decide, by decide, by decide,
   (C4_success_is_latched_in_the_completed_flag standInTls
      [.attach, .writePassword zeroKeyCiphertext] (.detach true) successDevice
      revisitedDevice (ServerCallbacks.onDisconnect true revisitedDevice)
      (by decide) (by decide) rfl).2.1,
   ((C4_success_is_latched_in_the_completed_flag standInTls
      [.attach, .writePassword zeroKeyCiphertext] (.detach true) successDevice
      revisitedDevice (ServerCallbacks.onDisconnect true revisitedDevice)
      (by decide) (by decide) rfl).2.2.1 (by decide)).2⟩

end PixelTree
